import Mathlib

/-!
KarmaView: the viewer coordinator of `src/KarmaView/mainwidget.cpp`

A shallow embedding of `MainWidgetPrivate` / `MainWidget`: the viewer state is a
record, every C++ member function is a function from states to states, and the
calls the viewer makes into its collaborators (mesh, bounding volumes, the
static-geometry hierarchy, the GL layer) are appended to a call trace kept in
the state.

Conventions
* `int` is 32 bit two's complement (`wrapInt`), `size_t` is 64 bit (`toSizeT`).
* Pointers are natural numbers, `0` is the null pointer.  Objects created with
  `new` live in `Heap`; `delete` removes them.
* Vertex positions are values of an arbitrary type `V`: the viewer only copies
  them.
* Lights, camera motion, instance transforms, gestures and the drag velocity are
  float state of external objects and are not part of the record.
* The hierarchy builder `KStaticGeometry::build` is not part of the source file;
  its bottom-up method is modelled from the specification, with box coordinates
  taken as exact integers.
-/

set_option maxRecDepth 100000

namespace KarmaView

/-! ## Machine integers -/

/-- Conversion to `int` (32 bit, two's complement): used for `static_cast<int>`,
for the narrowing member initialiser of `m_maxDraw` and for `++` / `--`. -/
def wrapInt (x : Int) : Int := (x + 2 ^ 31) % 2 ^ 32 - 2 ^ 31

/-- Conversion of an `int` to `size_t` (64 bit), as done by the usual arithmetic
conversions when an `int` is compared with a `size_t`. -/
def toSizeT (x : Int) : Nat := (x % 2 ^ 64).toNat

/-- Comparison `a > b` of an `int` with a `size_t`: the `int` is converted. -/
def intGtSize (a : Int) (b : Nat) : Bool := decide (toSizeT a > b)

/-! ## Plain data -/

/-- The enum `PresentType` (lines 57-69), without the count `MaxPresentations`. -/
inductive PresentType
  | PresentComposition
  | PresentDepth
  | PresentLinearDepth
  | PresentPosition
  | PresentViewNormal
  | PresentDiffuse
  | PresentSpecular
  | PresentVelocity
  | PresentLightAccumulation
  deriving DecidableEq, Repr

/-- The keys `updateEvent` asks `KInputManager` about. -/
inductive Key
  | Plus | Underscore
  | BracketLeft | BracketRight | BraceLeft | BraceRight
  | Control | Shift
  | W | S | A | D | E | Q
  | X | Y | Z
  | O | B | T
  | ParenRight | Exclam | At | NumberSign | Dollar | Percent | AsciiCircum
  | Ampersand | Asterisk
  | Key_0 | Key_1 | Key_2 | Key_3 | Key_4 | Key_5 | Key_6
  deriving DecidableEq, Repr

/-- The construction method tag passed to `KStaticGeometry::build`. -/
inductive BuildMethod
  | BottomUpMethod
  | TopDownMethod
  deriving DecidableEq, Repr

/-- The lambda `depthPred` of line 802: `(void)numTriangles; return depth >= 7;`. -/
def depthPred (numTriangles depth : Nat) : Bool :=
  let _ := numTriangles
  decide (depth ≥ 7)

/-- The lambda `trianglePred` of line 818: `(void)depth; return numTriangles < 500;`. -/
def trianglePred (numTriangles depth : Nat) : Bool :=
  let _ := depth
  decide (numTriangles < 500)

/-- Which of the two lambdas is handed to `build`. -/
inductive Terminator
  | depth7
  | triangles500
  deriving DecidableEq, Repr

/-- The function a `Terminator` stands for. -/
def Terminator.apply : Terminator → Nat → Nat → Bool
  | .depth7 => depthPred
  | .triangles500 => trianglePred

/-- The seven bounding volumes of `MainWidgetPrivate`, by class and fit method. -/
inductive VolumeKind
  | aabbMinMax
  | sphereCentroid
  | sphereRitters
  | sphereLarssons
  | spherePca
  | ellipsoidPca
  | orientedPca
  deriving DecidableEq, Repr

/-! ## The half-edge mesh interface -/

/-- A half-edge as read by the boundary query: target vertex, next half-edge and
face index, `face == 0` being the boundary sentinel (`to_` is the member `to`). -/
structure HalfEdge where
  to_ : Nat
  next : Nat
  face : Nat
  deriving DecidableEq, Repr

/-- A mesh vertex; only its position is read. -/
structure Vertex (V : Type) where
  position : V

/-- The read interface of `KHalfEdgeMesh` used by `loadObj`: the half-edge
container and the two index accessors.  The class itself is not part of
`mainwidget.cpp`, so the accessors are fields. -/
structure KHalfEdgeMesh (V : Type) where
  halfEdges : List HalfEdge
  vertex : Nat → Vertex V
  halfEdge : Nat → HalfEdge

/-! ## Heap objects -/

/-- One registration made by `addGeometry(mesh, transform)`.  The transform of
loop iteration `i` is the translation `(cos(i·2π/4)·10, 0, sin(i·2π/4)·10)`; it is
recorded by its iteration number. -/
structure GeometryInstance where
  mesh : Nat
  transform : Nat
  deriving DecidableEq, Repr

/-- A `KStaticGeometry` object as far as the viewer observes it: the registered
instances, the last completed build (if any) and the value `depth()` returns. -/
structure KStaticGeometry where
  instances : List GeometryInstance
  built : Option (BuildMethod × Terminator)
  depth : Nat
  deriving DecidableEq, Repr

/-- An object created with `new`. -/
inductive Obj
  | mesh
  | volume (kind : VolumeKind) (mesh : Nat)
  | geometry (g : KStaticGeometry)
  deriving DecidableEq, Repr

/-- The free store: the live objects with their addresses, and a lower bound for
the next address. -/
structure Heap where
  objs : List (Nat × Obj)
  next : Nat
  deriving DecidableEq, Repr

/-- The first object stored under an address in a list of live objects. -/
def lookupObj : List (Nat × Obj) → Nat → Option Obj
  | [], _ => none
  | (k, o) :: rest, p => if k = p then some o else lookupObj rest p

/-- The list of live objects without those stored under an address. -/
def removeObj : List (Nat × Obj) → Nat → List (Nat × Obj)
  | [], _ => []
  | (k, o) :: rest, p => if k = p then removeObj rest p else (k, o) :: removeObj rest p

/-- The list of live objects with the object under an address overwritten. -/
def replaceObj : List (Nat × Obj) → Nat → Obj → List (Nat × Obj)
  | [], _, _ => []
  | (k, o) :: rest, p, o1 =>
    if k = p then (k, o1) :: replaceObj rest p o1 else (k, o) :: replaceObj rest p o1

/-- The largest address in a list of live objects. -/
def topAddress : List (Nat × Obj) → Nat
  | [] => 0
  | (k, _) :: rest => max k (topAddress rest)

/-- The largest live address. -/
def Heap.top (h : Heap) : Nat := topAddress h.objs

/-- The address the next `new` returns: never null, never a live address, never
below `next`. -/
def Heap.fresh (h : Heap) : Nat := max (max h.next 1) (h.top + 1)

/-- The effect of `new`: the object is stored at a fresh address. -/
def Heap.alloc (h : Heap) (o : Obj) : Nat × Heap :=
  (h.fresh, { objs := (h.fresh, o) :: h.objs, next := h.fresh + 1 })

/-- The object at an address, `none` for null and for addresses that are not live. -/
def Heap.find (h : Heap) (p : Nat) : Option Obj :=
  if p = 0 then none else lookupObj h.objs p

/-- Whether an address holds a live object. -/
def Heap.live (h : Heap) (p : Nat) : Bool := (h.find p).isSome

/-- The effect of `delete p`: nothing for the null pointer, otherwise the object at `p` is gone. -/
def Heap.delete (h : Heap) (p : Nat) : Heap :=
  if p = 0 then h else { h with objs := removeObj h.objs p }

/-- The hierarchy object at an address, if a live hierarchy is there. -/
def Heap.geometry (h : Heap) (p : Nat) : Option KStaticGeometry :=
  match h.find p with
  | some (.geometry g) => some g
  | _ => none

/-- Overwrite the hierarchy object at an address. -/
def Heap.setGeometry (h : Heap) (p : Nat) (g : KStaticGeometry) : Heap :=
  { h with objs := replaceObj h.objs p (.geometry g) }

/-! ## The call trace -/

/-- A call the viewer makes into a collaborator.  Calls on a hierarchy carry the
receiver as it is at the time of the call (`none`: null or dangling pointer). -/
inductive Call
  | deleteMesh (p : Nat)
  | newMesh (p : Nat)
  | calculateVertexNormals (mesh : Nat)
  | newVolume (kind : VolumeKind) (p : Nat) (mesh : Nat)
  | createOpenGLMesh (mesh : Nat)
  | boundaryQuery (mesh : Nat)
  | deleteGeometry (p : Nat)
  | newGeometry (p : Nat)
  | addGeometry (g : Nat) (receiver : Option KStaticGeometry) (mesh : Nat) (transform : Nat)
  | build (g : Nat) (receiver : Option KStaticGeometry) (method : BuildMethod) (pred : Terminator)
  | depth (g : Nat) (receiver : Option KStaticGeometry)
  | drawAabbs (g : Nat) (receiver : Option KStaticGeometry) (minDraw maxDraw : Int)
  | setWindowTitle (minDraw maxDraw : Int)
  | openFileDialog
  | beginFrame
  | endFrame
  | debugDraw
  | widgetPaintGL
  | commitGL
  | renderGL
  | bindBase (block : Nat) (point : Nat)
  | setViewMatrix (block : Nat)
  | updateRenderBlocks
  | groupsUpdate (curr prev : Nat)
  | passesCommit (curr prev : Nat)
  | passesRender
  | composeScene (presentation : PresentType)
  | drawVolume (kind : VolumeKind) (p : Nat) (inst : Nat)
  deriving DecidableEq, Repr

/-! ## The viewer state -/

/-- What `KInputManager` and the file dialog report during one `updateEvent`:
the triggered and held keys, the right mouse button, and the mesh read from the
file chosen in the dialog (`none`: the dialog was cancelled). -/
structure KInputManager (V : Type) where
  keyTriggered : Key → Bool
  keyPressed : Key → Bool
  buttonPressed : Bool
  openFile : Option (KHalfEdgeMesh V)

/-- The external hierarchy engine as far as the viewer reads it back: the depth
of the tree a completed build leaves, as a `size_t`. -/
structure Engine where
  depthAfterBuild : BuildMethod → Terminator → List GeometryInstance → Nat

/-- The members of `MainWidgetPrivate` (lines 102-154) that are plain viewer
state, followed by the world they point into: the content of `*m_halfEdgeMesh`,
the free store, the uniform buffer binding points (`boundBufferId i` is the
render block whose buffer is bound at point `i`, `none` when nothing is bound)
and the call trace. -/
structure MainWidgetPrivate (V : Type) where
  m_renderBlockIndex : Nat × Nat
  m_paused : Bool
  m_halfEdgeMesh : Nat
  m_quad : Nat
  m_boundaries : List (V × V)
  m_presentation : PresentType
  m_aabbBV : Nat
  m_sphereCentroidBV : Nat
  m_sphereRittersBV : Nat
  m_sphereLarssonsBV : Nat
  m_spherePcaBV : Nat
  m_ellipsoidPcaBV : Nat
  m_orientedPcaBV : Nat
  m_staticGeometryBottomUp7 : Nat
  m_staticGeometryBottomUp500 : Nat
  m_staticGeometryTopDown7 : Nat
  m_staticGeometryTopDown500 : Nat
  m_staticGeometry : Nat
  m_instances : List Nat
  b_rX : Bool
  b_rY : Bool
  b_rZ : Bool
  b_bv : List Bool
  m_minDraw : Int
  m_maxDraw : Int
  meshData : Option (KHalfEdgeMesh V)
  heap : Heap
  boundBufferId : Nat → Option Nat
  calls : List Call

variable {V : Type}

namespace MainWidgetPrivate

/-- Append a call to the trace. -/
def emit (c : Call) (s : MainWidgetPrivate V) : MainWidgetPrivate V :=
  { s with calls := s.calls ++ [c] }

/-- The constructor (lines 157-177).  The seven bounding-volume pointers and
`m_quad` are left uninitialised by the source; they are taken as null.
`m_maxDraw` is initialised from `std::numeric_limits<size_t>::max()`.  The two
render passes it creates are reached through `passesCommit` / `passesRender`
only and are not kept in the record. -/
def new : MainWidgetPrivate V where
  m_renderBlockIndex := (0, 1)
  m_paused := false
  m_halfEdgeMesh := 0
  m_quad := 0
  m_boundaries := []
  m_presentation := .PresentComposition
  m_aabbBV := 0
  m_sphereCentroidBV := 0
  m_sphereRittersBV := 0
  m_sphereLarssonsBV := 0
  m_spherePcaBV := 0
  m_ellipsoidPcaBV := 0
  m_orientedPcaBV := 0
  m_staticGeometryBottomUp7 := 0
  m_staticGeometryBottomUp500 := 0
  m_staticGeometryTopDown7 := 0
  m_staticGeometryTopDown500 := 0
  m_staticGeometry := 0
  m_instances := []
  b_rX := false
  b_rY := false
  b_rZ := false
  b_bv := List.replicate 8 false
  m_minDraw := 0
  m_maxDraw := wrapInt (2 ^ 64 - 1)
  meshData := none
  heap := { objs := [], next := 1 }
  boundBufferId := fun _ => none
  calls := []

/-! ### `loadObj` (lines 202-289) -/

/-- Modelled from the spec: the KLinq query `SELECT FROM (edge : halfEdges())
WHERE (edge.face == 0) JOIN (a, b)` of lines 246-251 (the macros are in the
header `KLinq`, which is not in `src/`): the container is visited in order and
the `JOIN` tuple of every element passing `WHERE` is pushed to the back of the
result. -/
def boundaryQuery (mesh : KHalfEdgeMesh V) : List (V × V) :=
  mesh.halfEdges.foldl
    (fun result edge =>
      if edge.face == 0 then
        result ++ [((mesh.vertex edge.to_).position,
                    (mesh.vertex (mesh.halfEdge edge.next).to_).position)]
      else result)
    []

/-- Lines 207-208: `delete m_halfEdgeMesh; m_boundaries.clear();`. -/
def removeOldMesh (s : MainWidgetPrivate V) : MainWidgetPrivate V :=
  let s := s.emit (.deleteMesh s.m_halfEdgeMesh)
  { s with heap := s.heap.delete s.m_halfEdgeMesh, meshData := none, m_boundaries := [] }

/-- Line 216: `m_halfEdgeMesh = new KHalfEdgeMesh(m_parent, fileName);`, `mesh`
being what the file holds. -/
def createHalfEdgeMesh (mesh : KHalfEdgeMesh V) (s : MainWidgetPrivate V) :
    MainWidgetPrivate V :=
  let a := s.heap.alloc .mesh
  ({ s with heap := a.2, m_halfEdgeMesh := a.1, meshData := some mesh }).emit (.newMesh a.1)

/-- Line 222: `m_halfEdgeMesh->calculateVertexNormals();`. -/
def calculateVertexNormals (s : MainWidgetPrivate V) : MainWidgetPrivate V :=
  s.emit (.calculateVertexNormals s.m_halfEdgeMesh)

/-- One `new K...BoundingVolume(*m_halfEdgeMesh, method)`. -/
def newVolume (kind : VolumeKind) (s : MainWidgetPrivate V) : Nat × MainWidgetPrivate V :=
  let a := s.heap.alloc (.volume kind s.m_halfEdgeMesh)
  (a.1, ({ s with heap := a.2 }).emit (.newVolume kind a.1 s.m_halfEdgeMesh))

/-- Lines 228-234: the seven bounding volumes are created and stored; the
previous pointers are overwritten. -/
def createBoundingVolumes (s : MainWidgetPrivate V) : MainWidgetPrivate V :=
  let r := newVolume .aabbMinMax s
  let s := { r.2 with m_aabbBV := r.1 }
  let r := newVolume .sphereCentroid s
  let s := { r.2 with m_sphereCentroidBV := r.1 }
  let r := newVolume .sphereRitters s
  let s := { r.2 with m_sphereRittersBV := r.1 }
  let r := newVolume .sphereLarssons s
  let s := { r.2 with m_sphereLarssonsBV := r.1 }
  let r := newVolume .spherePca s
  let s := { r.2 with m_spherePcaBV := r.1 }
  let r := newVolume .ellipsoidPca s
  let s := { r.2 with m_ellipsoidPcaBV := r.1 }
  let r := newVolume .orientedPca s
  { r.2 with m_orientedPcaBV := r.1 }

/-- Lines 239-242: `m_openGLMesh.create(*m_halfEdgeMesh); m_instanceGroup.setMesh(...)`. -/
def createOpenGLMesh (s : MainWidgetPrivate V) : MainWidgetPrivate V :=
  s.emit (.createOpenGLMesh s.m_halfEdgeMesh)

/-- Line 254: `m_boundaries = query();`, the query reading `*m_halfEdgeMesh`. -/
def queryBoundaries (s : MainWidgetPrivate V) : MainWidgetPrivate V :=
  let s := s.emit (.boundaryQuery s.m_halfEdgeMesh)
  { s with m_boundaries := match s.meshData with
                           | some mesh => boundaryQuery mesh
                           | none => [] }

/-- One `delete` of a hierarchy pointer. -/
def deleteGeometry (p : Nat) (s : MainWidgetPrivate V) : MainWidgetPrivate V :=
  ({ s with heap := s.heap.delete p }).emit (.deleteGeometry p)

/-- Modelled from the spec: `new KStaticGeometry()` (the class is not in `src/`):
a hierarchy with no registered instance and no tree. -/
def newGeometry (s : MainWidgetPrivate V) : Nat × MainWidgetPrivate V :=
  let a := s.heap.alloc (.geometry { instances := [], built := none, depth := 0 })
  (a.1, ({ s with heap := a.2 }).emit (.newGeometry a.1))

/-- Modelled from the spec: `g->addGeometry(*m_halfEdgeMesh, geomTrans)` (the
class is not in `src/`): the pair is appended to the instances of `*g`. -/
def addGeometry (g : Nat) (i : Nat) (s : MainWidgetPrivate V) : MainWidgetPrivate V :=
  let s := s.emit (.addGeometry g (s.heap.geometry g) s.m_halfEdgeMesh i)
  match s.heap.geometry g with
  | some o =>
    let inst : GeometryInstance := ⟨s.m_halfEdgeMesh, i⟩
    let o : KStaticGeometry := ⟨o.instances ++ [inst], o.built, o.depth⟩
    { s with heap := s.heap.setGeometry g o }
  | none => s

/-- The body of the loop of lines 268-277 for one `i`. -/
def registerInstance (s : MainWidgetPrivate V) (i : Nat) : MainWidgetPrivate V :=
  let s := addGeometry s.m_staticGeometryTopDown500 i s
  let s := addGeometry s.m_staticGeometryTopDown7 i s
  let s := addGeometry s.m_staticGeometryBottomUp7 i s
  addGeometry s.m_staticGeometryBottomUp500 i s

/-- Lines 259-266: the four hierarchies are deleted and created anew. -/
def replaceStaticGeometry (s : MainWidgetPrivate V) : MainWidgetPrivate V :=
  let s := deleteGeometry s.m_staticGeometryTopDown500 s
  let s := deleteGeometry s.m_staticGeometryTopDown7 s
  let s := deleteGeometry s.m_staticGeometryBottomUp7 s
  let s := deleteGeometry s.m_staticGeometryBottomUp500 s
  let r := newGeometry s
  let s := { r.2 with m_staticGeometryTopDown500 := r.1 }
  let r := newGeometry s
  let s := { r.2 with m_staticGeometryTopDown7 := r.1 }
  let r := newGeometry s
  let s := { r.2 with m_staticGeometryBottomUp7 := r.1 }
  let r := newGeometry s
  { r.2 with m_staticGeometryBottomUp500 := r.1 }

/-- Lines 259-278: the four hierarchies are replaced, given the mesh under four
transforms, and the active pointer is reset. -/
def createStaticGeometry (s : MainWidgetPrivate V) : MainWidgetPrivate V :=
  let s := replaceStaticGeometry s
  let s := (List.range 4).foldl registerInstance s
  { s with m_staticGeometry := 0 }

/-- The load work of `loadObj` between the two writes of `m_paused`, block by
block in source order. -/
def loadObjWork (mesh : KHalfEdgeMesh V) : List (MainWidgetPrivate V → MainWidgetPrivate V) :=
  [removeOldMesh, createHalfEdgeMesh mesh, calculateVertexNormals, createBoundingVolumes,
   createOpenGLMesh, queryBoundaries, createStaticGeometry]

/-- Run a list of blocks one after the other. -/
def runBlocks (blocks : List (MainWidgetPrivate V → MainWidgetPrivate V))
    (s : MainWidgetPrivate V) : MainWidgetPrivate V :=
  blocks.foldl (fun s f => f s) s

/-- Lines 205-206: `bool oldValue = m_paused; m_paused = true;`. -/
def pause (s : MainWidgetPrivate V) : MainWidgetPrivate V :=
  { s with m_paused := true }

/-- `loadObj(fileName)`, `mesh` being what the file holds: the flag is saved and
set, the work is done, and line 288 writes the saved value back. -/
def loadObj (mesh : KHalfEdgeMesh V) (s : MainWidgetPrivate V) : MainWidgetPrivate V :=
  let oldValue := s.m_paused
  let s := runBlocks (loadObjWork mesh) (pause s)
  { s with m_paused := oldValue }

/-- `openObj()` (lines 291-302): the file dialog is shown and, unless it is
cancelled, the chosen file is loaded. -/
def openObj (chosen : Option (KHalfEdgeMesh V)) (s : MainWidgetPrivate V) :
    MainWidgetPrivate V :=
  let s := s.emit .openFileDialog
  match chosen with
  | some mesh => loadObj mesh s
  | none => s

/-! ### Render blocks and painting (lines 328-449) -/

/-- `bindBase(point)` on render block `block`: its buffer becomes the one bound
at that uniform binding point. -/
def bindBase (block point : Nat) (s : MainWidgetPrivate V) : MainWidgetPrivate V :=
  ({ s with boundBufferId := fun i => if i = point then some block else s.boundBufferId i }).emit
    (.bindBase block point)

/-- `currentRenderBlock()` (lines 399-402), as an index into `m_renderBlocks`. -/
def currentRenderBlock (s : MainWidgetPrivate V) : Nat := s.m_renderBlockIndex.1

/-- `previousRenderBlock()` (lines 404-411), as an index into `m_renderBlocks`. -/
def previousRenderBlock (s : MainWidgetPrivate V) : Nat :=
  if s.boundBufferId 1 != s.boundBufferId 2 then s.m_renderBlockIndex.2
  else s.m_renderBlockIndex.1

/-- `swapRenderBlocks()` (lines 413-425). -/
def swapRenderBlocks (s : MainWidgetPrivate V) : MainWidgetPrivate V :=
  let currRenderBlock := s.m_renderBlockIndex.1
  let prevRenderBlock := s.m_renderBlockIndex.2
  let s := { s with m_renderBlockIndex := (s.m_renderBlockIndex.2, s.m_renderBlockIndex.1) }
  let s := bindBase currRenderBlock (s.m_renderBlockIndex.1 + 1) s
  bindBase prevRenderBlock (s.m_renderBlockIndex.2 + 1) s

/-- `fixRenderBlocks()` (lines 427-435). -/
def fixRenderBlocks (s : MainWidgetPrivate V) : MainWidgetPrivate V :=
  if s.boundBufferId 1 != s.boundBufferId 2 then
    bindBase s.m_renderBlockIndex.1 (s.m_renderBlockIndex.1 + 1) s
  else s

/-- `commitGL()` (lines 372-397); `cameraDirty` is what `m_camera.dirty()` returns. -/
def commitGL (cameraDirty : Bool) (s : MainWidgetPrivate V) : MainWidgetPrivate V :=
  let s := s.emit .commitGL
  let s := if cameraDirty then
             let s := swapRenderBlocks s
             s.emit (.setViewMatrix (currentRenderBlock s))
           else fixRenderBlocks s
  let s := s.emit .updateRenderBlocks
  let currRenderBlock := currentRenderBlock s
  let prevRenderBlock := previousRenderBlock s
  let s := s.emit (.groupsUpdate currRenderBlock prevRenderBlock)
  s.emit (.passesCommit currRenderBlock prevRenderBlock)

/-- The seven `if (b_bv[k]) ...->draw(...)` lines 352-358 for one instance. -/
def drawVolumes (s : MainWidgetPrivate V) (inst : Nat) : MainWidgetPrivate V :=
  let s := if s.b_bv.getD 0 false then s.emit (.drawVolume .aabbMinMax s.m_aabbBV inst) else s
  let s := if s.b_bv.getD 1 false then
             s.emit (.drawVolume .sphereCentroid s.m_sphereCentroidBV inst) else s
  let s := if s.b_bv.getD 2 false then
             s.emit (.drawVolume .sphereRitters s.m_sphereRittersBV inst) else s
  let s := if s.b_bv.getD 3 false then
             s.emit (.drawVolume .sphereLarssons s.m_sphereLarssonsBV inst) else s
  let s := if s.b_bv.getD 4 false then s.emit (.drawVolume .spherePca s.m_spherePcaBV inst) else s
  let s := if s.b_bv.getD 5 false then
             s.emit (.drawVolume .ellipsoidPca s.m_ellipsoidPcaBV inst) else s
  if s.b_bv.getD 6 false then s.emit (.drawVolume .orientedPca s.m_orientedPcaBV inst) else s

/-- `renderGL()` (lines 340-362). -/
def renderGL (s : MainWidgetPrivate V) : MainWidgetPrivate V :=
  let s := s.emit .renderGL
  let s := s.emit .passesRender
  let s := s.emit (.composeScene s.m_presentation)
  let s := s.m_instances.foldl drawVolumes s
  if s.m_staticGeometry ≠ 0 then
    s.emit (.drawAabbs s.m_staticGeometry (s.heap.geometry s.m_staticGeometry)
      s.m_minDraw s.m_maxDraw)
  else s

/-- `MainWidgetPrivate::paintGL()` (lines 328-338). -/
def paintGL (cameraDirty : Bool) (s : MainWidgetPrivate V) : MainWidgetPrivate V :=
  let s := s.emit .beginFrame
  let s := commitGL cameraDirty s
  let s := renderGL s
  let s := s.emit .endFrame
  s.emit .debugDraw

/-! ### The depth range and the builds (parts of `MainWidget::updateEvent`) -/

/-- The value of `p.m_staticGeometry->depth()`, a `size_t` (the source casts it
to `int` before storing it); `0` stands in when the pointer does not lead to a
live hierarchy. -/
def activeDepth (s : MainWidgetPrivate V) : Nat :=
  match s.heap.geometry s.m_staticGeometry with
  | some g => g.depth
  | none => 0

/-- The call `p.m_staticGeometry->depth()` in the trace. -/
def callDepth (s : MainWidgetPrivate V) : MainWidgetPrivate V :=
  s.emit (.depth s.m_staticGeometry (s.heap.geometry s.m_staticGeometry))

/-- Lines 702-705: `if (p.m_minDraw < 0) p.m_minDraw = 0;`. -/
def clampMinBelow (s : MainWidgetPrivate V) : MainWidgetPrivate V :=
  if s.m_minDraw < 0 then { s with m_minDraw := 0 } else s

/-- Lines 706-709: `if (p.m_minDraw > depth()) p.m_minDraw = static_cast<int>(depth());`. -/
def clampMinAbove (s : MainWidgetPrivate V) : MainWidgetPrivate V :=
  let s := callDepth s
  if intGtSize s.m_minDraw s.activeDepth then
    { callDepth s with m_minDraw := wrapInt s.activeDepth }
  else s

/-- Lines 710-713: `if (p.m_maxDraw < p.m_minDraw) p.m_maxDraw = p.m_minDraw;`. -/
def clampMaxBelow (s : MainWidgetPrivate V) : MainWidgetPrivate V :=
  if s.m_maxDraw < s.m_minDraw then { s with m_maxDraw := s.m_minDraw } else s

/-- Lines 714-717: `if (p.m_maxDraw > depth()) p.m_maxDraw = static_cast<int>(depth());`. -/
def clampMaxAbove (s : MainWidgetPrivate V) : MainWidgetPrivate V :=
  let s := callDepth s
  if intGtSize s.m_maxDraw s.activeDepth then
    { callDepth s with m_maxDraw := wrapInt s.activeDepth }
  else s

/-- The four `if`s of lines 702-717 in order, entered with an active hierarchy. -/
def clampDrawRange (s : MainWidgetPrivate V) : MainWidgetPrivate V :=
  clampMaxAbove (clampMaxBelow (clampMinAbove (clampMinBelow s)))

/-- Lines 700-733: with an active hierarchy the range is clamped and, when a
range key was triggered, shown in the window title. -/
def updateDrawRange (triggered : Bool) (s : MainWidgetPrivate V) : MainWidgetPrivate V :=
  if s.m_staticGeometry ≠ 0 then
    let s := clampDrawRange s
    if triggered then s.emit (.setWindowTitle s.m_minDraw s.m_maxDraw) else s
  else s

/-- Modelled from the spec: `g->build(method, pred)` (the class is not in
`src/`): with no registered instance the build fails and no tree is produced;
otherwise it runs to completion, leaves the registered instances as they are
and the hierarchy built, with the depth the engine gives. -/
def build (eng : Engine) (g : Nat) (method : BuildMethod) (pred : Terminator)
    (s : MainWidgetPrivate V) : MainWidgetPrivate V :=
  let s := s.emit (.build g (s.heap.geometry g) method pred)
  match s.heap.geometry g with
  | some o =>
    if o.instances.isEmpty then s
    else
      let o : KStaticGeometry :=
        ⟨o.instances, some (method, pred), eng.depthAfterBuild method pred o.instances⟩
      { s with heap := s.heap.setGeometry g o }
  | none => s

/-- Line 807 (and 813, 823, 829):
`p.m_maxDraw = static_cast<int>(p.m_staticGeometry->depth());`. -/
def resetMaxDraw (s : MainWidgetPrivate V) : MainWidgetPrivate V :=
  { callDepth s with m_maxDraw := wrapInt s.activeDepth }

/-- `b_bv[i] = !b_bv[i];`. -/
def toggleVolume (i : Nat) (s : MainWidgetPrivate V) : MainWidgetPrivate V :=
  { s with b_bv := s.b_bv.set i (!(s.b_bv.getD i false)) }

end MainWidgetPrivate

/-! ## `MainWidget` (lines 457-945) -/

namespace MainWidget

open MainWidgetPrivate

/-- Lines 480-574 of `MainWidget::initializeGL()`: the private part is
constructed, the quad mesh is created, render block 0 is bound to binding points
1 and 2, and the floor mesh is created.  Of this set-up the trace keeps the two
`new KHalfEdgeMesh` and the two `bindBase`; shader programs, lights and instance
groups are external GL state. -/
def beforeLoad : MainWidgetPrivate V :=
  let p : MainWidgetPrivate V := MainWidgetPrivate.new
  let a := p.heap.alloc .mesh
  let p := ({ p with heap := a.2, m_quad := a.1 }).emit (.newMesh a.1)
  let p := bindBase 0 1 p
  let p := bindBase 0 2 p
  let a := p.heap.alloc .mesh
  ({ p with heap := a.2 }).emit (.newMesh a.1)

/-- `MainWidget::initializeGL()` (lines 478-598), `sphere` being what
`:/resources/objects/sphere.obj` holds: after the set-up of `beforeLoad` the
sphere is loaded, and the fifth created instance is kept in `m_instances`. -/
def initializeGL (sphere : KHalfEdgeMesh V) : MainWidgetPrivate V :=
  let p := loadObj sphere beforeLoad
  { p with m_instances := p.m_instances ++ [4] }

/-- `MainWidget::paintGL()` (lines 608-617). -/
def paintGL (cameraDirty : Bool) (p : MainWidgetPrivate V) : MainWidgetPrivate V :=
  if !p.m_paused then
    let p := MainWidgetPrivate.paintGL cameraDirty p
    p.emit .widgetPaintGL
  else p

/-- One `if (keyTriggered(k)) { --p.m_maxDraw; ... }` or `++p.m_maxDraw` of lines
675-685, `d` being `-1` or `1`. -/
def maxDrawKey (inp : KInputManager V) (k : Key) (d : Int) (p : MainWidgetPrivate V) :
    MainWidgetPrivate V :=
  if inp.keyTriggered k then { p with m_maxDraw := wrapInt (p.m_maxDraw + d) } else p

/-- One `if (keyTriggered(k)) { --p.m_minDraw; ... }` or `++p.m_minDraw` of lines
688-698, `d` being `-1` or `1`. -/
def minDrawKey (inp : KInputManager V) (k : Key) (d : Int) (p : MainWidgetPrivate V) :
    MainWidgetPrivate V :=
  if inp.keyTriggered k then { p with m_minDraw := wrapInt (p.m_minDraw + d) } else p

/-- Lines 674-698: the four range keys. -/
def rangeKeys (inp : KInputManager V) (p : MainWidgetPrivate V) : MainWidgetPrivate V :=
  let p := maxDrawKey inp .BracketLeft (-1) p
  let p := maxDrawKey inp .BracketRight 1 p
  let p := minDrawKey inp .BraceLeft (-1) p
  minDrawKey inp .BraceRight 1 p

/-- The local `triggered` of lines 674-698. -/
def rangeTriggered (inp : KInputManager V) : Bool :=
  inp.keyTriggered .BracketLeft || inp.keyTriggered .BracketRight ||
  inp.keyTriggered .BraceLeft || inp.keyTriggered .BraceRight

/-- One `if (keyTriggered(k)) p.b_r? = !p.b_r?;` of lines 787-789, `axis` being
0, 1, 2 for X, Y, Z. -/
def rotationKey (inp : KInputManager V) (k : Key) (axis : Nat) (p : MainWidgetPrivate V) :
    MainWidgetPrivate V :=
  if inp.keyTriggered k then
    match axis with
    | 0 => { p with b_rX := !p.b_rX }
    | 1 => { p with b_rY := !p.b_rY }
    | _ => { p with b_rZ := !p.b_rZ }
  else p

/-- Lines 743-790 as far as they touch the record: without the right button the
keys X, Y, Z toggle the rotation flags. -/
def rotationKeys (inp : KInputManager V) (p : MainWidgetPrivate V) : MainWidgetPrivate V :=
  if inp.buttonPressed then p
  else
    let p := rotationKey inp .X 0 p
    let p := rotationKey inp .Y 1 p
    rotationKey inp .Z 2 p

/-- Lines 792-798: Ctrl+O opens a file. -/
def openKeys (inp : KInputManager V) (p : MainWidgetPrivate V) : MainWidgetPrivate V :=
  if inp.keyPressed .Control then
    if inp.keyTriggered .O then openObj inp.openFile p else p
  else p

/-- One shortcut branch of lines 800-831, for the key `k` and the hierarchy
member read by `member`:
`if (keyTriggered(k)) { p.m_staticGeometry = p.member; p.member->build(method, pred);
p.m_maxDraw = static_cast<int>(p.m_staticGeometry->depth()); }`. -/
def buildKey (eng : Engine) (inp : KInputManager V) (k : Key)
    (member : MainWidgetPrivate V → Nat) (method : BuildMethod) (pred : Terminator)
    (p : MainWidgetPrivate V) : MainWidgetPrivate V :=
  if inp.keyTriggered k then
    let p := { p with m_staticGeometry := member p }
    let p := build eng (member p) method pred p
    resetMaxDraw p
  else p

/-- Lines 800-831: the B / T shortcuts, with and without Shift. -/
def buildKeys (eng : Engine) (inp : KInputManager V) (p : MainWidgetPrivate V) :
    MainWidgetPrivate V :=
  if inp.keyPressed .Shift then
    let p := buildKey eng inp .B (fun p => p.m_staticGeometryBottomUp7) .BottomUpMethod .depth7 p
    buildKey eng inp .T (fun p => p.m_staticGeometryTopDown7) .TopDownMethod .depth7 p
  else
    let p := buildKey eng inp .B (fun p => p.m_staticGeometryBottomUp500) .BottomUpMethod
      .triangles500 p
    buildKey eng inp .T (fun p => p.m_staticGeometryTopDown500) .TopDownMethod .triangles500 p

/-- One `if (keyTriggered(k)) p.m_presentation = v;` of lines 836-871. -/
def presentationKey (inp : KInputManager V) (k : Key) (v : PresentType)
    (p : MainWidgetPrivate V) : MainWidgetPrivate V :=
  if inp.keyTriggered k then { p with m_presentation := v } else p

/-- One `if (keyTriggered(k)) p.b_bv[i] = !p.b_bv[i];` of lines 875-902. -/
def volumeKey (inp : KInputManager V) (k : Key) (i : Nat) (p : MainWidgetPrivate V) :
    MainWidgetPrivate V :=
  if inp.keyTriggered k then toggleVolume i p else p

/-- Lines 833-903: the presentation keys with Shift, the volume toggles without. -/
def bufferKeys (inp : KInputManager V) (p : MainWidgetPrivate V) : MainWidgetPrivate V :=
  if inp.keyPressed .Shift then
    let p := presentationKey inp .ParenRight .PresentComposition p
    let p := presentationKey inp .Exclam .PresentDepth p
    let p := presentationKey inp .At .PresentLinearDepth p
    let p := presentationKey inp .NumberSign .PresentPosition p
    let p := presentationKey inp .Dollar .PresentViewNormal p
    let p := presentationKey inp .Percent .PresentDiffuse p
    let p := presentationKey inp .AsciiCircum .PresentSpecular p
    let p := presentationKey inp .Ampersand .PresentVelocity p
    presentationKey inp .Asterisk .PresentLightAccumulation p
  else
    let p := volumeKey inp .Key_0 0 p
    let p := volumeKey inp .Key_1 1 p
    let p := volumeKey inp .Key_2 2 p
    let p := volumeKey inp .Key_3 3 p
    let p := volumeKey inp .Key_4 4 p
    let p := volumeKey inp .Key_5 5 p
    volumeKey inp .Key_6 6 p

/-- `MainWidget::updateEvent` (lines 628-945) on the record: range keys, clamp,
rotation flags, Ctrl+O, the build shortcuts, the presentation and volume keys.
The light animation, `+` / `_`, camera motion and gestures act on external
float state only. -/
def updateEvent (eng : Engine) (inp : KInputManager V) (p : MainWidgetPrivate V) :
    MainWidgetPrivate V :=
  let p := rangeKeys inp p
  let p := updateDrawRange (rangeTriggered inp) p
  let p := rotationKeys inp p
  let p := openKeys inp p
  let p := buildKeys eng inp p
  bufferKeys inp p

end MainWidget

/-! ## Runs of the viewer -/

/-- One entry into the viewer after `initializeGL`. -/
inductive Action (V : Type)
  | updateEvent (inp : KInputManager V)
  | paintGL (cameraDirty : Bool)
  | loadObj (mesh : KHalfEdgeMesh V)

/-- The effect of one action. -/
def step (eng : Engine) : Action V → MainWidgetPrivate V → MainWidgetPrivate V
  | .updateEvent inp => MainWidget.updateEvent eng inp
  | .paintGL cameraDirty => MainWidget.paintGL cameraDirty
  | .loadObj mesh => MainWidgetPrivate.loadObj mesh

/-- The state after `initializeGL` and a list of actions. -/
def run (eng : Engine) (sphere : KHalfEdgeMesh V) (actions : List (Action V)) :
    MainWidgetPrivate V :=
  actions.foldl (fun p a => step eng a p) (MainWidget.initializeGL sphere)

/-- The states the viewer can be in between two actions. -/
inductive Reachable (eng : Engine) : MainWidgetPrivate V → Prop
  | init (sphere : KHalfEdgeMesh V) : Reachable eng (MainWidget.initializeGL sphere)
  | step (a : Action V) (p : MainWidgetPrivate V) :
      Reachable eng p → Reachable eng (step eng a p)

/-- The calls a transition appended to the trace. -/
def newCalls (before after : MainWidgetPrivate V) : List Call :=
  after.calls.drop before.calls.length

/-! ## Vocabulary for the statements -/

/-- The instances registered by the first `n` rounds of the loop of lines
268-277 for the mesh at address `mesh`. -/
def registered (mesh n : Nat) : List GeometryInstance :=
  (List.range n).map (fun i => ⟨mesh, i⟩)

/-- A hierarchy as `new KStaticGeometry()` and `n` rounds of registration leave it. -/
def unbuilt (mesh n : Nat) : KStaticGeometry := ⟨registered mesh n, none, 0⟩

/-- The four hierarchy pointers of the record, in declaration order. -/
def MainWidgetPrivate.hierarchies (s : MainWidgetPrivate V) : List Nat :=
  [s.m_staticGeometryBottomUp7, s.m_staticGeometryBottomUp500,
   s.m_staticGeometryTopDown7, s.m_staticGeometryTopDown500]

/-- The seven bounding-volume pointers of the record, in declaration order. -/
def MainWidgetPrivate.volumes (s : MainWidgetPrivate V) : List Nat :=
  [s.m_aabbBV, s.m_sphereCentroidBV, s.m_sphereRittersBV, s.m_sphereLarssonsBV,
   s.m_spherePcaBV, s.m_ellipsoidPcaBV, s.m_orientedPcaBV]

/-- Whether a call is a `build`. -/
def Call.isBuild : Call → Bool
  | .build _ _ _ _ => true
  | _ => false

/-- The receiver of a call made on a hierarchy (`build`, `depth`, `drawAabbs`,
`addGeometry`), as it was when the call was made. -/
def Call.receiver : Call → Option (Option KStaticGeometry)
  | .build _ r _ _ => some r
  | .depth _ r => some r
  | .drawAabbs _ r _ _ => some r
  | .addGeometry _ r _ _ => some r
  | _ => none

/-- The boundary-edge sequence in the words of the specification: one segment
per half-edge whose face is the boundary sentinel, in half-edge order, from the
half-edge's target vertex to the target vertex of its next half-edge. -/
def boundaryEdgesSpec (mesh : KHalfEdgeMesh V) : List (V × V) :=
  (mesh.halfEdges.filter (fun e => e.face = 0)).map
    (fun e => ((mesh.vertex e.to_).position,
               (mesh.vertex (mesh.halfEdge e.next).to_).position))

/-- The four hierarchies of the record are four different live objects, each
holding the first `n` registrations of the mesh at `mesh` and no tree. -/
def MainWidgetPrivate.Registered (s : MainWidgetPrivate V) (mesh n : Nat) : Prop :=
  s.hierarchies.Nodup ∧ ∀ p ∈ s.hierarchies, s.heap.geometry p = some (unbuilt mesh n)

/-- The four `addGeometry` calls of round `i` of the loop of lines 268-277, on
the hierarchies of `t` and for the mesh of `t`. -/
def registerCalls (t : MainWidgetPrivate V) (i : Nat) : List Call :=
  [.addGeometry t.m_staticGeometryTopDown500 (some (unbuilt t.m_halfEdgeMesh i)) t.m_halfEdgeMesh i,
   .addGeometry t.m_staticGeometryTopDown7 (some (unbuilt t.m_halfEdgeMesh i)) t.m_halfEdgeMesh i,
   .addGeometry t.m_staticGeometryBottomUp7 (some (unbuilt t.m_halfEdgeMesh i)) t.m_halfEdgeMesh i,
   .addGeometry t.m_staticGeometryBottomUp500 (some (unbuilt t.m_halfEdgeMesh i))
     t.m_halfEdgeMesh i]

/-- The calls of lines 259-278, started in `s` and ending in `t`, in order. -/
def createStaticGeometryCalls (s t : MainWidgetPrivate V) : List Call :=
  [.deleteGeometry s.m_staticGeometryTopDown500,
   .deleteGeometry s.m_staticGeometryTopDown7,
   .deleteGeometry s.m_staticGeometryBottomUp7,
   .deleteGeometry s.m_staticGeometryBottomUp500,
   .newGeometry t.m_staticGeometryTopDown500,
   .newGeometry t.m_staticGeometryTopDown7,
   .newGeometry t.m_staticGeometryBottomUp7,
   .newGeometry t.m_staticGeometryBottomUp500] ++
  (registerCalls t 0 ++ (registerCalls t 1 ++ (registerCalls t 2 ++ registerCalls t 3)))

/-- The calls of one `loadObj`, started in `s` and ending in `t`, in order. -/
def loadObjCalls (s t : MainWidgetPrivate V) : List Call :=
  [.deleteMesh s.m_halfEdgeMesh,
   .newMesh t.m_halfEdgeMesh,
   .calculateVertexNormals t.m_halfEdgeMesh,
   .newVolume .aabbMinMax t.m_aabbBV t.m_halfEdgeMesh,
   .newVolume .sphereCentroid t.m_sphereCentroidBV t.m_halfEdgeMesh,
   .newVolume .sphereRitters t.m_sphereRittersBV t.m_halfEdgeMesh,
   .newVolume .sphereLarssons t.m_sphereLarssonsBV t.m_halfEdgeMesh,
   .newVolume .spherePca t.m_spherePcaBV t.m_halfEdgeMesh,
   .newVolume .ellipsoidPca t.m_ellipsoidPcaBV t.m_halfEdgeMesh,
   .newVolume .orientedPca t.m_orientedPcaBV t.m_halfEdgeMesh,
   .createOpenGLMesh t.m_halfEdgeMesh,
   .boundaryQuery t.m_halfEdgeMesh] ++
  createStaticGeometryCalls s t

/-- The calls `loadObj` and `openObj` make. -/
def Call.isLoad : Call → Bool
  | .deleteMesh _ => true
  | .newMesh _ => true
  | .calculateVertexNormals _ => true
  | .newVolume _ _ _ => true
  | .createOpenGLMesh _ => true
  | .boundaryQuery _ => true
  | .deleteGeometry _ => true
  | .newGeometry _ => true
  | .addGeometry _ _ _ _ => true
  | .openFileDialog => true
  | _ => false

/-- The calls made inside `commitGL` and `renderGL` other than `drawAabbs`. -/
def Call.isPaintDetail : Call → Bool
  | .bindBase _ _ => true
  | .setViewMatrix _ => true
  | .updateRenderBlocks => true
  | .groupsUpdate _ _ => true
  | .passesCommit _ _ => true
  | .passesRender => true
  | .composeScene _ => true
  | .drawVolume _ _ _ => true
  | _ => false

/-- The calls that mark the stages of a frame. -/
def Call.isFrameMark : Call → Bool
  | .beginFrame => true
  | .endFrame => true
  | .debugDraw => true
  | .widgetPaintGL => true
  | .commitGL => true
  | .renderGL => true
  | _ => false

/-- A call on a hierarchy is sound when its receiver is a live hierarchy that,
for a query (`depth`, `drawAabbs`), has been built and, for a `build`, holds four
registered instances.  Other calls are sound. -/
def Call.Sound : Call → Prop
  | .depth _ r => ∃ g, r = some g ∧ g.built.isSome = true
  | .drawAabbs _ r _ _ => ∃ g, r = some g ∧ g.built.isSome = true
  | .build _ r _ _ => ∃ g, r = some g ∧ g.instances.length = 4
  | _ => True

/-- A query on a hierarchy (`depth`, `drawAabbs`) has a live, built hierarchy as
its receiver. -/
def Call.QueryOnBuilt : Call → Prop
  | .depth _ r => ∃ g, r = some g ∧ g.built.isSome = true
  | .drawAabbs _ r _ _ => ∃ g, r = some g ∧ g.built.isSome = true
  | _ => True

/-- A `build` has a live hierarchy holding four registered instances as its
receiver. -/
def Call.BuildOnFour : Call → Prop
  | .build _ r _ _ => ∃ g, r = some g ∧ g.instances.length = 4
  | _ => True

/-- The trace of `t` is the trace of `s` followed by calls that all satisfy `P`. -/
def Emits (P : Call → Prop) (s t : MainWidgetPrivate V) : Prop :=
  ∃ cs, t.calls = s.calls ++ cs ∧ ∀ c ∈ cs, P c

/-- The two states agree on the pause flag, the active pointer, the free store,
the four hierarchy pointers and the mesh pointer. -/
def SameCore (s t : MainWidgetPrivate V) : Prop :=
  t.m_paused = s.m_paused ∧ t.m_staticGeometry = s.m_staticGeometry ∧ t.heap = s.heap ∧
  t.m_staticGeometryBottomUp7 = s.m_staticGeometryBottomUp7 ∧
  t.m_staticGeometryBottomUp500 = s.m_staticGeometryBottomUp500 ∧
  t.m_staticGeometryTopDown7 = s.m_staticGeometryTopDown7 ∧
  t.m_staticGeometryTopDown500 = s.m_staticGeometryTopDown500 ∧
  t.m_halfEdgeMesh = s.m_halfEdgeMesh

/-- The two states agree on the core and on the trace. -/
def Silent (s t : MainWidgetPrivate V) : Prop :=
  SameCore s t ∧ t.calls = s.calls

/-- The state with the pause flag overwritten. -/
def MainWidgetPrivate.setPaused (b : Bool) (s : MainWidgetPrivate V) : MainWidgetPrivate V :=
  { s with m_paused := b }

/-- The state invariant of the viewer between two actions: the pause flag is
clear, each of the four owned hierarchies is live and holds the four
registrations of the current mesh, and the active pointer is null or one of the
four, built. -/
def MainWidgetPrivate.Sound (s : MainWidgetPrivate V) : Prop :=
  s.m_paused = false ∧
  (∀ p ∈ s.hierarchies,
    ∃ g, s.heap.geometry p = some g ∧ g.instances = registered s.m_halfEdgeMesh 4) ∧
  (s.m_staticGeometry = 0 ∨
    (s.m_staticGeometry ∈ s.hierarchies ∧
      ∃ g, s.heap.geometry s.m_staticGeometry = some g ∧ g.built.isSome = true))

/-! ## Sample data -/

/-- A point with integer coordinates, for the sample meshes. -/
abbrev Point := Int × Int × Int

/-- The three corners used by the sample meshes, by one-based index. -/
def sampleVertex (i : Nat) : Vertex Point :=
  match i with
  | 1 => ⟨(0, 0, 0)⟩
  | 2 => ⟨(1, 0, 0)⟩
  | _ => ⟨(0, 1, 0)⟩

/-- The half-edges of a single triangle 1-2-3: three inner half-edges of face 1
and their three twins on the boundary (face 0), `next` running around the face
and around the hole. -/
def openTriangleEdges : List HalfEdge :=
  [⟨2, 2, 1⟩, ⟨3, 3, 1⟩, ⟨1, 1, 1⟩, ⟨1, 6, 0⟩, ⟨2, 4, 0⟩, ⟨3, 5, 0⟩]

/-- A single triangle: an open mesh with three boundary half-edges. -/
def openTriangle : KHalfEdgeMesh Point where
  halfEdges := openTriangleEdges
  vertex := sampleVertex
  halfEdge := fun i => openTriangleEdges.getD (i - 1) ⟨0, 0, 0⟩

/-- The half-edges of two triangles glued back to back along all three edges. -/
def closedPillowEdges : List HalfEdge :=
  [⟨2, 2, 1⟩, ⟨3, 3, 1⟩, ⟨1, 1, 1⟩, ⟨1, 6, 2⟩, ⟨2, 4, 2⟩, ⟨3, 5, 2⟩]

/-- Two triangles glued back to back: a closed mesh. -/
def closedPillow : KHalfEdgeMesh Point where
  halfEdges := closedPillowEdges
  vertex := sampleVertex
  halfEdge := fun i => closedPillowEdges.getD (i - 1) ⟨0, 0, 0⟩

/-- An engine whose bottom-up trees have depth 2 and whose top-down trees have depth 3. -/
def sampleEngine : Engine where
  depthAfterBuild := fun method _ _ =>
    match method with
    | .BottomUpMethod => 2
    | .TopDownMethod => 3

/-- The input in which exactly the listed keys are triggered, the listed keys
are held, the right button is up and the dialog (if opened) is cancelled. -/
def keys (triggered pressed : List Key) : KInputManager Point where
  keyTriggered := fun k => triggered.contains k
  keyPressed := fun k => pressed.contains k
  buttonPressed := false
  openFile := none

/-- The input of `keys` with a file chosen in the dialog. -/
def keysWithFile (triggered pressed : List Key) (mesh : KHalfEdgeMesh Point) :
    KInputManager Point where
  keyTriggered := fun k => triggered.contains k
  keyPressed := fun k => pressed.contains k
  buttonPressed := false
  openFile := some mesh

/-- The viewer after start-up on the open triangle and one press of B (no
Shift): the bottom-up / 500 hierarchy is built and active. -/
def afterBuild : MainWidgetPrivate Point :=
  run sampleEngine openTriangle [.updateEvent (keys [.B] [])]

/-- The hierarchy object that is active in `afterBuild`. -/
def sampleBuilt : KStaticGeometry :=
  ⟨[⟨3, 0⟩, ⟨3, 1⟩, ⟨3, 2⟩, ⟨3, 3⟩], some (.BottomUpMethod, .triangles500), 2⟩

/-- The state `afterBuild` with an inverted, out-of-range draw range. -/
def invertedRange : MainWidgetPrivate Point :=
  { afterBuild with m_minDraw := 5, m_maxDraw := 3 }

/-- The state of `new` with the pause flag already set: a start state outside
the runs of the viewer, used to probe `loadObj` and `updateEvent`. -/
def pausedStart : MainWidgetPrivate Point :=
  { (MainWidgetPrivate.new : MainWidgetPrivate Point) with m_paused := true }

/-- The viewer after start-up on the open triangle, with the pause flag set by
hand: a state outside the runs of the viewer, used to probe `updateEvent`. -/
def pausedViewer : MainWidgetPrivate Point :=
  (MainWidget.initializeGL openTriangle).setPaused true

/-- The viewer after start-up on the open triangle and a reload with the closed
pillow (what Ctrl+O does once a file is chosen). -/
def reloaded : MainWidgetPrivate Point :=
  MainWidgetPrivate.loadObj closedPillow (MainWidget.initializeGL openTriangle)

/-! ## Render-block bindings -/

/-- The binding `MainWidget::initializeGL` leaves (lines 510-511 with the indices
of lines 171-172): indices `(0, 1)` and render block 0 bound at both binding
points 1 and 2. -/
def InitialBinding (s : MainWidgetPrivate V) : Prop :=
  s.m_renderBlockIndex = (0, 1) ∧ s.boundBufferId 1 = some 0 ∧ s.boundBufferId 2 = some 0

/-- The states reached from the initial binding by calls of `swapRenderBlocks`
and `fixRenderBlocks`, in any order and number. -/
inductive BlocksReachable : MainWidgetPrivate V → Prop
  | init (s : MainWidgetPrivate V) : InitialBinding s → BlocksReachable s
  | swap (s : MainWidgetPrivate V) :
      BlocksReachable s → BlocksReachable (MainWidgetPrivate.swapRenderBlocks s)
  | fix (s : MainWidgetPrivate V) :
      BlocksReachable s → BlocksReachable (MainWidgetPrivate.fixRenderBlocks s)

/-- The indices and the blocks bound at points 1 and 2, as a triple. -/
def MainWidgetPrivate.blockState (s : MainWidgetPrivate V) : (Nat × Nat) × Option Nat × Option Nat :=
  (s.m_renderBlockIndex, s.boundBufferId 1, s.boundBufferId 2)

/-- The four triples of indices and bindings that occur. -/
def blockStates : List ((Nat × Nat) × Option Nat × Option Nat) :=
  [((0, 1), some 0, some 0), ((1, 0), some 1, some 0), ((0, 1), some 1, some 0),
   ((1, 0), some 1, some 1)]

/-- The viewer after start-up on the open triangle and `n` frames with a moving
camera (each frame swaps the render blocks once). -/
def afterDirtyFrames (n : Nat) : MainWidgetPrivate Point :=
  run sampleEngine openTriangle (List.replicate n (.paintGL true))

/-- The viewer after start-up on the open triangle and these events: T (the
top-down / 500 hierarchy, depth 3, becomes active), three times `}` (the lower
bound of the draw range is raised to 3), then B (the bottom-up / 500 hierarchy,
depth 2, becomes active). -/
def afterSwitch : MainWidgetPrivate Point :=
  run sampleEngine openTriangle
    [.updateEvent (keys [.T] []), .updateEvent (keys [.BraceRight] []),
     .updateEvent (keys [.BraceRight] []), .updateEvent (keys [.BraceRight] []),
     .updateEvent (keys [.B] [])]

/-- The viewer after start-up on the open triangle and these events: the `{` key
while no hierarchy is active, then B. -/
def afterFirstBuild : MainWidgetPrivate Point :=
  run sampleEngine openTriangle
    [.updateEvent (keys [.BraceLeft] []), .updateEvent (keys [.B] [])]

/-- The draw range handed to `drawAabbs` lies within the receiver:
`0 ≤ minDraw ≤ maxDraw ≤ depth()`.  Other calls pass. -/
def Call.RangeWithinDepth : Call → Bool
  | .drawAabbs _ (some g) lo hi => decide (0 ≤ lo) && decide (lo ≤ hi) && decide (hi ≤ (g.depth : Int))
  | .drawAabbs _ none _ _ => false
  | _ => true

/-! ## The build shortcuts, in the words of the specification -/

/-- The state of `updateEvent` on entry to the shortcut block of lines 800-831:
the range keys, the clamp, the rotation keys and Ctrl+O have been handled. -/
def MainWidget.beforeBuildKeys (inp : KInputManager V) (p : MainWidgetPrivate V) :
    MainWidgetPrivate V :=
  MainWidget.openKeys inp (MainWidget.rotationKeys inp
    (MainWidgetPrivate.updateDrawRange (MainWidget.rangeTriggered inp)
      (MainWidget.rangeKeys inp p)))

/-- The hierarchy dedicated to a shortcut combination: bottom-up for B, top-down
for T, the depth-7 one with Shift and the 500 one without. -/
def dedicatedHierarchy (shift isB : Bool) (p : MainWidgetPrivate V) : Nat :=
  match shift, isB with
  | true, true => p.m_staticGeometryBottomUp7
  | true, false => p.m_staticGeometryTopDown7
  | false, true => p.m_staticGeometryBottomUp500
  | false, false => p.m_staticGeometryTopDown500

/-- The method of a shortcut: `BottomUpMethod` for B, `TopDownMethod` for T. -/
def dedicatedMethod (isB : Bool) : BuildMethod :=
  if isB then .BottomUpMethod else .TopDownMethod

/-- The predicate of a shortcut: `depth >= 7` with Shift, `count < 500` without. -/
def dedicatedPredicate (shift : Bool) : Terminator :=
  if shift then .depth7 else .triangles500

/-- Whether the event loads a file: Ctrl is held, O is triggered and a file is
chosen in the dialog. -/
def loadsFile (inp : KInputManager V) : Bool :=
  inp.keyPressed .Control && inp.keyTriggered .O && inp.openFile.isSome

/-! ## The spatial hierarchy builder (bottom-up) -/

/-- Modelled from the spec: the axis-aligned bounding box of §3 (the class is not
in `src/`), by its minimal and maximal corner; coordinates are taken as exact
numbers. -/
structure Aabb where
  minX : Int
  minY : Int
  minZ : Int
  maxX : Int
  maxY : Int
  maxZ : Int
  deriving DecidableEq, Repr

/-- Modelled from the spec: the exact union of two boxes, the minimal box
enclosing both. -/
def Aabb.union (a b : Aabb) : Aabb :=
  ⟨min a.minX b.minX, min a.minY b.minY, min a.minZ b.minZ,
   max a.maxX b.maxX, max a.maxY b.maxY, max a.maxZ b.maxZ⟩

/-- The box `a` lies within the box `b`. -/
def Aabb.within (a b : Aabb) : Prop :=
  b.minX ≤ a.minX ∧ b.minY ≤ a.minY ∧ b.minZ ≤ a.minZ ∧
  a.maxX ≤ b.maxX ∧ a.maxY ≤ b.maxY ∧ a.maxZ ≤ b.maxZ

/-- The volume of a box. -/
def Aabb.volume (a : Aabb) : Int :=
  (a.maxX - a.minX) * (a.maxY - a.minY) * (a.maxZ - a.minZ)

/-- The surface area of a box. -/
def Aabb.surfaceArea (a : Aabb) : Int :=
  2 * ((a.maxX - a.minX) * (a.maxY - a.minY) + (a.maxY - a.minY) * (a.maxZ - a.minZ) +
    (a.maxZ - a.minZ) * (a.maxX - a.minX))

/-- Modelled from the spec: the `HierarchyNode` of §3 (not in `src/`): a box and
either the instance indices of a leaf or the two children of an internal node.
The depth of a node is its distance from the root and is not stored. -/
inductive HierarchyNode
  | leaf (box : Aabb) (instances : List Nat)
  | node (box : Aabb) (left right : HierarchyNode)
  deriving Repr

namespace HierarchyNode

/-- The box of a node. -/
def box : HierarchyNode → Aabb
  | leaf b _ => b
  | node b _ _ => b

/-- The number of leaves of a tree. -/
def leafCount : HierarchyNode → Nat
  | leaf _ _ => 1
  | node _ l r => l.leafCount + r.leafCount

/-- The number of internal nodes of a tree. -/
def internalCount : HierarchyNode → Nat
  | leaf _ _ => 0
  | node _ l r => l.internalCount + r.internalCount + 1

/-- The leaves of a tree from left to right, each with its box and instances. -/
def leaves : HierarchyNode → List (Aabb × List Nat)
  | leaf b ids => [(b, ids)]
  | node _ l r => l.leaves ++ r.leaves

/-- The lowest instance index held in a tree. -/
def lowestInstance : HierarchyNode → Nat
  | leaf _ [] => 0
  | leaf _ (i :: rest) => rest.foldl min i
  | node _ l r => min l.lowestInstance r.lowestInstance

/-- The box of every internal node is the exact union of the boxes of its two
children. -/
def ExactBoxes : HierarchyNode → Prop
  | leaf _ _ => True
  | node b l r => b = l.box.union r.box ∧ l.ExactBoxes ∧ r.ExactBoxes

end HierarchyNode

/-- The error kind of a failed build (§7). -/
inductive BuildError
  | EmptyInput
  deriving DecidableEq, Repr

/-- Every way to take one element out of a list: the element and the rest. -/
def picks {α : Type} : List α → List (α × List α)
  | [] => []
  | x :: xs => (x, xs) :: (picks xs).map (fun yr => (yr.1, x :: yr.2))

/-- Every way to take a pair out of a list: the earlier element, the later
element and the rest, pairs with an earlier first element first. -/
def pairs {α : Type} : List α → List (α × α × List α)
  | [] => []
  | x :: xs =>
    (picks xs).map (fun yr => (x, yr.1, yr.2)) ++
    (pairs xs).map (fun abr => (abr.1, abr.2.1, x :: abr.2.2))

/-- The rank of a candidate merge: resulting volume, then resulting surface
area, then lowest instance index. -/
def mergeRank (a b : HierarchyNode) : Int × Int × Nat :=
  ((a.box.union b.box).volume, (a.box.union b.box).surfaceArea,
   min a.lowestInstance b.lowestInstance)

/-- The lexicographic order on ranks. -/
def rankLt (r s : Int × Int × Nat) : Bool :=
  decide (r.1 < s.1) ||
  (decide (r.1 = s.1) && (decide (r.2.1 < s.2.1) ||
    (decide (r.2.1 = s.2.1) && decide (r.2.2 < s.2.2))))

/-- The candidate of least rank, the first one among equals. -/
def bestPair (cands : List (HierarchyNode × HierarchyNode × List HierarchyNode)) :
    Option (HierarchyNode × HierarchyNode × List HierarchyNode) :=
  cands.foldl
    (fun best c =>
      match best with
      | none => some c
      | some b =>
        if rankLt (mergeRank c.1 c.2.1) (mergeRank b.1 b.2.1) then some c else some b)
    none

/-- Modelled from the spec: one round of the bottom-up method of §4.2: the pair
of current nodes whose merged box is least (smaller volume, then smaller surface
area, then lowest instance index) is replaced by a new internal node whose box
is the exact union of the two.  `none` when fewer than two nodes are left. -/
def mergeStep (nodes : List HierarchyNode) : Option (List HierarchyNode) :=
  match bestPair (pairs nodes) with
  | some (a, b, rest) => some (HierarchyNode.node (a.box.union b.box) a b :: rest)
  | none => none

/-- Rounds of `mergeStep` until one root remains, at most `rounds` of them. -/
def agglomerate : Nat → List HierarchyNode → List HierarchyNode
  | 0, nodes => nodes
  | rounds + 1, nodes =>
    match mergeStep nodes with
    | some merged => agglomerate rounds merged
    | none => nodes

/-- The leaves of a list of trees, tree by tree. -/
def forestLeaves : List HierarchyNode → List (Aabb × List Nat)
  | [] => []
  | t :: ts => t.leaves ++ forestLeaves ts

/-- The boxes of the instances with their indices, the first index being `i`. -/
def leafEntries : Nat → List Aabb → List (Aabb × List Nat)
  | _, [] => []
  | i, b :: bs => (b, [i]) :: leafEntries (i + 1) bs

/-- One leaf per instance, holding the instance index and its box, the first
index being `i`. -/
def leafNodes : Nat → List Aabb → List HierarchyNode
  | _, [] => []
  | i, b :: bs => HierarchyNode.leaf b [i] :: leafNodes (i + 1) bs

/-- Modelled from the spec: the bottom-up method of `build` (§4.2; the builder
`KStaticGeometry::build` is not in `src/`), on the world-space boxes of the
instances: `EmptyInput` for no instance; otherwise one leaf per instance, merged
pairwise until one root remains (`N - 1` rounds for `N` instances).  The
termination predicate is a parameter of `build`; the bottom-up description does
not consult it. -/
def bottomUp (boxes : List Aabb) (pred : Nat → Nat → Bool) :
    Except BuildError HierarchyNode :=
  let _ := pred
  match boxes with
  | [] => .error .EmptyInput
  | b :: bs =>
    match agglomerate bs.length (leafNodes 0 (b :: bs)) with
    | [root] => .ok root
    | _ => .error .EmptyInput

/-- Modelled from the spec: `build(BottomUpMethod, pred)` on a hierarchy object:
the registered instances are taken with their world-space boxes (`worldBox`, the
box of the mesh under the instance transform). -/
def KStaticGeometry.buildBottomUp (worldBox : GeometryInstance → Aabb) (g : KStaticGeometry)
    (pred : Nat → Nat → Bool) : Except BuildError HierarchyNode :=
  bottomUp (g.instances.map worldBox) pred

/-- The exact union of a non-empty list of boxes. -/
def unionAll (b : Aabb) (bs : List Aabb) : Aabb := bs.foldl Aabb.union b

/-- The unit box translated by `(x, 0, z)`. -/
def unitBoxAt (x z : Int) : Aabb := ⟨x, 0, z, x + 1, 1, z + 1⟩

/-- The world-space box of an instance in the samples: the unit box at the
translation of the instance transform of lines 270-272 (radius 10, a quarter
turn per index). -/
def sampleWorldBox (inst : GeometryInstance) : Aabb :=
  match inst.transform with
  | 0 => unitBoxAt 10 0
  | 1 => unitBoxAt 0 10
  | 2 => unitBoxAt (-10) 0
  | _ => unitBoxAt 0 (-10)

/-! ## Machine integer facts -/

theorem wrapInt_of_int (x : Int) (hlo : -2 ^ 31 ≤ x) (hhi : x < 2 ^ 31) : wrapInt x = x := by
  unfold wrapInt
  omega

theorem toSizeT_of_nonneg (x : Int) (hlo : 0 ≤ x) (hhi : x < 2 ^ 31) :
    (toSizeT x : Int) = x := by
  unfold toSizeT
  omega

theorem intGtSize_iff (x : Int) (D : Nat) (hlo : 0 ≤ x) (hhi : x < 2 ^ 31) :
    intGtSize x D = true ↔ (D : Int) < x := by
  have h := toSizeT_of_nonneg x hlo hhi
  simp only [intGtSize, decide_eq_true_eq, gt_iff_lt]
  omega

/-! ## Traces -/

theorem newCalls_of_append (s t : MainWidgetPrivate V) (cs : List Call)
    (h : t.calls = s.calls ++ cs) : newCalls s t = cs := by
  unfold newCalls
  rw [h, List.drop_left]

/-! ## The depth-range clamp -/

namespace MainWidgetPrivate

theorem clampMinBelow_frame (s : MainWidgetPrivate V) :
    (clampMinBelow s).heap = s.heap ∧ (clampMinBelow s).m_staticGeometry = s.m_staticGeometry ∧
    (clampMinBelow s).m_maxDraw = s.m_maxDraw ∧ (clampMinBelow s).calls = s.calls ∧
    (clampMinBelow s).m_minDraw = max s.m_minDraw 0 := by
  unfold clampMinBelow
  split_ifs with h
  · refine ⟨rfl, rfl, rfl, rfl, ?_⟩
    show (0 : Int) = _
    omega
  · refine ⟨rfl, rfl, rfl, rfl, ?_⟩
    omega

theorem clampMaxBelow_frame (s : MainWidgetPrivate V) :
    (clampMaxBelow s).heap = s.heap ∧ (clampMaxBelow s).m_staticGeometry = s.m_staticGeometry ∧
    (clampMaxBelow s).m_minDraw = s.m_minDraw ∧ (clampMaxBelow s).calls = s.calls ∧
    (clampMaxBelow s).m_maxDraw = max s.m_maxDraw s.m_minDraw := by
  unfold clampMaxBelow
  split_ifs with h
  · refine ⟨rfl, rfl, rfl, rfl, ?_⟩
    show s.m_minDraw = _
    omega
  · refine ⟨rfl, rfl, rfl, rfl, ?_⟩
    omega

theorem clampMinAbove_frame (s : MainWidgetPrivate V) (g : KStaticGeometry)
    (hactive : s.heap.geometry s.m_staticGeometry = some g)
    (hD : (g.depth : Int) < 2 ^ 31) (hlo : 0 ≤ s.m_minDraw) (hhi : s.m_minDraw < 2 ^ 31) :
    (clampMinAbove s).heap = s.heap ∧ (clampMinAbove s).m_staticGeometry = s.m_staticGeometry ∧
    (clampMinAbove s).m_maxDraw = s.m_maxDraw ∧
    (clampMinAbove s).m_minDraw = min s.m_minDraw g.depth ∧
    ∃ n, (clampMinAbove s).calls
      = s.calls ++ List.replicate n (Call.depth s.m_staticGeometry (some g)) := by
  have hgt := intGtSize_iff s.m_minDraw g.depth hlo hhi
  have hw := wrapInt_of_int g.depth (by omega) hD
  have hdepth : (callDepth s).activeDepth = g.depth := by
    simp only [activeDepth, callDepth, emit, hactive]
  have hmin : (callDepth s).m_minDraw = s.m_minDraw := rfl
  unfold clampMinAbove
  simp only [hdepth, hmin]
  split_ifs with h
  · refine ⟨rfl, rfl, rfl, ?_, 2, ?_⟩
    · show wrapInt g.depth = _
      rw [hw]
      rw [hgt] at h
      omega
    · simp only [callDepth, emit, hactive, List.append_assoc, List.replicate, List.cons_append,
        List.nil_append]
  · refine ⟨rfl, rfl, rfl, ?_, 1, ?_⟩
    · show s.m_minDraw = _
      rw [hgt] at h
      omega
    · simp only [callDepth, emit, hactive, List.replicate]

theorem clampMaxAbove_frame (s : MainWidgetPrivate V) (g : KStaticGeometry)
    (hactive : s.heap.geometry s.m_staticGeometry = some g)
    (hD : (g.depth : Int) < 2 ^ 31) (hlo : 0 ≤ s.m_maxDraw) (hhi : s.m_maxDraw < 2 ^ 31) :
    (clampMaxAbove s).heap = s.heap ∧ (clampMaxAbove s).m_staticGeometry = s.m_staticGeometry ∧
    (clampMaxAbove s).m_minDraw = s.m_minDraw ∧
    (clampMaxAbove s).m_maxDraw = min s.m_maxDraw g.depth ∧
    ∃ n, (clampMaxAbove s).calls
      = s.calls ++ List.replicate n (Call.depth s.m_staticGeometry (some g)) := by
  have hgt := intGtSize_iff s.m_maxDraw g.depth hlo hhi
  have hw := wrapInt_of_int g.depth (by omega) hD
  have hdepth : (callDepth s).activeDepth = g.depth := by
    simp only [activeDepth, callDepth, emit, hactive]
  have hmax : (callDepth s).m_maxDraw = s.m_maxDraw := rfl
  unfold clampMaxAbove
  simp only [hdepth, hmax]
  split_ifs with h
  · refine ⟨rfl, rfl, rfl, ?_, 2, ?_⟩
    · show wrapInt g.depth = _
      rw [hw]
      rw [hgt] at h
      omega
    · simp only [callDepth, emit, hactive, List.append_assoc, List.replicate, List.cons_append,
        List.nil_append]
  · refine ⟨rfl, rfl, rfl, ?_, 1, ?_⟩
    · show s.m_maxDraw = _
      rw [hgt] at h
      omega
    · simp only [callDepth, emit, hactive, List.replicate]

/-- The clamp of lines 702-717 on an active hierarchy of depth `D < 2^31`: the
resulting pair, the heap and pointer it leaves alone, and the calls it makes. -/
theorem clampDrawRange_frame (s : MainWidgetPrivate V) (g : KStaticGeometry)
    (hactive : s.heap.geometry s.m_staticGeometry = some g)
    (hD : (g.depth : Int) < 2 ^ 31)
    (hmin : -2 ^ 31 ≤ s.m_minDraw ∧ s.m_minDraw < 2 ^ 31)
    (hmax : -2 ^ 31 ≤ s.m_maxDraw ∧ s.m_maxDraw < 2 ^ 31) :
    (clampDrawRange s).heap = s.heap ∧
    (clampDrawRange s).m_staticGeometry = s.m_staticGeometry ∧
    (clampDrawRange s).m_minDraw = min (max s.m_minDraw 0) g.depth ∧
    (clampDrawRange s).m_maxDraw = min (max s.m_maxDraw (min (max s.m_minDraw 0) g.depth)) g.depth ∧
    ∃ n, (clampDrawRange s).calls
      = s.calls ++ List.replicate n (Call.depth s.m_staticGeometry (some g)) := by
  obtain ⟨a1, a2, a3, a4, a5⟩ := clampMinBelow_frame s
  have b := clampMinAbove_frame (clampMinBelow s) g (by rw [a1, a2]; exact hactive) hD
    (by rw [a5]; omega) (by rw [a5]; omega)
  obtain ⟨b1, b2, b3, b4, n1, b5⟩ := b
  obtain ⟨c1, c2, c3, c4, c5⟩ := clampMaxBelow_frame (clampMinAbove (clampMinBelow s))
  have d := clampMaxAbove_frame (clampMaxBelow (clampMinAbove (clampMinBelow s))) g
    (by rw [c1, c2, b1, b2, a1, a2]; exact hactive) hD
    (by rw [c5, b3, b4, a3, a5]; omega) (by rw [c5, b3, b4, a3, a5]; omega)
  obtain ⟨d1, d2, d3, d4, n2, d5⟩ := d
  unfold clampDrawRange
  refine ⟨by rw [d1, c1, b1, a1], by rw [d2, c2, b2, a2], by rw [d3, c3, b4, a5],
    by rw [d4, c5, b3, b4, a3, a5], n1 + n2, ?_⟩
  rw [d5, c4, b5, a4, c2, b2, a2, List.append_assoc, List.replicate_add]

end MainWidgetPrivate

/-! ## The free store -/

theorem lookupObj_removeObj (l : List (Nat × Obj)) (p q : Nat) :
    lookupObj (removeObj l p) q = if q = p then none else lookupObj l q := by
  induction l with
  | nil => simp [removeObj, lookupObj]
  | cons x xs ih =>
    obtain ⟨k, o⟩ := x
    by_cases hk : k = p
    · subst hk
      by_cases hq : q = k
      · subst hq
        simp [removeObj, ih]
      · simp [removeObj, lookupObj, ih, hq, Ne.symm hq]
    · by_cases hq : k = q
      · subst hq
        simp [removeObj, lookupObj, hk]
      · simp [removeObj, lookupObj, ih, hk, hq]

theorem lookupObj_replaceObj (l : List (Nat × Obj)) (p q : Nat) (o1 : Obj) :
    lookupObj (replaceObj l p o1) q
      = if q = p then (lookupObj l p).map (fun _ => o1) else lookupObj l q := by
  induction l with
  | nil => simp [replaceObj, lookupObj]
  | cons x xs ih =>
    obtain ⟨k, o⟩ := x
    by_cases hk : k = p
    · subst hk
      by_cases hq : q = k
      · simp [replaceObj, lookupObj, hq]
      · simp [replaceObj, lookupObj, ih, hq, Ne.symm hq]
    · by_cases hq : k = q
      · subst hq
        simp [replaceObj, lookupObj, hk]
      · simp only [replaceObj, lookupObj, ih, hk, hq, if_false]

theorem lookupObj_above_top (l : List (Nat × Obj)) (p : Nat) (hp : topAddress l < p) :
    lookupObj l p = none := by
  induction l with
  | nil => rfl
  | cons x xs ih =>
    obtain ⟨k, o⟩ := x
    simp only [topAddress] at hp
    have hk : ¬ k = p := by omega
    simp only [lookupObj, hk, if_false]
    exact ih (by omega)

namespace Heap

theorem fresh_ne_zero (h : Heap) : h.fresh ≠ 0 := by
  unfold fresh
  omega

theorem find_fresh (h : Heap) : h.find h.fresh = none := by
  unfold find
  rw [if_neg (fresh_ne_zero h)]
  apply lookupObj_above_top
  unfold fresh top
  omega

theorem find_alloc (h : Heap) (o : Obj) (q : Nat) :
    (h.alloc o).2.find q = if q = h.fresh then some o else h.find q := by
  unfold alloc find
  by_cases hq0 : q = 0
  · subst hq0
    have := fresh_ne_zero h
    simp [Ne.symm this]
  · by_cases hq : q = h.fresh
    · simp [lookupObj, hq, fresh_ne_zero]
    · simp [lookupObj, hq, hq0, Ne.symm hq]

theorem find_delete (h : Heap) (p q : Nat) :
    (h.delete p).find q = if q = p then none else h.find q := by
  unfold delete
  by_cases hp : p = 0
  · subst hp
    by_cases hq : q = 0
    · subst hq
      simp [find]
    · simp [hq]
  · rw [if_neg hp]
    unfold find
    by_cases hq0 : q = 0
    · simp [hq0]
    · simp only [hq0, if_false, lookupObj_removeObj]

theorem find_setGeometry (h : Heap) (p q : Nat) (g : KStaticGeometry) :
    (h.setGeometry p g).find q
      = if q = p then (h.find p).map (fun _ => Obj.geometry g) else h.find q := by
  unfold setGeometry find
  by_cases hq0 : q = 0
  · subst hq0
    by_cases hp : 0 = p
    · subst hp
      simp
    · simp [hp]
  · simp only [hq0, if_false, lookupObj_replaceObj]
    by_cases hq : q = p
    · subst hq
      simp [hq0]
    · simp [hq]

theorem geometry_setGeometry (h : Heap) (p q : Nat) (g : KStaticGeometry) :
    (h.setGeometry p g).geometry q
      = if q = p then (if (h.find p).isSome then some g else none) else h.geometry q := by
  unfold geometry
  rw [find_setGeometry]
  by_cases hq : q = p
  · subst hq
    simp only [if_true]
    cases h.find q <;> simp
  · simp only [hq, if_false]

theorem geometry_alloc (h : Heap) (g : KStaticGeometry) (q : Nat) :
    (h.alloc (.geometry g)).2.geometry q = if q = h.fresh then some g else h.geometry q := by
  unfold geometry
  rw [find_alloc]
  by_cases hq : q = h.fresh
  · simp only [hq, if_true]
  · simp only [hq, if_false]

theorem geometry_fresh (h : Heap) : h.geometry h.fresh = none := by
  unfold geometry
  rw [find_fresh]

theorem find_isSome_of_geometry (h : Heap) (p : Nat) (g : KStaticGeometry)
    (hg : h.geometry p = some g) : (h.find p).isSome = true := by
  unfold geometry at hg
  cases hf : h.find p with
  | none => rw [hf] at hg; simp at hg
  | some o => rfl

theorem geometry_zero (h : Heap) : h.geometry 0 = none := by
  simp [geometry, find]

end Heap

/-! ## `loadObj` -/

namespace MainWidgetPrivate

theorem registered_succ (mesh n : Nat) :
    registered mesh (n + 1) = registered mesh n ++ [⟨mesh, n⟩] := by
  simp [registered, List.range_succ]

theorem addGeometry_spec (g i : Nat) (s : MainWidgetPrivate V) (m n : Nat)
    (hm : s.m_halfEdgeMesh = m) (hg : s.heap.geometry g = some (unbuilt m n)) (hi : i = n) :
    ∃ H, addGeometry g i s
        = { s with heap := H,
                   calls := s.calls ++ [Call.addGeometry g (some (unbuilt m n)) m n] } ∧
      H.geometry g = some (unbuilt m (n + 1)) ∧
      ∀ q, q ≠ g → H.geometry q = s.heap.geometry q := by
  subst hi
  subst hm
  refine ⟨s.heap.setGeometry g (unbuilt s.m_halfEdgeMesh (i + 1)), ?_, ?_, ?_⟩
  · simp only [addGeometry, emit, hg, unbuilt, registered_succ]
  · rw [Heap.geometry_setGeometry, if_pos rfl, Heap.find_isSome_of_geometry _ _ _ hg]
    rfl
  · intro q hq
    rw [Heap.geometry_setGeometry, if_neg hq]

end MainWidgetPrivate

namespace MainWidgetPrivate

theorem registerInstance_spec (s : MainWidgetPrivate V) (m n : Nat)
    (hm : s.m_halfEdgeMesh = m) (hr : Registered s m n) :
    ∃ H, registerInstance s n
        = { s with heap := H, calls := s.calls ++ registerCalls s n } ∧
      ∀ p ∈ s.hierarchies, H.geometry p = some (unbuilt m (n + 1)) := by
  obtain ⟨hnd, hgeo⟩ := hr
  simp only [hierarchies, List.nodup_cons, List.mem_cons, List.mem_singleton, not_or,
    List.not_mem_nil, not_false_eq_true, List.nodup_nil, and_true] at hnd
  obtain ⟨⟨hcd, hcb, hca⟩, ⟨hdb, hda⟩, hba⟩ := hnd
  have ga := hgeo s.m_staticGeometryTopDown500 (by simp [hierarchies])
  have gb := hgeo s.m_staticGeometryTopDown7 (by simp [hierarchies])
  have gc := hgeo s.m_staticGeometryBottomUp7 (by simp [hierarchies])
  have gd := hgeo s.m_staticGeometryBottomUp500 (by simp [hierarchies])
  obtain ⟨H1, e1, a1, f1⟩ := addGeometry_spec s.m_staticGeometryTopDown500 n s m n hm ga rfl
  obtain ⟨H2, e2, b2, f2⟩ := addGeometry_spec s.m_staticGeometryTopDown7 n
    { s with heap := H1,
             calls := s.calls ++ [Call.addGeometry s.m_staticGeometryTopDown500
               (some (unbuilt m n)) m n] }
    m n hm (by rw [← gb]; exact f1 _ hba) rfl
  obtain ⟨H3, e3, c3, f3⟩ := addGeometry_spec s.m_staticGeometryBottomUp7 n
    { s with heap := H2,
             calls := s.calls ++ [Call.addGeometry s.m_staticGeometryTopDown500
               (some (unbuilt m n)) m n] ++ [Call.addGeometry s.m_staticGeometryTopDown7
               (some (unbuilt m n)) m n] }
    m n hm (by rw [← gc]; exact (f2 _ hcb).trans (f1 _ hca)) rfl
  obtain ⟨H4, e4, d4, f4⟩ := addGeometry_spec s.m_staticGeometryBottomUp500 n
    { s with heap := H3,
             calls := s.calls ++ [Call.addGeometry s.m_staticGeometryTopDown500
               (some (unbuilt m n)) m n] ++ [Call.addGeometry s.m_staticGeometryTopDown7
               (some (unbuilt m n)) m n] ++ [Call.addGeometry s.m_staticGeometryBottomUp7
               (some (unbuilt m n)) m n] }
    m n hm (by rw [← gd]; exact ((f3 _ (Ne.symm hcd)).trans (f2 _ hdb)).trans (f1 _ hda)) rfl
  refine ⟨H4, ?_, ?_⟩
  · dsimp only [registerInstance]
    rw [e1]
    dsimp only
    rw [e2]
    dsimp only
    rw [e3]
    dsimp only
    rw [e4]
    simp only [registerCalls, hm, List.append_assoc, List.cons_append, List.nil_append]
  · intro p hp
    simp only [hierarchies, List.mem_cons, List.mem_singleton, List.not_mem_nil, or_false] at hp
    rcases hp with rfl | rfl | rfl | rfl
    · rw [f4 _ hcd, c3]
    · exact d4
    · rw [f4 _ (Ne.symm hdb), f3 _ (Ne.symm hcb), b2]
    · rw [f4 _ (Ne.symm hda), f3 _ (Ne.symm hca), f2 _ (Ne.symm hba), a1]

end MainWidgetPrivate

namespace Heap

/-- Four consecutive allocations of hierarchies give four different live objects. -/
theorem alloc_four (H : Heap) (g : KStaticGeometry) :
    [(((H.alloc (.geometry g)).2.alloc (.geometry g)).2).fresh,
     ((((H.alloc (.geometry g)).2.alloc (.geometry g)).2.alloc (.geometry g)).2).fresh,
     ((H.alloc (.geometry g)).2).fresh, H.fresh].Nodup ∧
    ∀ p ∈ [(((H.alloc (.geometry g)).2.alloc (.geometry g)).2).fresh,
        ((((H.alloc (.geometry g)).2.alloc (.geometry g)).2.alloc (.geometry g)).2).fresh,
        ((H.alloc (.geometry g)).2).fresh, H.fresh],
      (((((H.alloc (.geometry g)).2.alloc (.geometry g)).2.alloc (.geometry g)).2.alloc
        (.geometry g)).2).geometry p = some g := by
  generalize hH1 : (H.alloc (.geometry g)).2 = H1
  generalize hH2 : (H1.alloc (.geometry g)).2 = H2
  generalize hH3 : (H2.alloc (.geometry g)).2 = H3
  generalize hH4 : (H3.alloc (.geometry g)).2 = H4
  have a1 : H1.geometry H.fresh = some g := by rw [← hH1, geometry_alloc, if_pos rfl]
  have hba : H1.fresh ≠ H.fresh := by
    intro e
    have := geometry_fresh H1
    rw [e, a1] at this
    exact Option.noConfusion this
  have a2 : H2.geometry H.fresh = some g := by rw [← hH2, geometry_alloc, if_neg hba.symm, a1]
  have b2 : H2.geometry H1.fresh = some g := by rw [← hH2, geometry_alloc, if_pos rfl]
  have hca : H2.fresh ≠ H.fresh := by
    intro e
    have := geometry_fresh H2
    rw [e, a2] at this
    exact Option.noConfusion this
  have hcb : H2.fresh ≠ H1.fresh := by
    intro e
    have := geometry_fresh H2
    rw [e, b2] at this
    exact Option.noConfusion this
  have a3 : H3.geometry H.fresh = some g := by rw [← hH3, geometry_alloc, if_neg hca.symm, a2]
  have b3 : H3.geometry H1.fresh = some g := by rw [← hH3, geometry_alloc, if_neg hcb.symm, b2]
  have c3 : H3.geometry H2.fresh = some g := by rw [← hH3, geometry_alloc, if_pos rfl]
  have hda : H3.fresh ≠ H.fresh := by
    intro e
    have := geometry_fresh H3
    rw [e, a3] at this
    exact Option.noConfusion this
  have hdb : H3.fresh ≠ H1.fresh := by
    intro e
    have := geometry_fresh H3
    rw [e, b3] at this
    exact Option.noConfusion this
  have hdc : H3.fresh ≠ H2.fresh := by
    intro e
    have := geometry_fresh H3
    rw [e, c3] at this
    exact Option.noConfusion this
  have a4 : H4.geometry H.fresh = some g := by rw [← hH4, geometry_alloc, if_neg hda.symm, a3]
  have b4 : H4.geometry H1.fresh = some g := by rw [← hH4, geometry_alloc, if_neg hdb.symm, b3]
  have c4 : H4.geometry H2.fresh = some g := by rw [← hH4, geometry_alloc, if_neg hdc.symm, c3]
  have d4 : H4.geometry H3.fresh = some g := by rw [← hH4, geometry_alloc, if_pos rfl]
  constructor
  · simp only [List.nodup_cons, List.mem_cons, List.mem_singleton, not_or, List.not_mem_nil,
      not_false_eq_true, List.nodup_nil, and_true]
    exact ⟨⟨hdc.symm, hcb, hca⟩, ⟨hdb, hda⟩, hba⟩
  · intro p hp
    simp only [List.mem_cons, List.mem_singleton, List.not_mem_nil, or_false] at hp
    rcases hp with rfl | rfl | rfl | rfl
    · exact c4
    · exact d4
    · exact b4
    · exact a4

end Heap

namespace MainWidgetPrivate

theorem registerInstance_registered (s : MainWidgetPrivate V) (m n : Nat)
    (hm : s.m_halfEdgeMesh = m) (hr : Registered s m n) :
    Registered (registerInstance s n) m (n + 1) ∧
    (registerInstance s n).calls = s.calls ++ registerCalls s n ∧
    ∃ H cs, registerInstance s n = { s with heap := H, calls := cs } := by
  obtain ⟨H, e, hg⟩ := registerInstance_spec s m n hm hr
  rw [e]
  exact ⟨⟨hr.1, hg⟩, rfl, _, _, rfl⟩

theorem createStaticGeometry_spec (s : MainWidgetPrivate V) :
    Registered (createStaticGeometry s) s.m_halfEdgeMesh 4 ∧
    (createStaticGeometry s).calls
      = s.calls ++ createStaticGeometryCalls s (createStaticGeometry s) ∧
    ∃ H a b c d cs, createStaticGeometry s
      = { s with heap := H, m_staticGeometryTopDown500 := a, m_staticGeometryTopDown7 := b,
                 m_staticGeometryBottomUp7 := c, m_staticGeometryBottomUp500 := d,
                 m_staticGeometry := 0, calls := cs } := by
  obtain ⟨S8, hS8⟩ : ∃ S8 : MainWidgetPrivate V, S8 = replaceStaticGeometry s := ⟨_, rfl⟩
  have key : createStaticGeometry s
      = { registerInstance (registerInstance (registerInstance (registerInstance S8 0) 1) 2) 3
          with m_staticGeometry := 0 } := by
    have h4 : List.range 4 = [0, 1, 2, 3] := by decide
    unfold createStaticGeometry
    rw [h4]
    dsimp only [List.foldl]
    rw [← hS8]
  have hmesh : S8.m_halfEdgeMesh = s.m_halfEdgeMesh := by
    rw [hS8]
    simp only [replaceStaticGeometry, deleteGeometry, newGeometry, emit]
  have hcalls : S8.calls = s.calls ++
      [.deleteGeometry s.m_staticGeometryTopDown500,
       .deleteGeometry s.m_staticGeometryTopDown7,
       .deleteGeometry s.m_staticGeometryBottomUp7,
       .deleteGeometry s.m_staticGeometryBottomUp500,
       .newGeometry S8.m_staticGeometryTopDown500,
       .newGeometry S8.m_staticGeometryTopDown7,
       .newGeometry S8.m_staticGeometryBottomUp7,
       .newGeometry S8.m_staticGeometryBottomUp500] := by
    rw [hS8]
    simp only [replaceStaticGeometry, deleteGeometry, newGeometry, emit, List.append_assoc,
      List.cons_append, List.nil_append]
  have hshape : ∃ H a b c d cs, S8
      = { s with heap := H, m_staticGeometryTopDown500 := a, m_staticGeometryTopDown7 := b,
                 m_staticGeometryBottomUp7 := c, m_staticGeometryBottomUp500 := d,
                 calls := cs } := by
    rw [hS8]
    refine ⟨(replaceStaticGeometry s).heap, (replaceStaticGeometry s).m_staticGeometryTopDown500,
      (replaceStaticGeometry s).m_staticGeometryTopDown7,
      (replaceStaticGeometry s).m_staticGeometryBottomUp7,
      (replaceStaticGeometry s).m_staticGeometryBottomUp500, (replaceStaticGeometry s).calls, ?_⟩
    simp only [replaceStaticGeometry, deleteGeometry, newGeometry, emit]
  have hreg : Registered S8 s.m_halfEdgeMesh 0 := by
    have h4 := Heap.alloc_four
      ((((s.heap.delete s.m_staticGeometryTopDown500).delete s.m_staticGeometryTopDown7).delete
        s.m_staticGeometryBottomUp7).delete s.m_staticGeometryBottomUp500)
      { instances := [], built := none, depth := 0 }
    rw [hS8]
    simp only [replaceStaticGeometry, deleteGeometry, newGeometry, emit, Registered,
      hierarchies, unbuilt, registered, List.range_zero, List.map_nil]
    exact h4
  clear hS8
  obtain ⟨r1, c1, H1, cs1, e1⟩ := registerInstance_registered S8 _ 0 hmesh hreg
  generalize registerInstance S8 0 = t1 at *
  have m1 : t1.m_halfEdgeMesh = s.m_halfEdgeMesh := by rw [e1]; exact hmesh
  obtain ⟨r2, c2, H2, cs2, e2⟩ := registerInstance_registered t1 _ 1 m1 r1
  generalize registerInstance t1 1 = t2 at *
  have m2 : t2.m_halfEdgeMesh = s.m_halfEdgeMesh := by rw [e2]; exact m1
  obtain ⟨r3, c3, H3, cs3, e3⟩ := registerInstance_registered t2 _ 2 m2 r2
  generalize registerInstance t2 2 = t3 at *
  have m3 : t3.m_halfEdgeMesh = s.m_halfEdgeMesh := by rw [e3]; exact m2
  obtain ⟨r4, c4, H4, cs4, e4⟩ := registerInstance_registered t3 _ 3 m3 r3
  generalize registerInstance t3 3 = t4 at *
  rw [key]
  refine ⟨r4, ?_, ?_⟩
  · show t4.calls = _
    rw [c4, c3, c2, c1, hcalls]
    subst e4
    subst e3
    subst e2
    subst e1
    simp only [createStaticGeometryCalls, registerCalls, List.append_assoc, List.cons_append,
      List.nil_append]
  · obtain ⟨H, a, b, c, d, cs, e⟩ := hshape
    subst e4
    subst e3
    subst e2
    subst e1
    subst e
    exact ⟨_, _, _, _, _, _, rfl⟩

end MainWidgetPrivate

namespace MainWidgetPrivate

/-- The state of `loadObj` when the hierarchies are about to be replaced. -/
theorem loadObj_eq (mesh : KHalfEdgeMesh V) (s : MainWidgetPrivate V) :
    loadObj mesh s
      = { createStaticGeometry (queryBoundaries (createOpenGLMesh (createBoundingVolumes
            (calculateVertexNormals (createHalfEdgeMesh mesh (removeOldMesh (pause s)))))))
          with m_paused := s.m_paused } := by
  simp only [loadObj, loadObjWork, runBlocks, List.foldl]

theorem loadObj_spec (mesh : KHalfEdgeMesh V) (s : MainWidgetPrivate V) :
    Registered (loadObj mesh s) (loadObj mesh s).m_halfEdgeMesh 4 ∧
    (loadObj mesh s).calls = s.calls ++ loadObjCalls s (loadObj mesh s) ∧
    (loadObj mesh s).m_staticGeometry = 0 ∧
    (loadObj mesh s).m_boundaries = boundaryQuery mesh ∧
    (loadObj mesh s).meshData = some mesh ∧
    ∃ H m v1 v2 v3 v4 v5 v6 v7 a b c d cs, loadObj mesh s
      = { s with heap := H, m_halfEdgeMesh := m, meshData := some mesh,
                 m_boundaries := boundaryQuery mesh,
                 m_aabbBV := v1, m_sphereCentroidBV := v2, m_sphereRittersBV := v3,
                 m_sphereLarssonsBV := v4, m_spherePcaBV := v5, m_ellipsoidPcaBV := v6,
                 m_orientedPcaBV := v7,
                 m_staticGeometryTopDown500 := a, m_staticGeometryTopDown7 := b,
                 m_staticGeometryBottomUp7 := c, m_staticGeometryBottomUp500 := d,
                 m_staticGeometry := 0, calls := cs } := by
  rw [loadObj_eq]
  obtain ⟨P, hP⟩ : ∃ P : MainWidgetPrivate V, P = queryBoundaries (createOpenGLMesh
    (createBoundingVolumes (calculateVertexNormals (createHalfEdgeMesh mesh
      (removeOldMesh (pause s)))))) := ⟨_, rfl⟩
  rw [← hP]
  have p1 : P.calls = s.calls ++
      [.deleteMesh s.m_halfEdgeMesh,
       .newMesh P.m_halfEdgeMesh,
       .calculateVertexNormals P.m_halfEdgeMesh,
       .newVolume .aabbMinMax P.m_aabbBV P.m_halfEdgeMesh,
       .newVolume .sphereCentroid P.m_sphereCentroidBV P.m_halfEdgeMesh,
       .newVolume .sphereRitters P.m_sphereRittersBV P.m_halfEdgeMesh,
       .newVolume .sphereLarssons P.m_sphereLarssonsBV P.m_halfEdgeMesh,
       .newVolume .spherePca P.m_spherePcaBV P.m_halfEdgeMesh,
       .newVolume .ellipsoidPca P.m_ellipsoidPcaBV P.m_halfEdgeMesh,
       .newVolume .orientedPca P.m_orientedPcaBV P.m_halfEdgeMesh,
       .createOpenGLMesh P.m_halfEdgeMesh,
       .boundaryQuery P.m_halfEdgeMesh] := by
    rw [hP]
    simp only [queryBoundaries, createOpenGLMesh, createBoundingVolumes, newVolume,
      calculateVertexNormals, createHalfEdgeMesh, removeOldMesh, pause, emit,
      List.append_assoc, List.cons_append, List.nil_append]
  have p2 : ∃ H m v1 v2 v3 v4 v5 v6 v7 cs, P
      = { s with heap := H, m_halfEdgeMesh := m, meshData := some mesh,
                 m_boundaries := boundaryQuery mesh,
                 m_aabbBV := v1, m_sphereCentroidBV := v2, m_sphereRittersBV := v3,
                 m_sphereLarssonsBV := v4, m_spherePcaBV := v5, m_ellipsoidPcaBV := v6,
                 m_orientedPcaBV := v7, m_paused := true, calls := cs } := by
    refine ⟨P.heap, P.m_halfEdgeMesh, P.m_aabbBV, P.m_sphereCentroidBV, P.m_sphereRittersBV,
      P.m_sphereLarssonsBV, P.m_spherePcaBV, P.m_ellipsoidPcaBV, P.m_orientedPcaBV, P.calls, ?_⟩
    rw [hP]
    simp only [queryBoundaries, createOpenGLMesh, createBoundingVolumes, newVolume,
      calculateVertexNormals, createHalfEdgeMesh, removeOldMesh, pause, emit]
  clear hP
  obtain ⟨q1, q2, H, a, b, c, d, cs, q3⟩ := createStaticGeometry_spec P
  obtain ⟨H0, m, v1, v2, v3, v4, v5, v6, v7, cs0, p3⟩ := p2
  generalize createStaticGeometry P = T at *
  subst q3
  subst p3
  refine ⟨q1, ?_, rfl, rfl, rfl, _, _, _, _, _, _, _, _, _, _, _, _, _, _, rfl⟩
  show _ = s.calls ++ _
  rw [q2, p1]
  simp only [loadObjCalls, createStaticGeometryCalls, registerCalls, List.append_assoc,
    List.cons_append, List.nil_append]

end MainWidgetPrivate

/-! ## The boundary query -/

theorem boundaryQuery_fold (mesh : KHalfEdgeMesh V) (l : List HalfEdge) (acc : List (V × V)) :
    l.foldl
      (fun result edge =>
        if edge.face == 0 then
          result ++ [((mesh.vertex edge.to_).position,
                      (mesh.vertex (mesh.halfEdge edge.next).to_).position)]
        else result)
      acc
    = acc ++ (l.filter (fun e => e.face = 0)).map
        (fun e => ((mesh.vertex e.to_).position,
                   (mesh.vertex (mesh.halfEdge e.next).to_).position)) := by
  induction l generalizing acc with
  | nil => simp
  | cons e es ih =>
    rw [List.foldl_cons, ih]
    by_cases he : e.face = 0
    · simp [he, List.filter_cons]
    · simp [he, List.filter_cons]

theorem boundaryQuery_eq_spec (mesh : KHalfEdgeMesh V) :
    MainWidgetPrivate.boundaryQuery mesh = boundaryEdgesSpec mesh := by
  unfold MainWidgetPrivate.boundaryQuery boundaryEdgesSpec
  rw [boundaryQuery_fold, List.nil_append]

/-! ## The pause flag in `loadObj` -/

namespace MainWidgetPrivate

theorem loadObjWork_paused (mesh : KHalfEdgeMesh V) (f : MainWidgetPrivate V → MainWidgetPrivate V)
    (hf : f ∈ loadObjWork mesh) (s : MainWidgetPrivate V) : (f s).m_paused = s.m_paused := by
  simp only [loadObjWork, List.mem_cons, List.mem_singleton, List.not_mem_nil, or_false] at hf
  rcases hf with rfl | rfl | rfl | rfl | rfl | rfl | rfl
  · simp only [removeOldMesh, emit]
  · simp only [createHalfEdgeMesh, emit]
  · simp only [calculateVertexNormals, emit]
  · simp only [createBoundingVolumes, newVolume, emit]
  · simp only [createOpenGLMesh, emit]
  · simp only [queryBoundaries, emit]
  · obtain ⟨-, -, H, a, b, c, d, cs, e⟩ := createStaticGeometry_spec s
    rw [e]

theorem runBlocks_paused (blocks : List (MainWidgetPrivate V → MainWidgetPrivate V))
    (hb : ∀ f ∈ blocks, ∀ s, (f s).m_paused = s.m_paused) (s : MainWidgetPrivate V) :
    (runBlocks blocks s).m_paused = s.m_paused := by
  induction blocks generalizing s with
  | nil => rfl
  | cons f fs ih =>
    show (runBlocks fs (f s)).m_paused = _
    rw [ih (fun g hg => hb g (List.mem_cons_of_mem _ hg)), hb f (List.mem_cons_self _ _)]

end MainWidgetPrivate

/-! ## Traces and frames -/

theorem Emits.nothing (P : Call → Prop) (s : MainWidgetPrivate V) : Emits P s s :=
  ⟨[], by simp, by simp⟩

theorem Emits.of_calls_eq (P : Call → Prop) (s t : MainWidgetPrivate V) (h : t.calls = s.calls) :
    Emits P s t :=
  ⟨[], by simp [h], by simp⟩

theorem Emits.append {P : Call → Prop} {s t u : MainWidgetPrivate V}
    (h1 : Emits P s t) (h2 : Emits P t u) : Emits P s u := by
  obtain ⟨c1, e1, p1⟩ := h1
  obtain ⟨c2, e2, p2⟩ := h2
  refine ⟨c1 ++ c2, by rw [e2, e1, List.append_assoc], ?_⟩
  intro c hc
  rcases List.mem_append.mp hc with h | h
  · exact p1 c h
  · exact p2 c h

theorem Emits.mono {P Q : Call → Prop} {s t : MainWidgetPrivate V} (hPQ : ∀ c, P c → Q c)
    (h : Emits P s t) : Emits Q s t := by
  obtain ⟨cs, e, p⟩ := h
  exact ⟨cs, e, fun c hc => hPQ c (p c hc)⟩

theorem Emits.single {P : Call → Prop} (s : MainWidgetPrivate V) (c : Call) (hc : P c) :
    Emits P s (s.emit c) :=
  ⟨[c], rfl, by simpa using hc⟩

theorem Emits.newCalls {P : Call → Prop} {s t : MainWidgetPrivate V} (h : Emits P s t) :
    ∀ c ∈ newCalls s t, P c := by
  obtain ⟨cs, e, p⟩ := h
  rw [newCalls_of_append s t cs e]
  exact p

theorem SameCore.same (s : MainWidgetPrivate V) : SameCore s s := ⟨rfl, rfl, rfl, rfl, rfl, rfl, rfl, rfl⟩

theorem SameCore.chain {s t u : MainWidgetPrivate V} (h1 : SameCore s t) (h2 : SameCore t u) :
    SameCore s u := by
  obtain ⟨a1, a2, a3, a4, a5, a6, a7, a8⟩ := h1
  obtain ⟨b1, b2, b3, b4, b5, b6, b7, b8⟩ := h2
  exact ⟨b1.trans a1, b2.trans a2, b3.trans a3, b4.trans a4, b5.trans a5, b6.trans a6,
    b7.trans a7, b8.trans a8⟩

theorem SameCore.hierarchies {s t : MainWidgetPrivate V} (h : SameCore s t) :
    t.hierarchies = s.hierarchies := by
  obtain ⟨-, -, -, a4, a5, a6, a7, -⟩ := h
  simp only [MainWidgetPrivate.hierarchies, a4, a5, a6, a7]

theorem SameCore.of_emit (s : MainWidgetPrivate V) (c : Call) : SameCore s (s.emit c) :=
  ⟨rfl, rfl, rfl, rfl, rfl, rfl, rfl, rfl⟩

theorem SameCore.keeps_sound {s t : MainWidgetPrivate V} (h : SameCore s t) (hs : s.Sound) :
    t.Sound := by
  have hh := h.hierarchies
  obtain ⟨h1, h2, h3, -, -, -, -, h8⟩ := h
  unfold MainWidgetPrivate.Sound
  rw [h1, h2, h3, hh, h8]
  exact hs

/-! ## Painting -/

namespace MainWidgetPrivate

theorem bindBase_quiet (P : Call → Prop) (hd : ∀ c, c.isPaintDetail = true → P c)
    (block point : Nat) (s : MainWidgetPrivate V) :
    SameCore s (bindBase block point s) ∧ Emits P s (bindBase block point s) :=
  ⟨⟨rfl, rfl, rfl, rfl, rfl, rfl, rfl, rfl⟩, [Call.bindBase block point], rfl, by
    intro c hc
    rw [List.mem_singleton] at hc
    subst hc
    exact hd _ rfl⟩

theorem swapRenderBlocks_quiet (P : Call → Prop) (hd : ∀ c, c.isPaintDetail = true → P c)
    (s : MainWidgetPrivate V) :
    SameCore s (swapRenderBlocks s) ∧ Emits P s (swapRenderBlocks s) := by
  unfold swapRenderBlocks
  dsimp only
  have h0 : SameCore s
      { s with m_renderBlockIndex := (s.m_renderBlockIndex.2, s.m_renderBlockIndex.1) } :=
    ⟨rfl, rfl, rfl, rfl, rfl, rfl, rfl, rfl⟩
  have e0 : Emits P s
      { s with m_renderBlockIndex := (s.m_renderBlockIndex.2, s.m_renderBlockIndex.1) } :=
    Emits.of_calls_eq P _ _ rfl
  have h1 := bindBase_quiet P hd s.m_renderBlockIndex.1 (s.m_renderBlockIndex.2 + 1)
    { s with m_renderBlockIndex := (s.m_renderBlockIndex.2, s.m_renderBlockIndex.1) }
  have h2 := bindBase_quiet P hd s.m_renderBlockIndex.2 (s.m_renderBlockIndex.1 + 1)
    (bindBase s.m_renderBlockIndex.1 (s.m_renderBlockIndex.2 + 1)
      { s with m_renderBlockIndex := (s.m_renderBlockIndex.2, s.m_renderBlockIndex.1) })
  exact ⟨(h0.chain h1.1).chain h2.1, (e0.append h1.2).append h2.2⟩

theorem fixRenderBlocks_quiet (P : Call → Prop) (hd : ∀ c, c.isPaintDetail = true → P c)
    (s : MainWidgetPrivate V) :
    SameCore s (fixRenderBlocks s) ∧ Emits P s (fixRenderBlocks s) := by
  unfold fixRenderBlocks
  split_ifs
  · exact bindBase_quiet P hd _ _ s
  · exact ⟨SameCore.same s, Emits.nothing P s⟩

theorem emit_quiet (P : Call → Prop) (s : MainWidgetPrivate V) (c : Call) (hc : P c) :
    SameCore s (s.emit c) ∧ Emits P s (s.emit c) :=
  ⟨SameCore.of_emit s c, Emits.single s c hc⟩

theorem quiet_trans {P : Call → Prop} {s t u : MainWidgetPrivate V}
    (h1 : SameCore s t ∧ Emits P s t) (h2 : SameCore t u ∧ Emits P t u) :
    SameCore s u ∧ Emits P s u :=
  ⟨h1.1.chain h2.1, h1.2.append h2.2⟩

/-- The part of `commitGL` after the call is marked. -/
theorem commitGL_tail (P : Call → Prop) (hd : ∀ c, c.isPaintDetail = true → P c)
    (cameraDirty : Bool) (s : MainWidgetPrivate V) :
    SameCore (s.emit .commitGL) (commitGL cameraDirty s) ∧
    Emits P (s.emit .commitGL) (commitGL cameraDirty s) := by
  unfold commitGL
  dsimp only
  refine quiet_trans (quiet_trans (quiet_trans ?_
    (emit_quiet P _ _ (hd _ (by rfl)))) (emit_quiet P _ _ (hd _ (by rfl))))
    (emit_quiet P _ _ (hd _ (by rfl)))
  cases cameraDirty
  · exact fixRenderBlocks_quiet P hd _
  · exact quiet_trans (swapRenderBlocks_quiet P hd _) (emit_quiet P _ _ (hd _ (by rfl)))

theorem drawVolumes_quiet (P : Call → Prop) (hd : ∀ c, c.isPaintDetail = true → P c)
    (s : MainWidgetPrivate V) (inst : Nat) :
    SameCore s (drawVolumes s inst) ∧ Emits P s (drawVolumes s inst) := by
  have step : ∀ (b : Bool) (c : Call) (t : MainWidgetPrivate V), c.isPaintDetail = true →
      SameCore t (if b then t.emit c else t) ∧ Emits P t (if b then t.emit c else t) := by
    intro b c t hc
    cases b
    · exact ⟨SameCore.same t, Emits.nothing P t⟩
    · exact emit_quiet P t c (hd c hc)
  unfold drawVolumes
  dsimp only
  exact quiet_trans (quiet_trans (quiet_trans (quiet_trans (quiet_trans (quiet_trans
    (step _ _ _ (by rfl)) (step _ _ _ (by rfl))) (step _ _ _ (by rfl))) (step _ _ _ (by rfl))) (step _ _ _ (by rfl)))
    (step _ _ _ (by rfl))) (step _ _ _ (by rfl))

theorem foldl_drawVolumes_quiet (P : Call → Prop) (hd : ∀ c, c.isPaintDetail = true → P c)
    (insts : List Nat) (s : MainWidgetPrivate V) :
    SameCore s (insts.foldl drawVolumes s) ∧ Emits P s (insts.foldl drawVolumes s) := by
  induction insts generalizing s with
  | nil => exact ⟨SameCore.same s, Emits.nothing P s⟩
  | cons i is ih => exact quiet_trans (drawVolumes_quiet P hd s i) (ih _)


/-- The part of `renderGL` after the call is marked. -/
theorem renderGL_tail (P : Call → Prop) (hd : ∀ c, c.isPaintDetail = true → P c)
    (s : MainWidgetPrivate V)
    (ha : s.m_staticGeometry ≠ 0 → ∀ a b,
      P (.drawAabbs s.m_staticGeometry (s.heap.geometry s.m_staticGeometry) a b)) :
    SameCore (s.emit .renderGL) (renderGL s) ∧ Emits P (s.emit .renderGL) (renderGL s) := by
  unfold renderGL
  dsimp only
  generalize hT : List.foldl drawVolumes _ _ = T
  have h : SameCore (s.emit .renderGL) T ∧ Emits P (s.emit .renderGL) T := by
    rw [← hT]
    exact quiet_trans (quiet_trans (emit_quiet P (s.emit .renderGL) .passesRender
      (hd _ (by rfl))) (emit_quiet P _ (.composeScene s.m_presentation) (hd _ (by rfl))))
      (foldl_drawVolumes_quiet P hd s.m_instances _)
  refine quiet_trans h ?_
  obtain ⟨-, h3, h4, -, -, -, -, -⟩ := h.1
  split_ifs with h0
  · rw [h3, h4]
    refine emit_quiet P _ _ (ha ?_ _ _)
    rw [h3] at h0
    exact h0
  · exact ⟨SameCore.same _, Emits.nothing P _⟩

/-- The calls of one unpaused frame: `commitGL` once, then `renderGL` once. -/
theorem paintGL_calls (P : Call → Prop) (hd : ∀ c, c.isPaintDetail = true → P c)
    (cameraDirty : Bool) (s : MainWidgetPrivate V)
    (ha : s.m_staticGeometry ≠ 0 → ∀ a b,
      P (.drawAabbs s.m_staticGeometry (s.heap.geometry s.m_staticGeometry) a b)) :
    SameCore s ((paintGL cameraDirty s).emit .widgetPaintGL) ∧
    ∃ xs ys, ((paintGL cameraDirty s).emit .widgetPaintGL).calls
      = s.calls ++ ([Call.beginFrame, Call.commitGL] ++ xs ++ [Call.renderGL] ++ ys ++
          [Call.endFrame, Call.debugDraw, Call.widgetPaintGL]) ∧
      (∀ c ∈ xs, P c) ∧ ∀ c ∈ ys, P c := by
  obtain ⟨c1, xs, ex, px⟩ := commitGL_tail P hd cameraDirty (s.emit .beginFrame)
  have ha2 : (commitGL cameraDirty (s.emit .beginFrame)).m_staticGeometry ≠ 0 → ∀ a b,
      P (.drawAabbs (commitGL cameraDirty (s.emit .beginFrame)).m_staticGeometry
        ((commitGL cameraDirty (s.emit .beginFrame)).heap.geometry
          (commitGL cameraDirty (s.emit .beginFrame)).m_staticGeometry) a b) := by
    rw [c1.2.1, c1.2.2.1]
    exact ha
  obtain ⟨c2, ys, ey, py⟩ := renderGL_tail P hd (commitGL cameraDirty (s.emit .beginFrame)) ha2
  refine ⟨?_, xs, ys, ?_, px, py⟩
  · exact ((((SameCore.of_emit s .beginFrame).chain
      ((SameCore.of_emit _ .commitGL).chain c1)).chain ((SameCore.of_emit _ .renderGL).chain c2)).chain
      ((SameCore.of_emit _ .endFrame).chain (SameCore.of_emit _ .debugDraw))).chain
      (SameCore.of_emit _ .widgetPaintGL)
  · show (((renderGL (commitGL cameraDirty (s.emit .beginFrame))).calls ++ [Call.endFrame]) ++
      [Call.debugDraw]) ++ [Call.widgetPaintGL] = _
    rw [ey]
    show (((((commitGL cameraDirty (s.emit .beginFrame)).calls ++ [Call.renderGL]) ++ ys) ++
      [Call.endFrame]) ++ [Call.debugDraw]) ++ [Call.widgetPaintGL] = _
    rw [ex]
    show ((((((((s.calls ++ [Call.beginFrame]) ++ [Call.commitGL]) ++ xs) ++ [Call.renderGL]) ++
      ys) ++ [Call.endFrame]) ++ [Call.debugDraw]) ++ [Call.widgetPaintGL]) = _
    simp only [List.append_assoc, List.cons_append, List.nil_append]

end MainWidgetPrivate

/-! ## The key handlers of `updateEvent` -/

theorem Silent.idle (s : MainWidgetPrivate V) : Silent s s := ⟨SameCore.same s, rfl⟩

theorem Silent.andThen {s t u : MainWidgetPrivate V} (h1 : Silent s t) (h2 : Silent t u) :
    Silent s u :=
  ⟨h1.1.chain h2.1, h2.2.trans h1.2⟩

theorem Silent.ite (b : Bool) {s t : MainWidgetPrivate V} (h : Silent s t) :
    Silent s (if b = true then t else s) := by
  cases b
  · exact Silent.idle s
  · exact h

theorem Silent.quiet (P : Call → Prop) {s t : MainWidgetPrivate V} (h : Silent s t) :
    SameCore s t ∧ Emits P s t :=
  ⟨h.1, Emits.of_calls_eq P s t h.2⟩

namespace MainWidget

open MainWidgetPrivate

theorem maxDrawKey_silent (inp : KInputManager V) (k : Key) (d : Int)
    (p : MainWidgetPrivate V) : Silent p (maxDrawKey inp k d p) :=
  Silent.ite _ ⟨⟨rfl, rfl, rfl, rfl, rfl, rfl, rfl, rfl⟩, rfl⟩

theorem minDrawKey_silent (inp : KInputManager V) (k : Key) (d : Int)
    (p : MainWidgetPrivate V) : Silent p (minDrawKey inp k d p) :=
  Silent.ite _ ⟨⟨rfl, rfl, rfl, rfl, rfl, rfl, rfl, rfl⟩, rfl⟩

theorem rotationKey_silent (inp : KInputManager V) (k : Key) (axis : Nat)
    (p : MainWidgetPrivate V) : Silent p (rotationKey inp k axis p) := by
  unfold rotationKey
  refine Silent.ite _ ?_
  split <;> exact ⟨⟨rfl, rfl, rfl, rfl, rfl, rfl, rfl, rfl⟩, rfl⟩

theorem presentationKey_silent (inp : KInputManager V) (k : Key) (v : PresentType)
    (p : MainWidgetPrivate V) : Silent p (presentationKey inp k v p) :=
  Silent.ite _ ⟨⟨rfl, rfl, rfl, rfl, rfl, rfl, rfl, rfl⟩, rfl⟩

theorem volumeKey_silent (inp : KInputManager V) (k : Key) (i : Nat)
    (p : MainWidgetPrivate V) : Silent p (volumeKey inp k i p) :=
  Silent.ite _ ⟨⟨rfl, rfl, rfl, rfl, rfl, rfl, rfl, rfl⟩, rfl⟩

theorem rangeKeys_silent (inp : KInputManager V) (p : MainWidgetPrivate V) :
    Silent p (rangeKeys inp p) :=
  (((maxDrawKey_silent inp _ _ p).andThen (maxDrawKey_silent inp _ _ _)).andThen
    (minDrawKey_silent inp _ _ _)).andThen (minDrawKey_silent inp _ _ _)

theorem rotationKeys_silent (inp : KInputManager V) (p : MainWidgetPrivate V) :
    Silent p (rotationKeys inp p) := by
  unfold rotationKeys
  by_cases hb : inp.buttonPressed = true
  · rw [if_pos hb]
    exact Silent.idle p
  · rw [if_neg hb]
    exact ((rotationKey_silent inp _ _ p).andThen (rotationKey_silent inp _ _ _)).andThen
      (rotationKey_silent inp _ _ _)

theorem bufferKeys_silent (inp : KInputManager V) (p : MainWidgetPrivate V) :
    Silent p (bufferKeys inp p) := by
  unfold bufferKeys
  by_cases hs : inp.keyPressed Key.Shift = true
  · rw [if_pos hs]
    exact ((((((((presentationKey_silent inp _ _ p).andThen
      (presentationKey_silent inp _ _ _)).andThen (presentationKey_silent inp _ _ _)).andThen
      (presentationKey_silent inp _ _ _)).andThen (presentationKey_silent inp _ _ _)).andThen
      (presentationKey_silent inp _ _ _)).andThen (presentationKey_silent inp _ _ _)).andThen
      (presentationKey_silent inp _ _ _)).andThen (presentationKey_silent inp _ _ _)
  · rw [if_neg hs]
    exact ((((((volumeKey_silent inp _ _ p).andThen (volumeKey_silent inp _ _ _)).andThen
      (volumeKey_silent inp _ _ _)).andThen (volumeKey_silent inp _ _ _)).andThen
      (volumeKey_silent inp _ _ _)).andThen (volumeKey_silent inp _ _ _)).andThen
      (volumeKey_silent inp _ _ _)

end MainWidget
namespace MainWidgetPrivate

theorem clampMinBelow_silent (s : MainWidgetPrivate V) : Silent s (clampMinBelow s) := by
  unfold clampMinBelow
  split_ifs
  · exact ⟨⟨rfl, rfl, rfl, rfl, rfl, rfl, rfl, rfl⟩, rfl⟩
  · exact Silent.idle s

theorem clampMaxBelow_silent (s : MainWidgetPrivate V) : Silent s (clampMaxBelow s) := by
  unfold clampMaxBelow
  split_ifs
  · exact ⟨⟨rfl, rfl, rfl, rfl, rfl, rfl, rfl, rfl⟩, rfl⟩
  · exact Silent.idle s

theorem clampMinAbove_quiet (P : Call → Prop) (s : MainWidgetPrivate V)
    (hd : P (.depth s.m_staticGeometry (s.heap.geometry s.m_staticGeometry))) :
    SameCore s (clampMinAbove s) ∧ Emits P s (clampMinAbove s) := by
  unfold clampMinAbove
  dsimp only
  have h1 : SameCore s (callDepth s) ∧ Emits P s (callDepth s) := emit_quiet P s _ hd
  have h2 : SameCore (callDepth s) (callDepth (callDepth s)) ∧
      Emits P (callDepth s) (callDepth (callDepth s)) := emit_quiet P (callDepth s) _ hd
  split_ifs
  · refine quiet_trans (quiet_trans h1 h2) ⟨⟨rfl, rfl, rfl, rfl, rfl, rfl, rfl, rfl⟩, ?_⟩
    exact Emits.of_calls_eq P _ _ rfl
  · exact h1

theorem clampMaxAbove_quiet (P : Call → Prop) (s : MainWidgetPrivate V)
    (hd : P (.depth s.m_staticGeometry (s.heap.geometry s.m_staticGeometry))) :
    SameCore s (clampMaxAbove s) ∧ Emits P s (clampMaxAbove s) := by
  unfold clampMaxAbove
  dsimp only
  have h1 : SameCore s (callDepth s) ∧ Emits P s (callDepth s) := emit_quiet P s _ hd
  have h2 : SameCore (callDepth s) (callDepth (callDepth s)) ∧
      Emits P (callDepth s) (callDepth (callDepth s)) := emit_quiet P (callDepth s) _ hd
  split_ifs
  · refine quiet_trans (quiet_trans h1 h2) ⟨⟨rfl, rfl, rfl, rfl, rfl, rfl, rfl, rfl⟩, ?_⟩
    exact Emits.of_calls_eq P _ _ rfl
  · exact h1

theorem clampDrawRange_quiet (P : Call → Prop) (s : MainWidgetPrivate V)
    (hd : P (.depth s.m_staticGeometry (s.heap.geometry s.m_staticGeometry))) :
    SameCore s (clampDrawRange s) ∧ Emits P s (clampDrawRange s) := by
  unfold clampDrawRange
  have h1 := (clampMinBelow_silent s).quiet P
  have h2 := clampMinAbove_quiet P (clampMinBelow s) (by rw [h1.1.2.1, h1.1.2.2.1]; exact hd)
  have h12 := quiet_trans h1 h2
  have h3 := (clampMaxBelow_silent (clampMinAbove (clampMinBelow s))).quiet P
  have h123 := quiet_trans h12 h3
  have h4 := clampMaxAbove_quiet P (clampMaxBelow (clampMinAbove (clampMinBelow s)))
    (by rw [h123.1.2.1, h123.1.2.2.1]; exact hd)
  exact quiet_trans h123 h4

theorem updateDrawRange_quiet (P : Call → Prop) (triggered : Bool) (s : MainWidgetPrivate V)
    (hd : s.m_staticGeometry ≠ 0 →
      P (.depth s.m_staticGeometry (s.heap.geometry s.m_staticGeometry)))
    (ht : ∀ a b, P (.setWindowTitle a b)) :
    SameCore s (updateDrawRange triggered s) ∧ Emits P s (updateDrawRange triggered s) := by
  unfold updateDrawRange
  by_cases h0 : s.m_staticGeometry ≠ 0
  · rw [if_pos h0]
    dsimp only
    cases triggered
    · exact clampDrawRange_quiet P s (hd h0)
    · exact quiet_trans (clampDrawRange_quiet P s (hd h0)) (emit_quiet P _ _ (ht _ _))
  · rw [if_neg h0]
    exact ⟨SameCore.same s, Emits.nothing P s⟩

theorem loadObjCalls_isLoad (s t : MainWidgetPrivate V) :
    ∀ c ∈ loadObjCalls s t, c.isLoad = true := by
  have h : (loadObjCalls s t).all Call.isLoad = true := by
    simp only [loadObjCalls, createStaticGeometryCalls, registerCalls, List.cons_append,
      List.nil_append, List.all_cons, List.all_nil, Call.isLoad, Bool.and_self]
  exact List.all_eq_true.mp h

theorem loadObj_emits (P : Call → Prop) (hl : ∀ c, c.isLoad = true → P c)
    (mesh : KHalfEdgeMesh V) (s : MainWidgetPrivate V) : Emits P s (loadObj mesh s) :=
  ⟨_, (loadObj_spec mesh s).2.1, fun c hc => hl c (loadObjCalls_isLoad _ _ c hc)⟩

theorem registered_length (mesh n : Nat) : (registered mesh n).length = n := by
  simp [registered]

theorem loadObj_sound (mesh : KHalfEdgeMesh V) (s : MainWidgetPrivate V)
    (hp : s.m_paused = false) : (loadObj mesh s).Sound := by
  obtain ⟨⟨-, hreg⟩, -, h0, -, -, H, m, v1, v2, v3, v4, v5, v6, v7, a, b, c, d, cs, e⟩ :=
    loadObj_spec mesh s
  refine ⟨?_, ?_, Or.inl h0⟩
  · rw [e]
    exact hp
  · intro p hpm
    exact ⟨_, hreg p hpm, rfl⟩

theorem openObj_emits (P : Call → Prop) (hl : ∀ c, c.isLoad = true → P c)
    (chosen : Option (KHalfEdgeMesh V)) (s : MainWidgetPrivate V) :
    Emits P s (openObj chosen s) := by
  unfold openObj
  cases chosen with
  | none => exact Emits.single s _ (hl _ (by rfl))
  | some mesh => exact (Emits.single s _ (hl _ (by rfl))).append (loadObj_emits P hl mesh _)

theorem openObj_sound (chosen : Option (KHalfEdgeMesh V)) (s : MainWidgetPrivate V)
    (hs : s.Sound) : (openObj chosen s).Sound := by
  unfold openObj
  cases chosen with
  | none => exact (SameCore.of_emit s _).keeps_sound hs
  | some mesh => exact loadObj_sound mesh _ hs.1

end MainWidgetPrivate

/-! ## The build shortcuts -/

namespace MainWidgetPrivate

theorem build_of_live (eng : Engine) (g : Nat) (method : BuildMethod) (pred : Terminator)
    (s : MainWidgetPrivate V) (o : KStaticGeometry) (hg : s.heap.geometry g = some o)
    (hlen : o.instances.length = 4) :
    build eng g method pred s
      = { s with heap := s.heap.setGeometry g
                   ⟨o.instances, some (method, pred), eng.depthAfterBuild method pred o.instances⟩,
                 calls := s.calls ++ [Call.build g (some o) method pred] } := by
  have hne : o.instances.isEmpty = false := by
    cases hi : o.instances with
    | nil => rw [hi] at hlen; simp at hlen
    | cons x xs => rfl
  simp only [build, emit, hg, hne, Bool.false_eq_true, if_false]

/-- One shortcut branch of lines 800-831: the hierarchy at `g` becomes active, is
built, and `m_maxDraw` is reset to its depth. -/
theorem build_branch (eng : Engine) (g : Nat) (method : BuildMethod) (pred : Terminator)
    (s : MainWidgetPrivate V) (hs : s.Sound) (hg : g ∈ s.hierarchies) :
    (resetMaxDraw (build eng g method pred { s with m_staticGeometry := g })).Sound ∧
    Emits Call.Sound s (resetMaxDraw (build eng g method pred { s with m_staticGeometry := g })) := by
  obtain ⟨hp, hall, -⟩ := hs
  obtain ⟨o, ho, hreg⟩ := hall g hg
  have hlen : o.instances.length = 4 := by rw [hreg, registered_length]
  have hb := build_of_live eng g method pred { s with m_staticGeometry := g } o ho hlen
  rw [hb]
  have hgeo : ∀ q, (s.heap.setGeometry g
      ⟨o.instances, some (method, pred), eng.depthAfterBuild method pred o.instances⟩).geometry q
      = if q = g then
          some ⟨o.instances, some (method, pred), eng.depthAfterBuild method pred o.instances⟩
        else s.heap.geometry q := by
    intro q
    rw [Heap.geometry_setGeometry, Heap.find_isSome_of_geometry _ _ _ ho]
    rfl
  constructor
  · refine ⟨hp, ?_, Or.inr ⟨hg, _, (hgeo g).trans (if_pos rfl), rfl⟩⟩
    intro p hpm
    show ∃ g1, (s.heap.setGeometry g _).geometry p = some g1 ∧ _
    rw [hgeo p]
    by_cases hpg : p = g
    · rw [if_pos hpg]
      exact ⟨_, rfl, hreg⟩
    · rw [if_neg hpg]
      exact hall p hpm
  · refine ⟨[Call.build g (some o) method pred,
      Call.depth g (some ⟨o.instances, some (method, pred),
        eng.depthAfterBuild method pred o.instances⟩)], ?_, ?_⟩
    · simp only [resetMaxDraw, callDepth, emit, hgeo, if_true, List.append_assoc,
        List.cons_append, List.nil_append]
    · intro c hc
      simp only [List.mem_cons, List.mem_singleton, List.not_mem_nil, or_false] at hc
      rcases hc with rfl | rfl
      · exact ⟨o, rfl, hlen⟩
      · exact ⟨_, rfl, rfl⟩

end MainWidgetPrivate

namespace MainWidget

open MainWidgetPrivate

theorem buildKey_sound (eng : Engine) (inp : KInputManager V) (k : Key)
    (member : MainWidgetPrivate V → Nat) (method : BuildMethod) (pred : Terminator)
    (s : MainWidgetPrivate V) (hs : s.Sound) (hg : member s ∈ s.hierarchies)
    (hm : ∀ g, member { s with m_staticGeometry := g } = member s) :
    (buildKey eng inp k member method pred s).Sound ∧
    Emits Call.Sound s (buildKey eng inp k member method pred s) := by
  unfold buildKey
  cases inp.keyTriggered k
  · exact ⟨hs, Emits.nothing _ s⟩
  · simp only [if_true, hm]
    exact build_branch eng (member s) method pred s hs hg

theorem buildKeys_sound (eng : Engine) (inp : KInputManager V) (p : MainWidgetPrivate V)
    (hs : p.Sound) :
    (buildKeys eng inp p).Sound ∧ Emits Call.Sound p (buildKeys eng inp p) := by
  unfold buildKeys
  by_cases hshift : inp.keyPressed Key.Shift = true
  · rw [if_pos hshift]
    dsimp only
    have h1 := buildKey_sound eng inp .B (fun p => p.m_staticGeometryBottomUp7)
      .BottomUpMethod .depth7 p hs (by simp [hierarchies]) (fun _ => rfl)
    have h2 := buildKey_sound eng inp .T (fun p => p.m_staticGeometryTopDown7)
      .TopDownMethod .depth7 _ h1.1 (by simp [hierarchies]) (fun _ => rfl)
    exact ⟨h2.1, h1.2.append h2.2⟩
  · rw [if_neg hshift]
    dsimp only
    have h1 := buildKey_sound eng inp .B (fun p => p.m_staticGeometryBottomUp500)
      .BottomUpMethod .triangles500 p hs (by simp [hierarchies]) (fun _ => rfl)
    have h2 := buildKey_sound eng inp .T (fun p => p.m_staticGeometryTopDown500)
      .TopDownMethod .triangles500 _ h1.1 (by simp [hierarchies]) (fun _ => rfl)
    exact ⟨h2.1, h1.2.append h2.2⟩

theorem buildKeys_idle (eng : Engine) (inp : KInputManager V) (p : MainWidgetPrivate V)
    (hB : inp.keyTriggered Key.B = false) (hT : inp.keyTriggered Key.T = false) :
    buildKeys eng inp p = p := by
  unfold buildKeys buildKey
  simp only [hB, hT, Bool.false_eq_true, if_false, ite_self]

theorem openKeys_emits (P : Call → Prop) (hl : ∀ c, c.isLoad = true → P c)
    (inp : KInputManager V) (p : MainWidgetPrivate V) : Emits P p (openKeys inp p) := by
  unfold openKeys
  split_ifs
  · exact openObj_emits P hl _ p
  · exact Emits.nothing P p
  · exact Emits.nothing P p

theorem openKeys_sound (inp : KInputManager V) (p : MainWidgetPrivate V) (hs : p.Sound) :
    (openKeys inp p).Sound := by
  unfold openKeys
  split_ifs
  · exact openObj_sound _ p hs
  · exact hs
  · exact hs

theorem isLoad_sound (c : Call) (h : c.isLoad = true) : c.Sound := by
  cases c <;> trivial

theorem isPaintDetail_sound (c : Call) (h : c.isPaintDetail = true) : c.Sound := by
  cases c <;> trivial

/-- The invariant is kept by `updateEvent`, and every call it makes is sound. -/
theorem updateEvent_sound (eng : Engine) (inp : KInputManager V) (p : MainWidgetPrivate V)
    (hs : p.Sound) :
    (updateEvent eng inp p).Sound ∧ Emits Call.Sound p (updateEvent eng inp p) := by
  unfold updateEvent
  dsimp only
  have h1 := rangeKeys_silent inp p
  have s1 := h1.1.keeps_sound hs
  have e1 : Emits Call.Sound p (rangeKeys inp p) := (h1.quiet _).2
  generalize rangeKeys inp p = p1 at *
  have h2 := updateDrawRange_quiet Call.Sound (rangeTriggered inp) p1
    (by
      intro h0
      rcases s1.2.2 with h | ⟨-, g, hg, hb⟩
      · exact absurd h h0
      · exact ⟨g, hg, hb⟩)
    (fun _ _ => trivial)
  have s2 := h2.1.keeps_sound s1
  have e2 := e1.append h2.2
  generalize updateDrawRange (rangeTriggered inp) p1 = p2 at *
  have h3 := rotationKeys_silent inp p2
  have s3 := h3.1.keeps_sound s2
  have e3 := e2.append (h3.quiet Call.Sound).2
  generalize rotationKeys inp p2 = p3 at *
  have s4 := openKeys_sound inp p3 s3
  have e4 := e3.append (openKeys_emits Call.Sound isLoad_sound inp p3)
  generalize openKeys inp p3 = p4 at *
  obtain ⟨s5, h5⟩ := buildKeys_sound eng inp p4 s4
  have e5 := e4.append h5
  generalize buildKeys eng inp p4 = p5 at *
  have h6 := bufferKeys_silent inp p5
  exact ⟨h6.1.keeps_sound s5, e5.append (h6.quiet Call.Sound).2⟩

/-- The invariant is kept by `paintGL`, and every call it makes is sound. -/
theorem paintGL_sound (cameraDirty : Bool) (p : MainWidgetPrivate V) (hs : p.Sound) :
    (paintGL cameraDirty p).Sound ∧ Emits Call.Sound p (paintGL cameraDirty p) := by
  unfold paintGL
  rw [hs.1]
  simp only [Bool.not_false, if_true]
  have h := paintGL_calls Call.Sound isPaintDetail_sound cameraDirty p
    (by
      intro h0 a b
      rcases hs.2.2 with h | ⟨-, g, hg, hb⟩
      · exact absurd h h0
      · exact ⟨g, hg, hb⟩)
  obtain ⟨hc, xs, ys, e, px, py⟩ := h
  refine ⟨hc.keeps_sound hs, _, e, ?_⟩
  intro c hc
  simp only [List.cons_append, List.nil_append, List.append_assoc, List.mem_cons,
    List.mem_append, List.mem_singleton, List.not_mem_nil, or_false] at hc
  rcases hc with rfl | rfl | h | rfl | h | rfl | rfl | rfl
  · trivial
  · trivial
  · exact px c h
  · trivial
  · exact py c h
  · trivial
  · trivial
  · trivial

end MainWidget

theorem sameCore_instances (p : MainWidgetPrivate V) (insts : List Nat) :
    SameCore p { p with m_instances := insts } :=
  ⟨rfl, rfl, rfl, rfl, rfl, rfl, rfl, rfl⟩

/-- Every state the viewer reaches satisfies the invariant. -/
theorem Reachable.is_sound (eng : Engine) (p : MainWidgetPrivate V) (h : Reachable eng p) :
    p.Sound := by
  induction h with
  | init sphere =>
    have hp : (MainWidget.beforeLoad : MainWidgetPrivate V).m_paused = false := by
      simp only [MainWidget.beforeLoad, MainWidgetPrivate.bindBase, MainWidgetPrivate.emit,
        MainWidgetPrivate.new]
    have h := MainWidgetPrivate.loadObj_sound sphere MainWidget.beforeLoad hp
    unfold MainWidget.initializeGL
    exact (sameCore_instances _ _).keeps_sound h
  | step a p _ ih =>
    cases a with
    | updateEvent inp => exact (MainWidget.updateEvent_sound eng inp p ih).1
    | paintGL cameraDirty => exact (MainWidget.paintGL_sound cameraDirty p ih).1
    | loadObj mesh => exact MainWidgetPrivate.loadObj_sound mesh p ih.1

/-! ## Runs -/

theorem reachable_foldl (eng : Engine) (actions : List (Action V)) (p : MainWidgetPrivate V)
    (h : Reachable eng p) : Reachable eng (actions.foldl (fun p a => step eng a p) p) := by
  induction actions generalizing p with
  | nil => exact h
  | cons a as ih => exact ih _ (Reachable.step a p h)

theorem reachable_run (eng : Engine) (sphere : KHalfEdgeMesh V) (actions : List (Action V)) :
    Reachable eng (run eng sphere actions) :=
  reachable_foldl eng actions _ (Reachable.init sphere)

/-- Every call of a step from a state satisfying the invariant is sound. -/
theorem step_sound (eng : Engine) (a : Action V) (p : MainWidgetPrivate V) (hs : p.Sound) :
    Emits Call.Sound p (step eng a p) := by
  cases a with
  | updateEvent inp => exact (MainWidget.updateEvent_sound eng inp p hs).2
  | paintGL cameraDirty => exact (MainWidget.paintGL_sound cameraDirty p hs).2
  | loadObj mesh => exact MainWidgetPrivate.loadObj_emits Call.Sound MainWidget.isLoad_sound mesh p

theorem isLoad_not_build (c : Call) (h : c.isLoad = true) : c.isBuild = false := by
  cases c <;> first | rfl | exact Bool.noConfusion h

theorem isPaintDetail_not_build (c : Call) (h : c.isPaintDetail = true) : c.isBuild = false := by
  cases c <;> first | rfl | exact Bool.noConfusion h

/-- A step that is not an `updateEvent` with B or T triggered makes no `build` call. -/
theorem step_without_build_keys (eng : Engine) (a : Action V) (p : MainWidgetPrivate V)
    (h : ∀ inp, a = .updateEvent inp →
      inp.keyTriggered Key.B = false ∧ inp.keyTriggered Key.T = false) :
    Emits (fun c => c.isBuild = false) p (step eng a p) := by
  cases a with
  | updateEvent inp =>
    obtain ⟨hB, hT⟩ := h inp rfl
    show Emits _ p (MainWidget.updateEvent eng inp p)
    unfold MainWidget.updateEvent
    dsimp only
    rw [MainWidget.buildKeys_idle eng inp _ hB hT]
    have h1 := (MainWidget.rangeKeys_silent inp p).quiet (fun c => c.isBuild = false)
    have h2 := MainWidgetPrivate.updateDrawRange_quiet (fun c => c.isBuild = false)
      (MainWidget.rangeTriggered inp) (MainWidget.rangeKeys inp p) (fun _ => rfl)
      (fun _ _ => rfl)
    have h3 := (MainWidget.rotationKeys_silent inp (MainWidgetPrivate.updateDrawRange
      (MainWidget.rangeTriggered inp) (MainWidget.rangeKeys inp p))).quiet
      (fun c => c.isBuild = false)
    have h4 := MainWidget.openKeys_emits (fun c => c.isBuild = false) isLoad_not_build inp
      (MainWidget.rotationKeys inp (MainWidgetPrivate.updateDrawRange
        (MainWidget.rangeTriggered inp) (MainWidget.rangeKeys inp p)))
    have h5 := (MainWidget.bufferKeys_silent inp (MainWidget.openKeys inp
      (MainWidget.rotationKeys inp (MainWidgetPrivate.updateDrawRange
        (MainWidget.rangeTriggered inp) (MainWidget.rangeKeys inp p))))).quiet
      (fun c => c.isBuild = false)
    exact (((h1.2.append h2.2).append h3.2).append h4).append h5.2
  | paintGL cameraDirty =>
    show Emits _ p (MainWidget.paintGL cameraDirty p)
    unfold MainWidget.paintGL
    cases hp : p.m_paused
    · simp only [Bool.not_false, if_true]
      obtain ⟨-, xs, ys, e, px, py⟩ := MainWidgetPrivate.paintGL_calls
        (fun c => c.isBuild = false) isPaintDetail_not_build cameraDirty p (fun _ _ _ => rfl)
      refine ⟨_, e, ?_⟩
      intro c hc
      simp only [List.cons_append, List.nil_append, List.append_assoc, List.mem_cons,
        List.mem_append, List.mem_singleton, List.not_mem_nil, or_false] at hc
      rcases hc with rfl | rfl | h | rfl | h | rfl | rfl | rfl
      · rfl
      · rfl
      · exact px c h
      · rfl
      · exact py c h
      · rfl
      · rfl
      · rfl
    · simp only [Bool.not_true, Bool.false_eq_true, if_false]
      exact Emits.nothing _ p
  | loadObj mesh =>
    exact MainWidgetPrivate.loadObj_emits (fun c => c.isBuild = false) isLoad_not_build mesh p

/-! ## `updateEvent` and the pause flag -/

namespace MainWidgetPrivate

theorem setPaused_ite (b : Bool) (c : Bool) (x y : MainWidgetPrivate V) :
    setPaused b (if c = true then x else y) = if c = true then setPaused b x else setPaused b y := by
  cases c <;> rfl

theorem clampMinBelow_setPaused (b : Bool) (s : MainWidgetPrivate V) :
    clampMinBelow (setPaused b s) = setPaused b (clampMinBelow s) := by
  unfold clampMinBelow
  by_cases h : s.m_minDraw < 0
  · rw [if_pos h, if_pos (show (setPaused b s).m_minDraw < 0 from h)]
    rfl
  · rw [if_neg h, if_neg (show ¬ (setPaused b s).m_minDraw < 0 from h)]

theorem clampMaxBelow_setPaused (b : Bool) (s : MainWidgetPrivate V) :
    clampMaxBelow (setPaused b s) = setPaused b (clampMaxBelow s) := by
  unfold clampMaxBelow
  by_cases h : s.m_maxDraw < s.m_minDraw
  · rw [if_pos h, if_pos (show (setPaused b s).m_maxDraw < (setPaused b s).m_minDraw from h)]
    rfl
  · rw [if_neg h, if_neg (show ¬ (setPaused b s).m_maxDraw < (setPaused b s).m_minDraw from h)]

theorem clampMinAbove_setPaused (b : Bool) (s : MainWidgetPrivate V) :
    clampMinAbove (setPaused b s) = setPaused b (clampMinAbove s) := by
  unfold clampMinAbove
  dsimp only
  by_cases h : intGtSize (callDepth s).m_minDraw (callDepth s).activeDepth = true
  · rw [if_pos h, if_pos (show intGtSize (callDepth (setPaused b s)).m_minDraw
      (callDepth (setPaused b s)).activeDepth = true from h)]
    rfl
  · rw [if_neg h, if_neg (show ¬ intGtSize (callDepth (setPaused b s)).m_minDraw
      (callDepth (setPaused b s)).activeDepth = true from h)]
    rfl

theorem clampMaxAbove_setPaused (b : Bool) (s : MainWidgetPrivate V) :
    clampMaxAbove (setPaused b s) = setPaused b (clampMaxAbove s) := by
  unfold clampMaxAbove
  dsimp only
  by_cases h : intGtSize (callDepth s).m_maxDraw (callDepth s).activeDepth = true
  · rw [if_pos h, if_pos (show intGtSize (callDepth (setPaused b s)).m_maxDraw
      (callDepth (setPaused b s)).activeDepth = true from h)]
    rfl
  · rw [if_neg h, if_neg (show ¬ intGtSize (callDepth (setPaused b s)).m_maxDraw
      (callDepth (setPaused b s)).activeDepth = true from h)]
    rfl

theorem updateDrawRange_setPaused (b triggered : Bool) (s : MainWidgetPrivate V) :
    updateDrawRange triggered (setPaused b s) = setPaused b (updateDrawRange triggered s) := by
  unfold updateDrawRange
  by_cases h : s.m_staticGeometry ≠ 0
  · rw [if_pos h, if_pos (show (setPaused b s).m_staticGeometry ≠ 0 from h)]
    have hc : clampDrawRange (setPaused b s) = setPaused b (clampDrawRange s) := by
      unfold clampDrawRange
      rw [clampMinBelow_setPaused, clampMinAbove_setPaused, clampMaxBelow_setPaused,
        clampMaxAbove_setPaused]
    dsimp only
    rw [hc]
    cases triggered <;> rfl
  · rw [if_neg h, if_neg (show ¬ (setPaused b s).m_staticGeometry ≠ 0 from h)]

theorem loadObj_setPaused (b : Bool) (mesh : KHalfEdgeMesh V) (s : MainWidgetPrivate V) :
    loadObj mesh (setPaused b s) = setPaused b (loadObj mesh s) := by
  have hp : pause (setPaused b s) = pause s := rfl
  simp only [loadObj]
  rw [hp]
  generalize runBlocks (loadObjWork mesh) (pause s) = T
  rfl

theorem openObj_setPaused (b : Bool) (chosen : Option (KHalfEdgeMesh V))
    (s : MainWidgetPrivate V) :
    openObj chosen (setPaused b s) = setPaused b (openObj chosen s) := by
  unfold openObj
  cases chosen with
  | none => rfl
  | some mesh => exact loadObj_setPaused b mesh (s.emit .openFileDialog)

theorem build_setPaused (eng : Engine) (b : Bool) (g : Nat) (method : BuildMethod)
    (pred : Terminator) (s : MainWidgetPrivate V) :
    build eng g method pred (setPaused b s) = setPaused b (build eng g method pred s) := by
  simp only [build, emit, setPaused]
  cases h : s.heap.geometry g with
  | none => rfl
  | some o =>
    dsimp only
    cases o.instances.isEmpty <;> rfl

end MainWidgetPrivate

namespace MainWidget

open MainWidgetPrivate

theorem maxDrawKey_setPaused (b : Bool) (inp : KInputManager V) (k : Key) (d : Int)
    (p : MainWidgetPrivate V) :
    maxDrawKey inp k d (setPaused b p) = setPaused b (maxDrawKey inp k d p) := by
  unfold maxDrawKey
  cases inp.keyTriggered k <;> rfl

theorem minDrawKey_setPaused (b : Bool) (inp : KInputManager V) (k : Key) (d : Int)
    (p : MainWidgetPrivate V) :
    minDrawKey inp k d (setPaused b p) = setPaused b (minDrawKey inp k d p) := by
  unfold minDrawKey
  cases inp.keyTriggered k <;> rfl

theorem rotationKey_setPaused (b : Bool) (inp : KInputManager V) (k : Key) (axis : Nat)
    (p : MainWidgetPrivate V) :
    rotationKey inp k axis (setPaused b p) = setPaused b (rotationKey inp k axis p) := by
  unfold rotationKey
  cases inp.keyTriggered k
  · rfl
  · simp only [if_true]
    split <;> rfl

theorem presentationKey_setPaused (b : Bool) (inp : KInputManager V) (k : Key)
    (v : PresentType) (p : MainWidgetPrivate V) :
    presentationKey inp k v (setPaused b p) = setPaused b (presentationKey inp k v p) := by
  unfold presentationKey
  cases inp.keyTriggered k <;> rfl

theorem volumeKey_setPaused (b : Bool) (inp : KInputManager V) (k : Key) (i : Nat)
    (p : MainWidgetPrivate V) :
    volumeKey inp k i (setPaused b p) = setPaused b (volumeKey inp k i p) := by
  unfold volumeKey
  cases inp.keyTriggered k <;> rfl

theorem buildKey_setPaused (eng : Engine) (b : Bool) (inp : KInputManager V) (k : Key)
    (member : MainWidgetPrivate V → Nat) (method : BuildMethod) (pred : Terminator)
    (p : MainWidgetPrivate V)
    (hm : ∀ q : MainWidgetPrivate V, member (setPaused b q) = member q) :
    buildKey eng inp k member method pred (setPaused b p)
      = setPaused b (buildKey eng inp k member method pred p) := by
  unfold buildKey
  cases inp.keyTriggered k
  · rfl
  · simp only [if_true]
    have h1 : ({ setPaused b p with m_staticGeometry := member (setPaused b p) }
        : MainWidgetPrivate V)
        = setPaused b { p with m_staticGeometry := member p } := by
      rw [hm]
      rfl
    rw [h1, hm, build_setPaused]
    rfl

theorem rangeKeys_setPaused (b : Bool) (inp : KInputManager V) (p : MainWidgetPrivate V) :
    rangeKeys inp (setPaused b p) = setPaused b (rangeKeys inp p) := by
  unfold rangeKeys
  dsimp only
  rw [maxDrawKey_setPaused, maxDrawKey_setPaused, minDrawKey_setPaused, minDrawKey_setPaused]

theorem rotationKeys_setPaused (b : Bool) (inp : KInputManager V) (p : MainWidgetPrivate V) :
    rotationKeys inp (setPaused b p) = setPaused b (rotationKeys inp p) := by
  unfold rotationKeys
  cases inp.buttonPressed
  · simp only [Bool.false_eq_true, if_false]
    rw [rotationKey_setPaused, rotationKey_setPaused, rotationKey_setPaused]
  · rfl

theorem openKeys_setPaused (b : Bool) (inp : KInputManager V) (p : MainWidgetPrivate V) :
    openKeys inp (setPaused b p) = setPaused b (openKeys inp p) := by
  unfold openKeys
  cases inp.keyPressed Key.Control
  · rfl
  · cases inp.keyTriggered Key.O
    · rfl
    · simp only [if_true]
      exact openObj_setPaused b _ p

theorem buildKeys_setPaused (eng : Engine) (b : Bool) (inp : KInputManager V)
    (p : MainWidgetPrivate V) :
    buildKeys eng inp (setPaused b p) = setPaused b (buildKeys eng inp p) := by
  unfold buildKeys
  cases inp.keyPressed Key.Shift
  · simp only [Bool.false_eq_true, if_false]
    rw [buildKey_setPaused eng b inp .B (fun p => p.m_staticGeometryBottomUp500) _ _ _
        (fun _ => rfl),
      buildKey_setPaused eng b inp .T (fun p => p.m_staticGeometryTopDown500) _ _ _
        (fun _ => rfl)]
  · simp only [if_true]
    rw [buildKey_setPaused eng b inp .B (fun p => p.m_staticGeometryBottomUp7) _ _ _
        (fun _ => rfl),
      buildKey_setPaused eng b inp .T (fun p => p.m_staticGeometryTopDown7) _ _ _
        (fun _ => rfl)]

theorem bufferKeys_setPaused (b : Bool) (inp : KInputManager V) (p : MainWidgetPrivate V) :
    bufferKeys inp (setPaused b p) = setPaused b (bufferKeys inp p) := by
  unfold bufferKeys
  cases inp.keyPressed Key.Shift
  · simp only [Bool.false_eq_true, if_false]
    rw [volumeKey_setPaused, volumeKey_setPaused, volumeKey_setPaused, volumeKey_setPaused,
      volumeKey_setPaused, volumeKey_setPaused, volumeKey_setPaused]
  · simp only [if_true]
    rw [presentationKey_setPaused, presentationKey_setPaused, presentationKey_setPaused,
      presentationKey_setPaused, presentationKey_setPaused, presentationKey_setPaused,
      presentationKey_setPaused, presentationKey_setPaused, presentationKey_setPaused]

/-- `updateEvent` never reads the pause flag: overwriting the flag before the
call is the same as overwriting it after. -/
theorem updateEvent_setPaused (eng : Engine) (b : Bool) (inp : KInputManager V)
    (p : MainWidgetPrivate V) :
    updateEvent eng inp (setPaused b p) = setPaused b (updateEvent eng inp p) := by
  unfold updateEvent
  dsimp only
  rw [rangeKeys_setPaused, updateDrawRange_setPaused, rotationKeys_setPaused,
    openKeys_setPaused, buildKeys_setPaused, bufferKeys_setPaused]

end MainWidget

theorem isPaintDetail_not_mark (c : Call) (h : c.isPaintDetail = true) :
    c ≠ Call.commitGL ∧ c ≠ Call.renderGL := by
  cases c <;> first | exact Bool.noConfusion h | exact ⟨Call.noConfusion, Call.noConfusion⟩

/-! ## The whole trace of a run -/

theorem beforeLoad_calls_sound : ∀ c ∈ (MainWidget.beforeLoad : MainWidgetPrivate V).calls,
    c.Sound := by
  intro c hc
  simp only [MainWidget.beforeLoad, MainWidgetPrivate.bindBase, MainWidgetPrivate.emit,
    MainWidgetPrivate.new, List.nil_append, List.cons_append, List.mem_cons,
    List.mem_singleton, List.not_mem_nil, or_false] at hc
  rcases hc with rfl | rfl | rfl | rfl <;> trivial

theorem emits_all {P : Call → Prop} {s t : MainWidgetPrivate V} (h : Emits P s t)
    (hs : ∀ c ∈ s.calls, P c) : ∀ c ∈ t.calls, P c := by
  obtain ⟨cs, e, p⟩ := h
  intro c hc
  rw [e] at hc
  rcases List.mem_append.mp hc with h1 | h1
  · exact hs c h1
  · exact p c h1

/-- Every call in the trace of a reachable state is sound. -/
theorem reachable_calls_sound (eng : Engine) (p : MainWidgetPrivate V)
    (h : Reachable eng p) : ∀ c ∈ p.calls, c.Sound := by
  induction h with
  | init sphere =>
    unfold MainWidget.initializeGL
    dsimp only
    exact emits_all (MainWidgetPrivate.loadObj_emits Call.Sound MainWidget.isLoad_sound sphere
      MainWidget.beforeLoad) beforeLoad_calls_sound
  | step a p hp ih => exact emits_all (step_sound eng a p (Reachable.is_sound eng p hp)) ih

theorem sound_queryOnBuilt (c : Call) (h : c.Sound) : c.QueryOnBuilt := by
  cases c <;> first | exact h | trivial

theorem sound_buildOnFour (c : Call) (h : c.Sound) : c.BuildOnFour := by
  cases c <;> first | exact h | trivial

theorem beforeLoad_calls_not_build :
    ∀ c ∈ (MainWidget.beforeLoad : MainWidgetPrivate V).calls, c.isBuild = false := by
  intro c hc
  simp only [MainWidget.beforeLoad, MainWidgetPrivate.bindBase, MainWidgetPrivate.emit,
    MainWidgetPrivate.new, List.nil_append, List.cons_append, List.mem_cons,
    List.mem_singleton, List.not_mem_nil, or_false] at hc
  rcases hc with rfl | rfl | rfl | rfl <;> rfl

/-- The start-up makes no `build` call. -/
theorem initializeGL_calls_not_build (sphere : KHalfEdgeMesh V) :
    ∀ c ∈ (MainWidget.initializeGL sphere).calls, c.isBuild = false := by
  unfold MainWidget.initializeGL
  dsimp only
  exact emits_all (MainWidgetPrivate.loadObj_emits _ isLoad_not_build sphere
    MainWidget.beforeLoad) beforeLoad_calls_not_build

/-! ## Render-block bindings -/

namespace MainWidgetPrivate

theorem blockState_swapRenderBlocks (s : MainWidgetPrivate V) :
    (swapRenderBlocks s).blockState
      = ((s.m_renderBlockIndex.2, s.m_renderBlockIndex.1),
         (if 1 = s.m_renderBlockIndex.1 + 1 then some s.m_renderBlockIndex.2
          else if 1 = s.m_renderBlockIndex.2 + 1 then some s.m_renderBlockIndex.1
          else s.boundBufferId 1),
         (if 2 = s.m_renderBlockIndex.1 + 1 then some s.m_renderBlockIndex.2
          else if 2 = s.m_renderBlockIndex.2 + 1 then some s.m_renderBlockIndex.1
          else s.boundBufferId 2)) := by
  simp only [blockState, swapRenderBlocks, bindBase, emit]

theorem blockState_fixRenderBlocks (s : MainWidgetPrivate V) :
    (fixRenderBlocks s).blockState
      = if s.boundBufferId 1 != s.boundBufferId 2 then
          (s.m_renderBlockIndex,
           (if 1 = s.m_renderBlockIndex.1 + 1 then some s.m_renderBlockIndex.1
            else s.boundBufferId 1),
           (if 2 = s.m_renderBlockIndex.1 + 1 then some s.m_renderBlockIndex.1
            else s.boundBufferId 2))
        else s.blockState := by
  unfold fixRenderBlocks
  by_cases h : (s.boundBufferId 1 != s.boundBufferId 2) = true
  · rw [if_pos h, if_pos h]
    simp only [blockState, bindBase, emit]
  · rw [if_neg h, if_neg h]

end MainWidgetPrivate

theorem blocksReachable_blockState (s : MainWidgetPrivate V) (h : BlocksReachable s) :
    s.blockState ∈ blockStates := by
  induction h with
  | init s hi =>
    obtain ⟨h0, h1, h2⟩ := hi
    simp [MainWidgetPrivate.blockState, blockStates, h0, h1, h2]
  | swap s _ ih =>
    rw [MainWidgetPrivate.blockState_swapRenderBlocks]
    simp only [blockStates, List.mem_cons, List.mem_singleton, List.not_mem_nil, or_false,
      MainWidgetPrivate.blockState, Prod.mk.injEq] at ih
    rcases ih with ⟨h0, h1, h2⟩ | ⟨h0, h1, h2⟩ | ⟨h0, h1, h2⟩ | ⟨h0, h1, h2⟩ <;>
      simp [h0, h1, h2, blockStates]
  | fix s _ ih =>
    rw [MainWidgetPrivate.blockState_fixRenderBlocks]
    simp only [blockStates, List.mem_cons, List.mem_singleton, List.not_mem_nil, or_false,
      MainWidgetPrivate.blockState, Prod.mk.injEq] at ih
    rcases ih with ⟨h0, h1, h2⟩ | ⟨h0, h1, h2⟩ | ⟨h0, h1, h2⟩ | ⟨h0, h1, h2⟩ <;>
      simp [h0, h1, h2, blockStates, MainWidgetPrivate.blockState]

/-- Whatever the indices are, `swapRenderBlocks` leaves render block 1 at binding
point 1 and render block 0 at binding point 2. -/
theorem swapRenderBlocks_binds_by_number (s : MainWidgetPrivate V) (h : BlocksReachable s) :
    (s.m_renderBlockIndex = (0, 1) ∨ s.m_renderBlockIndex = (1, 0)) ∧
    (MainWidgetPrivate.swapRenderBlocks s).boundBufferId 1 = some 1 ∧
    (MainWidgetPrivate.swapRenderBlocks s).boundBufferId 2 = some 0 ∧
    MainWidgetPrivate.currentRenderBlock (MainWidgetPrivate.swapRenderBlocks s)
      = s.m_renderBlockIndex.2 := by
  have hs := blocksReachable_blockState s h
  have hf := MainWidgetPrivate.blockState_swapRenderBlocks s
  simp only [blockStates, List.mem_cons, List.mem_singleton, List.not_mem_nil, or_false,
    MainWidgetPrivate.blockState, Prod.mk.injEq] at hs hf
  simp only [MainWidgetPrivate.currentRenderBlock]
  rcases hs with ⟨h0, h1, h2⟩ | ⟨h0, h1, h2⟩ | ⟨h0, h1, h2⟩ | ⟨h0, h1, h2⟩ <;>
    simp [h0, h1, h2] at hf <;>
    obtain ⟨f0, f1, f2⟩ := hf <;>
    simp [f0, f1, f2, h0]

/-! ## One shortcut -/

namespace MainWidget

open MainWidgetPrivate

theorem buildKey_skip (eng : Engine) (inp : KInputManager V) (k : Key)
    (member : MainWidgetPrivate V → Nat) (method : BuildMethod) (pred : Terminator)
    (s : MainWidgetPrivate V) (hk : inp.keyTriggered k = false) :
    buildKey eng inp k member method pred s = s := by
  unfold buildKey
  simp only [hk, Bool.false_eq_true, if_false]

/-- A triggered shortcut on a live hierarchy with four instances: the state it
leaves. -/
theorem buildKey_fire (eng : Engine) (inp : KInputManager V) (k : Key)
    (member : MainWidgetPrivate V → Nat) (method : BuildMethod) (pred : Terminator)
    (s : MainWidgetPrivate V) (o : KStaticGeometry) (hk : inp.keyTriggered k = true)
    (hm : ∀ g, member { s with m_staticGeometry := g } = member s)
    (hg : s.heap.geometry (member s) = some o) (hlen : o.instances.length = 4) :
    buildKey eng inp k member method pred s
      = { s with m_staticGeometry := member s,
                 heap := s.heap.setGeometry (member s)
                   ⟨o.instances, some (method, pred),
                    eng.depthAfterBuild method pred o.instances⟩,
                 m_maxDraw := wrapInt (eng.depthAfterBuild method pred o.instances),
                 calls := s.calls ++
                   [Call.build (member s) (some o) method pred,
                    Call.depth (member s)
                      (some ⟨o.instances, some (method, pred),
                        eng.depthAfterBuild method pred o.instances⟩)] } := by
  unfold buildKey
  rw [if_pos hk]
  dsimp only
  rw [hm]
  have hb := build_of_live eng (member s) method pred { s with m_staticGeometry := member s } o
    hg hlen
  rw [hb]
  have hgeo : (s.heap.setGeometry (member s)
      ⟨o.instances, some (method, pred), eng.depthAfterBuild method pred o.instances⟩).geometry
        (member s)
      = some ⟨o.instances, some (method, pred),
          eng.depthAfterBuild method pred o.instances⟩ := by
    rw [Heap.geometry_setGeometry, Heap.find_isSome_of_geometry _ _ _ hg]
    simp
  simp only [resetMaxDraw, callDepth, activeDepth, emit, hgeo, List.append_assoc,
    List.cons_append, List.nil_append]

/-- With exactly one of B / T triggered, the shortcut block is the one triggered
branch, on the hierarchy, method and predicate dedicated to the combination. -/
theorem buildKeys_one (eng : Engine) (inp : KInputManager V) (s : MainWidgetPrivate V)
    (hs : s.Sound) (isB : Bool) (hB : inp.keyTriggered .B = isB)
    (hT : inp.keyTriggered .T = !isB) :
    ∃ o, s.heap.geometry (dedicatedHierarchy (inp.keyPressed .Shift) isB s) = some o ∧
      o.instances.length = 4 ∧
      buildKeys eng inp s
        = { s with m_staticGeometry := dedicatedHierarchy (inp.keyPressed .Shift) isB s,
                   heap := s.heap.setGeometry (dedicatedHierarchy (inp.keyPressed .Shift) isB s)
                     ⟨o.instances,
                      some (dedicatedMethod isB, dedicatedPredicate (inp.keyPressed .Shift)),
                      eng.depthAfterBuild (dedicatedMethod isB)
                        (dedicatedPredicate (inp.keyPressed .Shift)) o.instances⟩,
                   m_maxDraw := wrapInt (eng.depthAfterBuild (dedicatedMethod isB)
                        (dedicatedPredicate (inp.keyPressed .Shift)) o.instances),
                   calls := s.calls ++
                     [Call.build (dedicatedHierarchy (inp.keyPressed .Shift) isB s) (some o)
                        (dedicatedMethod isB) (dedicatedPredicate (inp.keyPressed .Shift)),
                      Call.depth (dedicatedHierarchy (inp.keyPressed .Shift) isB s)
                        (some ⟨o.instances,
                          some (dedicatedMethod isB, dedicatedPredicate (inp.keyPressed .Shift)),
                          eng.depthAfterBuild (dedicatedMethod isB)
                            (dedicatedPredicate (inp.keyPressed .Shift)) o.instances⟩)] } := by
  have hmem : dedicatedHierarchy (inp.keyPressed .Shift) isB s ∈ s.hierarchies := by
    cases inp.keyPressed .Shift <;> cases isB <;> simp [dedicatedHierarchy, hierarchies]
  obtain ⟨o, ho, hreg⟩ := hs.2.1 _ hmem
  have hlen : o.instances.length = 4 := by rw [hreg, registered_length]
  refine ⟨o, ho, hlen, ?_⟩
  unfold buildKeys
  cases hshift : inp.keyPressed .Shift <;> cases isB <;>
    simp only [hshift, Bool.not_true, Bool.not_false] at hB hT ho ⊢ <;>
    simp only [Bool.false_eq_true, if_false, if_true]
  · rw [buildKey_skip eng inp .B _ _ _ s hB]
    exact buildKey_fire eng inp .T (fun p => p.m_staticGeometryTopDown500) _ _ s o hT
      (fun _ => rfl) ho hlen
  · rw [buildKey_skip eng inp .T _ _ _ _ hT]
    exact buildKey_fire eng inp .B (fun p => p.m_staticGeometryBottomUp500) _ _ s o hB
      (fun _ => rfl) ho hlen
  · rw [buildKey_skip eng inp .B _ _ _ s hB]
    exact buildKey_fire eng inp .T (fun p => p.m_staticGeometryTopDown7) _ _ s o hT
      (fun _ => rfl) ho hlen
  · rw [buildKey_skip eng inp .T _ _ _ _ hT]
    exact buildKey_fire eng inp .B (fun p => p.m_staticGeometryBottomUp7) _ _ s o hB
      (fun _ => rfl) ho hlen

end MainWidget

/-! ## The four hierarchies stay four different objects -/

namespace MainWidgetPrivate

theorem build_shape (eng : Engine) (g : Nat) (method : BuildMethod) (pred : Terminator)
    (s : MainWidgetPrivate V) :
    ∃ H cs, build eng g method pred s = { s with heap := H, calls := cs } := by
  unfold build
  dsimp only
  cases hg : (s.emit (Call.build g (s.heap.geometry g) method pred)).heap.geometry g with
  | none => exact ⟨s.heap, _, rfl⟩
  | some o =>
    dsimp only
    by_cases he : o.instances.isEmpty = true
    · rw [if_pos he]
      exact ⟨s.heap, _, rfl⟩
    · rw [if_neg he]
      exact ⟨_, _, rfl⟩

end MainWidgetPrivate

namespace MainWidget

open MainWidgetPrivate

theorem buildKey_hierarchies (eng : Engine) (inp : KInputManager V) (k : Key)
    (member : MainWidgetPrivate V → Nat) (method : BuildMethod) (pred : Terminator)
    (s : MainWidgetPrivate V) :
    (buildKey eng inp k member method pred s).hierarchies = s.hierarchies := by
  unfold buildKey
  by_cases hk : inp.keyTriggered k = true
  · rw [if_pos hk]
    dsimp only
    obtain ⟨H, cs, e⟩ := build_shape eng (member { s with m_staticGeometry := member s })
      method pred { s with m_staticGeometry := member s }
    rw [e]
    simp only [resetMaxDraw, callDepth, emit, hierarchies]
  · rw [if_neg hk]

theorem buildKeys_hierarchies (eng : Engine) (inp : KInputManager V) (s : MainWidgetPrivate V) :
    (buildKeys eng inp s).hierarchies = s.hierarchies := by
  unfold buildKeys
  by_cases hshift : inp.keyPressed .Shift = true
  · rw [if_pos hshift]
    dsimp only
    rw [buildKey_hierarchies, buildKey_hierarchies]
  · rw [if_neg hshift]
    dsimp only
    rw [buildKey_hierarchies, buildKey_hierarchies]

theorem presentationKey_maxDraw (inp : KInputManager V) (k : Key) (v : PresentType)
    (p : MainWidgetPrivate V) : (presentationKey inp k v p).m_maxDraw = p.m_maxDraw := by
  unfold presentationKey
  split_ifs <;> rfl

theorem volumeKey_maxDraw (inp : KInputManager V) (k : Key) (i : Nat)
    (p : MainWidgetPrivate V) : (volumeKey inp k i p).m_maxDraw = p.m_maxDraw := by
  unfold volumeKey
  split_ifs <;> rfl

theorem bufferKeys_maxDraw (inp : KInputManager V) (p : MainWidgetPrivate V) :
    (bufferKeys inp p).m_maxDraw = p.m_maxDraw := by
  unfold bufferKeys
  by_cases hshift : inp.keyPressed .Shift = true
  · rw [if_pos hshift]
    simp only [presentationKey_maxDraw]
  · rw [if_neg hshift]
    simp only [volumeKey_maxDraw]

theorem openKeys_nodup (inp : KInputManager V) (p : MainWidgetPrivate V)
    (hn : p.hierarchies.Nodup) : (openKeys inp p).hierarchies.Nodup := by
  unfold openKeys
  split_ifs
  · unfold openObj
    cases inp.openFile with
    | none => exact hn
    | some mesh => exact (loadObj_spec mesh _).1.1
  · exact hn
  · exact hn

/-- The part of `updateEvent` before the shortcut block keeps the invariant and
the four hierarchies distinct, and makes no `build` call. -/
theorem beforeBuildKeys_spec (inp : KInputManager V) (p : MainWidgetPrivate V)
    (hs : p.Sound) (hn : p.hierarchies.Nodup) :
    (beforeBuildKeys inp p).Sound ∧ (beforeBuildKeys inp p).hierarchies.Nodup ∧
    Emits (fun c => c.isBuild = false) p (beforeBuildKeys inp p) := by
  unfold beforeBuildKeys
  have h1 := rangeKeys_silent inp p
  have s1 := h1.1.keeps_sound hs
  have n1 : (rangeKeys inp p).hierarchies.Nodup := by rw [h1.1.hierarchies]; exact hn
  have e1 : Emits (fun c => c.isBuild = false) p (rangeKeys inp p) := (h1.quiet _).2
  generalize rangeKeys inp p = p1 at *
  have h2 := updateDrawRange_quiet (fun c => c.isBuild = false) (rangeTriggered inp) p1
    (fun _ => rfl) (fun _ _ => rfl)
  have s2 := h2.1.keeps_sound s1
  have n2 : (updateDrawRange (rangeTriggered inp) p1).hierarchies.Nodup := by
    rw [h2.1.hierarchies]; exact n1
  have e2 := e1.append h2.2
  generalize updateDrawRange (rangeTriggered inp) p1 = p2 at *
  have h3 := rotationKeys_silent inp p2
  have s3 := h3.1.keeps_sound s2
  have n3 : (rotationKeys inp p2).hierarchies.Nodup := by rw [h3.1.hierarchies]; exact n2
  have e3 := e2.append (h3.quiet (fun c => c.isBuild = false)).2
  generalize rotationKeys inp p2 = p3 at *
  exact ⟨openKeys_sound inp p3 s3, openKeys_nodup inp p3 n3,
    e3.append (openKeys_emits _ isLoad_not_build inp p3)⟩

/-- Without a file load the part of `updateEvent` before the shortcut block
leaves the hierarchies and the free store as they are. -/
theorem beforeBuildKeys_sameCore (inp : KInputManager V) (p : MainWidgetPrivate V)
    (hno : loadsFile inp = false) : SameCore p (beforeBuildKeys inp p) := by
  unfold beforeBuildKeys
  have h1 := (rangeKeys_silent inp p).1
  generalize rangeKeys inp p = p1 at *
  have h2 := h1.chain (updateDrawRange_quiet (fun _ => True) (rangeTriggered inp) p1
    (fun _ => trivial) (fun _ _ => trivial)).1
  generalize updateDrawRange (rangeTriggered inp) p1 = p2 at *
  have h3 := h2.chain (rotationKeys_silent inp p2).1
  generalize rotationKeys inp p2 = p3 at *
  refine h3.chain ?_
  unfold openKeys
  split_ifs with hc ho
  · unfold openObj
    cases hf : inp.openFile with
    | none => exact SameCore.of_emit p3 _
    | some mesh => simp [loadsFile, hc, ho, hf] at hno
  · exact SameCore.same p3
  · exact SameCore.same p3

theorem updateEvent_nodup (eng : Engine) (inp : KInputManager V) (p : MainWidgetPrivate V)
    (hs : p.Sound) (hn : p.hierarchies.Nodup) :
    (updateEvent eng inp p).hierarchies.Nodup := by
  have h := (beforeBuildKeys_spec inp p hs hn).2.1
  have e : updateEvent eng inp p = bufferKeys inp (buildKeys eng inp (beforeBuildKeys inp p)) :=
    rfl
  rw [e, (bufferKeys_silent inp _).1.hierarchies, buildKeys_hierarchies]
  exact h

end MainWidget

/-- In every state the viewer reaches the four hierarchy pointers are different. -/
theorem reachable_hierarchies_nodup (eng : Engine) (p : MainWidgetPrivate V)
    (h : Reachable eng p) : p.hierarchies.Nodup := by
  induction h with
  | init sphere =>
    unfold MainWidget.initializeGL
    rw [(sameCore_instances _ _).hierarchies]
    exact (MainWidgetPrivate.loadObj_spec sphere _).1.1
  | step a p hr ih =>
    have hs := Reachable.is_sound eng p hr
    cases a with
    | updateEvent inp => exact MainWidget.updateEvent_nodup eng inp p hs ih
    | paintGL cameraDirty =>
      show (MainWidget.paintGL cameraDirty p).hierarchies.Nodup
      unfold MainWidget.paintGL
      rw [hs.1]
      simp only [Bool.not_false, if_true]
      have hc := (MainWidgetPrivate.paintGL_calls (fun _ => True) (fun _ _ => trivial)
        cameraDirty p (fun _ _ _ => trivial)).1
      rw [hc.hierarchies]
      exact ih
    | loadObj mesh => exact (MainWidgetPrivate.loadObj_spec mesh p).1.1

theorem dedicatedHierarchy_sameCore {s t : MainWidgetPrivate V} (h : SameCore s t)
    (shift isB : Bool) : dedicatedHierarchy shift isB t = dedicatedHierarchy shift isB s := by
  obtain ⟨-, -, -, h1, h2, h3, h4, -⟩ := h
  cases shift <;> cases isB <;> simp only [dedicatedHierarchy, h1, h2, h3, h4]

theorem dedicatedHierarchy_mem (s : MainWidgetPrivate V) (shift isB : Bool) :
    dedicatedHierarchy shift isB s ∈ s.hierarchies := by
  cases shift <;> cases isB <;> simp [dedicatedHierarchy, MainWidgetPrivate.hierarchies]

theorem filter_isBuild_of_none (cs : List Call) (h : ∀ c ∈ cs, c.isBuild = false) :
    cs.filter Call.isBuild = [] := by
  rw [List.filter_eq_nil_iff]
  intro c hc
  rw [h c hc]
  exact Bool.false_ne_true

/-! ## Taking a pair out of a list -/

theorem picks_perm {α : Type} (xs : List α) :
    ∀ yr ∈ picks xs, List.Perm xs (yr.1 :: yr.2) := by
  induction xs with
  | nil => intro yr h; simp [picks] at h
  | cons x xs ih =>
    intro yr h
    simp only [picks, List.mem_cons, List.mem_map] at h
    rcases h with rfl | ⟨zr, hz, rfl⟩
    · exact List.Perm.refl _
    · exact ((ih zr hz).cons x).trans (List.Perm.swap _ _ _)

theorem picks_ne_nil {α : Type} (xs : List α) (h : xs ≠ []) : picks xs ≠ [] := by
  cases xs with
  | nil => exact absurd rfl h
  | cons x xs => simp [picks]

theorem pairs_perm {α : Type} (xs : List α) :
    ∀ abr ∈ pairs xs, List.Perm xs (abr.1 :: abr.2.1 :: abr.2.2) := by
  induction xs with
  | nil => intro abr h; simp [pairs] at h
  | cons x xs ih =>
    intro abr h
    simp only [pairs, List.mem_append, List.mem_map] at h
    rcases h with ⟨yr, hy, rfl⟩ | ⟨zr, hz, rfl⟩
    · exact (picks_perm xs yr hy).cons x
    · have h1 := (ih zr hz).cons x
      refine h1.trans ?_
      refine (List.Perm.swap _ _ _).trans ?_
      exact (List.Perm.swap _ _ _).cons _

theorem pairs_ne_nil {α : Type} (xs : List α) (h : 2 ≤ xs.length) : pairs xs ≠ [] := by
  cases xs with
  | nil => simp at h
  | cons x xs =>
    have hx : xs ≠ [] := by
      intro e
      rw [e] at h
      simp at h
    have hp := picks_ne_nil xs hx
    simp only [pairs, ne_eq, List.append_eq_nil, List.map_eq_nil_iff, not_and]
    intro e
    exact absurd e hp

/-! ## The least candidate -/

theorem bestPair_fold (cands : List (HierarchyNode × HierarchyNode × List HierarchyNode))
    (b : HierarchyNode × HierarchyNode × List HierarchyNode) :
    ∃ r, cands.foldl
        (fun best c =>
          match best with
          | none => some c
          | some b =>
            if rankLt (mergeRank c.1 c.2.1) (mergeRank b.1 b.2.1) then some c else some b)
        (some b) = some r ∧ (r = b ∨ r ∈ cands) := by
  induction cands generalizing b with
  | nil => exact ⟨b, rfl, Or.inl rfl⟩
  | cons c cs ih =>
    simp only [List.foldl_cons]
    by_cases h : rankLt (mergeRank c.1 c.2.1) (mergeRank b.1 b.2.1) = true
    · rw [if_pos h]
      obtain ⟨r, hr, hm⟩ := ih c
      refine ⟨r, hr, Or.inr ?_⟩
      rcases hm with rfl | hm
      · exact List.mem_cons_self _ _
      · exact List.mem_cons_of_mem _ hm
    · rw [if_neg h]
      obtain ⟨r, hr, hm⟩ := ih b
      refine ⟨r, hr, ?_⟩
      rcases hm with rfl | hm
      · exact Or.inl rfl
      · exact Or.inr (List.mem_cons_of_mem _ hm)

theorem bestPair_of_ne_nil (cands : List (HierarchyNode × HierarchyNode × List HierarchyNode))
    (h : cands ≠ []) : ∃ r, bestPair cands = some r ∧ r ∈ cands := by
  cases cands with
  | nil => exact absurd rfl h
  | cons c cs =>
    obtain ⟨r, hr, hm⟩ := bestPair_fold cs c
    refine ⟨r, ?_, ?_⟩
    · unfold bestPair
      simp only [List.foldl_cons]
      exact hr
    · rcases hm with rfl | hm
      · exact List.mem_cons_self _ _
      · exact List.mem_cons_of_mem _ hm

/-- With two nodes or more, a round merges two of them: the new node is their
parent with the exact union as its box, the others are kept. -/
theorem mergeStep_spec (nodes : List HierarchyNode) (h : 2 ≤ nodes.length) :
    ∃ a b rest, mergeStep nodes = some (HierarchyNode.node (a.box.union b.box) a b :: rest) ∧
      List.Perm nodes (a :: b :: rest) := by
  obtain ⟨r, hr, hm⟩ := bestPair_of_ne_nil (pairs nodes) (pairs_ne_nil nodes h)
  obtain ⟨a, b, rest⟩ := r
  refine ⟨a, b, rest, ?_, pairs_perm nodes _ hm⟩
  unfold mergeStep
  rw [hr]

/-! ## Trees and forests -/

namespace HierarchyNode

theorem leafCount_eq_length (t : HierarchyNode) : t.leafCount = t.leaves.length := by
  induction t with
  | leaf b ids => rfl
  | node b l r ihl ihr => simp only [leafCount, leaves, List.length_append, ihl, ihr]

/-- A binary tree has one internal node less than it has leaves. -/
theorem internalCount_succ (t : HierarchyNode) : t.internalCount + 1 = t.leafCount := by
  induction t with
  | leaf b ids => rfl
  | node b l r ihl ihr =>
    simp only [leafCount, internalCount]
    omega

end HierarchyNode

theorem forestLeaves_perm {ns ms : List HierarchyNode} (h : List.Perm ns ms) :
    List.Perm (forestLeaves ns) (forestLeaves ms) := by
  induction h with
  | nil => exact List.Perm.refl _
  | cons t _ ih => exact List.Perm.append_left _ ih
  | swap t u l =>
    simp only [forestLeaves, ← List.append_assoc]
    exact List.Perm.append_right _ List.perm_append_comm
  | trans _ _ ih1 ih2 => exact ih1.trans ih2

theorem forestLeaves_leafNodes (i : Nat) (boxes : List Aabb) :
    forestLeaves (leafNodes i boxes) = leafEntries i boxes := by
  induction boxes generalizing i with
  | nil => rfl
  | cons b bs ih => simp only [leafNodes, forestLeaves, HierarchyNode.leaves, leafEntries, ih,
      List.singleton_append]

theorem leafNodes_length (i : Nat) (boxes : List Aabb) :
    (leafNodes i boxes).length = boxes.length := by
  induction boxes generalizing i with
  | nil => rfl
  | cons b bs ih => simp only [leafNodes, List.length_cons, ih]

theorem leafNodes_exact (i : Nat) (boxes : List Aabb) :
    ∀ t ∈ leafNodes i boxes, t.ExactBoxes := by
  induction boxes generalizing i with
  | nil => intro t h; simp [leafNodes] at h
  | cons b bs ih =>
    intro t h
    simp only [leafNodes, List.mem_cons] at h
    rcases h with rfl | h
    · trivial
    · exact ih _ t h

theorem leafEntries_length (i : Nat) (boxes : List Aabb) :
    (leafEntries i boxes).length = boxes.length := by
  induction boxes generalizing i with
  | nil => rfl
  | cons b bs ih => simp only [leafEntries, List.length_cons, ih]

theorem leafEntries_map_fst (i : Nat) (boxes : List Aabb) :
    (leafEntries i boxes).map Prod.fst = boxes := by
  induction boxes generalizing i with
  | nil => rfl
  | cons b bs ih => simp only [leafEntries, List.map_cons, ih]

/-- From `k + 1` trees, `k` rounds leave one root; the root keeps the leaves of
the forest and the exactness of the boxes. -/
theorem agglomerate_spec (k : Nat) (nodes : List HierarchyNode)
    (hlen : nodes.length = k + 1) (hexact : ∀ t ∈ nodes, t.ExactBoxes) :
    ∃ root, agglomerate k nodes = [root] ∧ root.ExactBoxes ∧
      List.Perm root.leaves (forestLeaves nodes) := by
  induction k generalizing nodes with
  | zero =>
    match nodes, hlen with
    | [t], _ =>
      refine ⟨t, rfl, hexact t (List.mem_singleton_self t), ?_⟩
      simp only [forestLeaves, List.append_nil]
      exact List.Perm.refl _
  | succ k ih =>
    obtain ⟨a, b, rest, hstep, hperm⟩ := mergeStep_spec nodes (by omega)
    have hlen2 : (HierarchyNode.node (a.box.union b.box) a b :: rest).length = k + 1 := by
      have := hperm.length_eq
      simp only [List.length_cons] at this ⊢
      omega
    have hex2 : ∀ t ∈ HierarchyNode.node (a.box.union b.box) a b :: rest, t.ExactBoxes := by
      intro t ht
      rcases List.mem_cons.mp ht with rfl | ht
      · exact ⟨rfl, hexact a (hperm.mem_iff.mpr (List.mem_cons_self _ _)),
          hexact b (hperm.mem_iff.mpr (List.mem_cons_of_mem _ (List.mem_cons_self _ _)))⟩
      · exact hexact t (hperm.mem_iff.mpr
          (List.mem_cons_of_mem _ (List.mem_cons_of_mem _ ht)))
    obtain ⟨root, hroot, hre, hrl⟩ := ih _ hlen2 hex2
    refine ⟨root, ?_, hre, ?_⟩
    · simp only [agglomerate, hstep]
      exact hroot
    · refine hrl.trans ?_
      have h1 := forestLeaves_perm hperm
      refine List.Perm.trans ?_ h1.symm
      simp only [forestLeaves, HierarchyNode.leaves, List.append_assoc]
      exact List.Perm.refl _

/-! ## Boxes -/

namespace Aabb

theorem within_self (a : Aabb) : a.within a := by
  unfold within
  omega

theorem within_antisymm (a b : Aabb) (h1 : a.within b) (h2 : b.within a) : a = b := by
  obtain ⟨a1, a2, a3, a4, a5, a6⟩ := a
  obtain ⟨b1, b2, b3, b4, b5, b6⟩ := b
  simp only [within] at h1 h2
  simp only [mk.injEq]
  omega

/-- The union is the least box enclosing both. -/
theorem union_within_iff (a b c : Aabb) : (a.union b).within c ↔ a.within c ∧ b.within c := by
  simp only [within, union]
  omega

end Aabb

theorem unionAll_within_iff (b : Aabb) (bs : List Aabb) (c : Aabb) :
    (unionAll b bs).within c ↔ b.within c ∧ ∀ l ∈ bs, l.within c := by
  unfold unionAll
  induction bs generalizing b with
  | nil => simp
  | cons x xs ih =>
    simp only [List.foldl_cons, ih, Aabb.union_within_iff, List.mem_cons, forall_eq_or_imp,
      and_assoc]

theorem exactBoxes_within_iff (t : HierarchyNode) (h : t.ExactBoxes) (c : Aabb) :
    t.box.within c ↔ ∀ l ∈ t.leaves, l.1.within c := by
  induction t with
  | leaf b ids => simp [HierarchyNode.box, HierarchyNode.leaves]
  | node b l r ihl ihr =>
    obtain ⟨hb, hl, hr⟩ := h
    have e : (HierarchyNode.node b l r).box = l.box.union r.box := hb
    rw [e, Aabb.union_within_iff, ihl hl, ihr hr]
    simp only [HierarchyNode.leaves, List.mem_append]
    constructor
    · rintro ⟨h1, h2⟩ x (hx | hx)
      · exact h1 x hx
      · exact h2 x hx
    · intro h
      exact ⟨fun x hx => h x (Or.inl hx), fun x hx => h x (Or.inr hx)⟩

/-! # The claims -/

/-! ## Claim C1 -/

/-- C1: the clamp block of `updateEvent` (lines 700-717) on an active hierarchy
of depth `D` representable as `int`, entered with `int` values `minDraw`,
`maxDraw`: afterwards `minDraw' = min (max minDraw 0) D` and
`maxDraw' = min (max maxDraw minDraw') D`, so `0 ≤ minDraw' ≤ maxDraw' ≤ D`; a
range with `0 ≤ minDraw ≤ maxDraw ≤ D` is unchanged; an inverted range ends with
`maxDraw' = minDraw'`; and the block only calls `depth()` on the live hierarchy
(and sets the window title), so it cannot fail. -/
theorem clamp_block_depth_range (s : MainWidgetPrivate V) (g : KStaticGeometry)
    (triggered : Bool)
    (hactive : s.heap.geometry s.m_staticGeometry = some g)
    (hD : (g.depth : Int) < 2 ^ 31)
    (hmin : -2 ^ 31 ≤ s.m_minDraw ∧ s.m_minDraw < 2 ^ 31)
    (hmax : -2 ^ 31 ≤ s.m_maxDraw ∧ s.m_maxDraw < 2 ^ 31) :
    (MainWidgetPrivate.updateDrawRange triggered s).m_minDraw
      = min (max s.m_minDraw 0) g.depth ∧
    (MainWidgetPrivate.updateDrawRange triggered s).m_maxDraw
      = min (max s.m_maxDraw (MainWidgetPrivate.updateDrawRange triggered s).m_minDraw)
          g.depth ∧
    0 ≤ (MainWidgetPrivate.updateDrawRange triggered s).m_minDraw ∧
    (MainWidgetPrivate.updateDrawRange triggered s).m_minDraw
      ≤ (MainWidgetPrivate.updateDrawRange triggered s).m_maxDraw ∧
    (MainWidgetPrivate.updateDrawRange triggered s).m_maxDraw ≤ g.depth ∧
    (0 ≤ s.m_minDraw → s.m_minDraw ≤ s.m_maxDraw → s.m_maxDraw ≤ g.depth →
      (MainWidgetPrivate.updateDrawRange triggered s).m_minDraw = s.m_minDraw ∧
      (MainWidgetPrivate.updateDrawRange triggered s).m_maxDraw = s.m_maxDraw) ∧
    (s.m_maxDraw < s.m_minDraw →
      (MainWidgetPrivate.updateDrawRange triggered s).m_maxDraw
        = (MainWidgetPrivate.updateDrawRange triggered s).m_minDraw) ∧
    (∀ c ∈ newCalls s (MainWidgetPrivate.updateDrawRange triggered s),
      c = Call.depth s.m_staticGeometry (some g) ∨
      c = Call.setWindowTitle (MainWidgetPrivate.updateDrawRange triggered s).m_minDraw
            (MainWidgetPrivate.updateDrawRange triggered s).m_maxDraw) := by
  have hne : s.m_staticGeometry ≠ 0 := by
    intro h0
    simp [h0, Heap.geometry, Heap.find] at hactive
  obtain ⟨-, -, e3, e4, n, e5⟩ :=
    MainWidgetPrivate.clampDrawRange_frame s g hactive hD hmin hmax
  have fmin : (MainWidgetPrivate.updateDrawRange triggered s).m_minDraw
      = (MainWidgetPrivate.clampDrawRange s).m_minDraw := by
    unfold MainWidgetPrivate.updateDrawRange
    rw [if_pos hne]
    cases triggered <;> rfl
  have fmax : (MainWidgetPrivate.updateDrawRange triggered s).m_maxDraw
      = (MainWidgetPrivate.clampDrawRange s).m_maxDraw := by
    unfold MainWidgetPrivate.updateDrawRange
    rw [if_pos hne]
    cases triggered <;> rfl
  have fcalls : (MainWidgetPrivate.updateDrawRange triggered s).calls
      = s.calls ++ (List.replicate n (Call.depth s.m_staticGeometry (some g)) ++
          if triggered then
            [Call.setWindowTitle (MainWidgetPrivate.clampDrawRange s).m_minDraw
              (MainWidgetPrivate.clampDrawRange s).m_maxDraw]
          else []) := by
    unfold MainWidgetPrivate.updateDrawRange
    rw [if_pos hne]
    cases triggered
    · simp [e5]
    · simp [MainWidgetPrivate.emit, e5]
  rw [newCalls_of_append s _ _ fcalls, fmin, fmax, e3, e4]
  obtain ⟨hmin1, hmin2⟩ := hmin
  obtain ⟨hmax1, hmax2⟩ := hmax
  refine ⟨rfl, rfl, by omega, by omega, by omega, ?_, ?_, ?_⟩
  · intro h1 h2 h3
    omega
  · intro h1
    omega
  · intro c hc
    rw [List.mem_append] at hc
    rcases hc with hc | hc
    · exact Or.inl (List.eq_of_mem_replicate hc)
    · cases triggered
      · simp at hc
      · simp at hc
        exact Or.inr hc

theorem clamp_block_depth_range_witness :
    invertedRange.heap.geometry invertedRange.m_staticGeometry = some sampleBuilt ∧
    (sampleBuilt.depth : Int) < 2 ^ 31 ∧
    (MainWidgetPrivate.updateDrawRange true invertedRange).m_minDraw = 2 ∧
    (MainWidgetPrivate.updateDrawRange true invertedRange).m_maxDraw = 2 :=
  have h := clamp_block_depth_range invertedRange sampleBuilt true (by rfl) (by decide)
    (by decide) (by decide)
  ⟨by rfl, by decide, h.1, h.2.2.2.2.2.2.1 (by decide) |>.trans h.1⟩

/-! ## Claim C2 -/

/-- C2: after `loadObj`, `m_boundaries` is the list with exactly one segment per
half-edge whose face is the boundary sentinel (`face == 0`), in half-edge order,
the segment of `e` being (position of `vertex(e.to)`, position of
`vertex(halfEdge(e.next).to)`); its length is the number of boundary half-edges,
and for a mesh without boundary half-edge it is empty. -/
theorem loadObj_boundaries (mesh : KHalfEdgeMesh V) (s : MainWidgetPrivate V) :
    (MainWidgetPrivate.loadObj mesh s).m_boundaries
      = (mesh.halfEdges.filter (fun e => e.face = 0)).map
          (fun e => ((mesh.vertex e.to_).position,
                     (mesh.vertex (mesh.halfEdge e.next).to_).position)) ∧
    (MainWidgetPrivate.loadObj mesh s).m_boundaries = boundaryEdgesSpec mesh ∧
    (MainWidgetPrivate.loadObj mesh s).m_boundaries.length
      = mesh.halfEdges.countP (fun e => e.face = 0) ∧
    ((∀ e ∈ mesh.halfEdges, e.face ≠ 0) →
      (MainWidgetPrivate.loadObj mesh s).m_boundaries = []) := by
  have h := (MainWidgetPrivate.loadObj_spec mesh s).2.2.2.1
  rw [boundaryQuery_eq_spec] at h
  rw [h]
  refine ⟨rfl, rfl, ?_, ?_⟩
  · simp [boundaryEdgesSpec, List.countP_eq_length_filter]
  · intro hclosed
    simp only [boundaryEdgesSpec, List.map_eq_nil_iff, List.filter_eq_nil_iff, decide_eq_true_eq]
    exact hclosed

theorem loadObj_boundaries_witness :
    (∀ e ∈ closedPillow.halfEdges, e.face ≠ 0) ∧
    (MainWidgetPrivate.loadObj closedPillow (MainWidget.initializeGL openTriangle)).m_boundaries
      = [] ∧
    (MainWidgetPrivate.loadObj openTriangle (MainWidget.initializeGL closedPillow)).m_boundaries
      = [((0, 0, 0), (0, 1, 0)), ((1, 0, 0), (0, 0, 0)), ((0, 1, 0), (1, 0, 0))] :=
  ⟨by decide,
   (loadObj_boundaries closedPillow (MainWidget.initializeGL openTriangle)).2.2.2 (by decide),
   (loadObj_boundaries openTriangle (MainWidget.initializeGL closedPillow)).1⟩

/-! ## Claim C3 -/

/-- C3: the boundary list after `loadObj` does not depend on the state the load
starts from (so not on the previous `m_boundaries` or the previous mesh): two
loads of the same mesh from any two states leave the same list, every segment
of which is a boundary segment of the newly loaded mesh, and the mesh the
viewer then holds is the new one. -/
theorem loadObj_boundaries_recomputed (mesh : KHalfEdgeMesh V) (s1 s2 : MainWidgetPrivate V) :
    (MainWidgetPrivate.loadObj mesh s1).m_boundaries
      = (MainWidgetPrivate.loadObj mesh s2).m_boundaries ∧
    (MainWidgetPrivate.loadObj mesh s1).m_boundaries = MainWidgetPrivate.boundaryQuery mesh ∧
    (MainWidgetPrivate.loadObj mesh s1).meshData = some mesh ∧
    ∀ seg ∈ (MainWidgetPrivate.loadObj mesh s1).m_boundaries, seg ∈ boundaryEdgesSpec mesh := by
  have h1 := MainWidgetPrivate.loadObj_spec mesh s1
  have h2 := MainWidgetPrivate.loadObj_spec mesh s2
  refine ⟨h1.2.2.2.1.trans h2.2.2.2.1.symm, h1.2.2.2.1, h1.2.2.2.2.1, ?_⟩
  intro seg hseg
  rw [h1.2.2.2.1, boundaryQuery_eq_spec] at hseg
  exact hseg

theorem loadObj_boundaries_recomputed_witness :
    (MainWidget.initializeGL openTriangle).m_boundaries
      = [((0, 0, 0), (0, 1, 0)), ((1, 0, 0), (0, 0, 0)), ((0, 1, 0), (1, 0, 0))] ∧
    (MainWidgetPrivate.loadObj closedPillow (MainWidget.initializeGL openTriangle)).m_boundaries
      = (MainWidgetPrivate.loadObj closedPillow MainWidgetPrivate.new).m_boundaries :=
  ⟨by decide,
   (loadObj_boundaries_recomputed closedPillow (MainWidget.initializeGL openTriangle)
      MainWidgetPrivate.new).1⟩

/-! ## Claim C4 -/

/-- C4: from every starting state `loadObj` deletes the four hierarchies and
creates four new ones (its calls are exactly `loadObjCalls`: four
`deleteGeometry`, four `newGeometry`, sixteen `addGeometry`, no `build`), the new
hierarchies are four different live objects holding exactly the four
registrations (the loaded mesh with transforms 0..3) and no tree, the active
pointer `m_staticGeometry` is null on return; the start-up (`initializeGL`, which
loads the first mesh) makes no `build` call, and a step of the viewer makes a
`build` call only if it is an `updateEvent` with B or T triggered. -/
theorem loadObj_registers_without_build (mesh : KHalfEdgeMesh V) (s : MainWidgetPrivate V) :
    newCalls s (MainWidgetPrivate.loadObj mesh s)
      = loadObjCalls s (MainWidgetPrivate.loadObj mesh s) ∧
    (MainWidgetPrivate.loadObj mesh s).hierarchies.Nodup ∧
    (∀ p ∈ (MainWidgetPrivate.loadObj mesh s).hierarchies,
      (MainWidgetPrivate.loadObj mesh s).heap.geometry p
        = some ⟨[⟨(MainWidgetPrivate.loadObj mesh s).m_halfEdgeMesh, 0⟩,
                 ⟨(MainWidgetPrivate.loadObj mesh s).m_halfEdgeMesh, 1⟩,
                 ⟨(MainWidgetPrivate.loadObj mesh s).m_halfEdgeMesh, 2⟩,
                 ⟨(MainWidgetPrivate.loadObj mesh s).m_halfEdgeMesh, 3⟩], none, 0⟩) ∧
    (∀ c ∈ newCalls s (MainWidgetPrivate.loadObj mesh s), c.isBuild = false) ∧
    (MainWidgetPrivate.loadObj mesh s).m_staticGeometry = 0 ∧
    (∀ c ∈ (MainWidget.initializeGL mesh).calls, c.isBuild = false) ∧
    (∀ (eng : Engine) (a : Action V) (p : MainWidgetPrivate V),
      (∃ c ∈ newCalls p (step eng a p), c.isBuild = true) →
      ∃ inp, a = .updateEvent inp ∧
        (inp.keyTriggered Key.B = true ∨ inp.keyTriggered Key.T = true)) := by
  obtain ⟨⟨hnd, hreg⟩, hcalls, h0, -⟩ := MainWidgetPrivate.loadObj_spec mesh s
  refine ⟨newCalls_of_append _ _ _ hcalls, hnd, ?_, ?_, h0,
    initializeGL_calls_not_build mesh, ?_⟩
  · intro p hp
    rw [hreg p hp]
    rfl
  · exact (MainWidgetPrivate.loadObj_emits _ isLoad_not_build mesh s).newCalls
  · intro eng a p ⟨c, hc, hb⟩
    by_contra hno
    have hidle : ∀ inp, a = .updateEvent inp →
        inp.keyTriggered Key.B = false ∧ inp.keyTriggered Key.T = false := by
      intro inp ha
      constructor
      · cases hB : inp.keyTriggered Key.B
        · rfl
        · exact absurd ⟨inp, ha, Or.inl hB⟩ hno
      · cases hT : inp.keyTriggered Key.T
        · rfl
        · exact absurd ⟨inp, ha, Or.inr hT⟩ hno
    have := (step_without_build_keys eng a p hidle).newCalls c hc
    rw [hb] at this
    exact Bool.noConfusion this

theorem loadObj_registers_without_build_witness :
    (∃ c ∈ newCalls (MainWidget.initializeGL openTriangle)
        (step sampleEngine (.updateEvent (keys [.B] [])) (MainWidget.initializeGL openTriangle)),
      c.isBuild = true) ∧
    ∃ inp : KInputManager Point, Action.updateEvent (keys [.B] []) = .updateEvent inp ∧
      (inp.keyTriggered Key.B = true ∨ inp.keyTriggered Key.T = true) :=
  ⟨⟨.build 14 (some (unbuilt 3 4)) .BottomUpMethod .triangles500, by decide, rfl⟩,
   (loadObj_registers_without_build closedPillow MainWidgetPrivate.new).2.2.2.2.2.2
     sampleEngine (.updateEvent (keys [.B] [])) (MainWidget.initializeGL openTriangle)
     ⟨.build 14 (some (unbuilt 3 4)) .BottomUpMethod .triangles500, by decide, rfl⟩⟩

/-! ## Claim C5 -/

/-- C5: in every state reachable from `initializeGL` by `updateEvent`, `loadObj`
and `paintGL` steps, `m_staticGeometry` is null or one of the four owned
hierarchies, live and built (a `build` has completed on it since it was created
by the last `loadObj`); every `depth()` and `drawAabbs` call in the trace of the
run so far, and every such call a further step makes, has a live, built
hierarchy as its receiver. -/
theorem active_hierarchy_built (eng : Engine) (p : MainWidgetPrivate V)
    (h : Reachable eng p) :
    (p.m_staticGeometry = 0 ∨
      (p.m_staticGeometry ∈ p.hierarchies ∧
        ∃ g, p.heap.geometry p.m_staticGeometry = some g ∧ g.built.isSome = true)) ∧
    (∀ c ∈ p.calls, c.QueryOnBuilt) ∧
    ∀ (a : Action V), ∀ c ∈ newCalls p (step eng a p),
      (∀ q r, c = Call.depth q r → ∃ g, r = some g ∧ g.built.isSome = true) ∧
      (∀ q r lo hi, c = Call.drawAabbs q r lo hi → ∃ g, r = some g ∧ g.built.isSome = true) := by
  have hs := Reachable.is_sound eng p h
  refine ⟨hs.2.2, fun c hc => sound_queryOnBuilt c (reachable_calls_sound eng p h c hc), ?_⟩
  intro a c hc
  have hsound := (step_sound eng a p hs).newCalls c hc
  constructor
  · intro q r e
    subst e
    exact hsound
  · intro q r lo hi e
    subst e
    exact hsound

theorem active_hierarchy_built_witness :
    Reachable sampleEngine afterBuild ∧
    afterBuild.m_staticGeometry = 14 ∧
    (afterBuild.m_staticGeometry = 0 ∨
      (afterBuild.m_staticGeometry ∈ afterBuild.hierarchies ∧
        ∃ g, afterBuild.heap.geometry afterBuild.m_staticGeometry = some g ∧
          g.built.isSome = true)) :=
  ⟨reachable_run sampleEngine openTriangle [.updateEvent (keys [.B] [])], by decide,
   (active_hierarchy_built sampleEngine afterBuild
     (reachable_run sampleEngine openTriangle [.updateEvent (keys [.B] [])])).1⟩

/-! ## Claim C6 -/

/-- C6: in every reachable state each of the four owned hierarchies is live and
holds exactly the four instances registered by the last `loadObj` (the current
mesh with transforms 0..3); every `build` call in the trace of the run so far
has a hierarchy with four registered instances as its receiver, and so has every
`build` call issued by a further `updateEvent`; so no build of the viewer runs
on an empty hierarchy. -/
theorem build_never_empty (eng : Engine) (p : MainWidgetPrivate V) (h : Reachable eng p)
    (inp : KInputManager V) :
    (∀ q ∈ p.hierarchies,
      ∃ g, p.heap.geometry q = some g ∧ g.instances = registered p.m_halfEdgeMesh 4) ∧
    (∀ c ∈ p.calls, c.BuildOnFour) ∧
    ∀ c ∈ newCalls p (MainWidget.updateEvent eng inp p),
      ∀ q r method pred, c = Call.build q r method pred →
        ∃ g, r = some g ∧ g.instances.length = 4 ∧ g.instances ≠ [] := by
  have hs := Reachable.is_sound eng p h
  refine ⟨hs.2.1, fun c hc => sound_buildOnFour c (reachable_calls_sound eng p h c hc), ?_⟩
  intro c hc q r method pred e
  have hsound := (MainWidget.updateEvent_sound eng inp p hs).2.newCalls c hc
  subst e
  obtain ⟨g, hg, hlen⟩ := hsound
  refine ⟨g, hg, hlen, ?_⟩
  intro hnil
  rw [hnil] at hlen
  exact absurd hlen (by decide)

theorem build_never_empty_witness :
    Reachable sampleEngine (MainWidget.initializeGL openTriangle) ∧
    Call.build 13 (some (unbuilt 3 4)) .BottomUpMethod .depth7
      ∈ newCalls (MainWidget.initializeGL openTriangle)
          (MainWidget.updateEvent sampleEngine (keys [.B, .T] [.Shift])
            (MainWidget.initializeGL openTriangle)) ∧
    ∃ g, some (unbuilt 3 4) = some g ∧ g.instances.length = 4 ∧ g.instances ≠ [] :=
  ⟨Reachable.init openTriangle, by decide,
   (build_never_empty sampleEngine (MainWidget.initializeGL openTriangle)
     (Reachable.init openTriangle) (keys [.B, .T] [.Shift])).2.2
     (Call.build 13 (some (unbuilt 3 4)) .BottomUpMethod .depth7) (by decide)
     13 (some (unbuilt 3 4)) .BottomUpMethod .depth7 rfl⟩

/-! ## Claim C7 -/

/-- C7 as stated fails: entered with the pause flag set, `loadObj` returns with
the flag still set, not cleared. -/
theorem loadObj_pause_not_cleared :
    pausedStart.m_paused = true ∧
    ¬ (MainWidgetPrivate.loadObj closedPillow pausedStart).m_paused = false := by
  decide

/-- C7, amended: `loadObj` sets `m_paused` before any load work, the flag is true
before and after every block of the work (mesh deletion, mesh construction,
normals, bounding volumes, GL mesh, boundary query, hierarchy registration), and
on return the flag has the value it had on entry; so it is false on return when
`loadObj` is entered with the flag clear. -/
theorem loadObj_pause_discipline (mesh : KHalfEdgeMesh V) (s : MainWidgetPrivate V) :
    (MainWidgetPrivate.pause s).m_paused = true ∧
    (∀ k, (MainWidgetPrivate.runBlocks ((MainWidgetPrivate.loadObjWork mesh).take k)
            (MainWidgetPrivate.pause s)).m_paused = true) ∧
    MainWidgetPrivate.loadObj mesh s
      = { MainWidgetPrivate.runBlocks (MainWidgetPrivate.loadObjWork mesh)
            (MainWidgetPrivate.pause s) with m_paused := s.m_paused } ∧
    (MainWidgetPrivate.loadObj mesh s).m_paused = s.m_paused ∧
    (s.m_paused = false → (MainWidgetPrivate.loadObj mesh s).m_paused = false) := by
  have hret : (MainWidgetPrivate.loadObj mesh s).m_paused = s.m_paused := by
    simp only [MainWidgetPrivate.loadObj]
  refine ⟨rfl, ?_, ?_, hret, fun h => hret.trans h⟩
  swap
  · simp only [MainWidgetPrivate.loadObj]
  intro k
  rw [MainWidgetPrivate.runBlocks_paused]
  · rfl
  · intro f hf
    exact MainWidgetPrivate.loadObjWork_paused mesh f (List.mem_of_mem_take hf)

theorem loadObj_pause_discipline_witness :
    (MainWidget.initializeGL openTriangle).m_paused = false ∧
    (MainWidgetPrivate.loadObj closedPillow (MainWidget.initializeGL openTriangle)).m_paused
      = false :=
  ⟨by decide,
   (loadObj_pause_discipline closedPillow (MainWidget.initializeGL openTriangle)).2.2.2.2
     (by decide)⟩

/-! ## Claim C8 -/

/-- C8 as stated fails: in a state with the pause flag set, `updateEvent` with B
triggered still issues a `build` and changes the active hierarchy. -/
theorem updateEvent_runs_while_paused :
    pausedViewer.m_paused = true ∧
    Call.build 14 (some (unbuilt 3 4)) .BottomUpMethod .triangles500
      ∈ newCalls pausedViewer
          (MainWidget.updateEvent sampleEngine (keys [.B] []) pausedViewer) ∧
    (MainWidget.updateEvent sampleEngine (keys [.B] []) pausedViewer).m_staticGeometry
      ≠ pausedViewer.m_staticGeometry := by
  decide

/-- C8, amended: the pause flag gates `MainWidget::paintGL` only.  With
`m_paused` set, `paintGL` leaves the state as it is and makes no call (no
`commitGL`, `renderGL` or draw call); with `m_paused` clear it runs `commitGL`
followed by `renderGL`, each exactly once.  `MainWidget::updateEvent` has no
pause guard: it does the same whether the flag is set or clear (overwriting the
flag before the call equals overwriting it after), and leaves the flag as it
found it. -/
theorem pause_gates_paintGL (eng : Engine) (inp : KInputManager V) (cameraDirty : Bool)
    (p : MainWidgetPrivate V) :
    (p.m_paused = true →
      MainWidget.paintGL cameraDirty p = p ∧
      newCalls p (MainWidget.paintGL cameraDirty p) = []) ∧
    (p.m_paused = false →
      ∃ xs ys, newCalls p (MainWidget.paintGL cameraDirty p)
          = [Call.beginFrame, Call.commitGL] ++ xs ++ [Call.renderGL] ++ ys ++
              [Call.endFrame, Call.debugDraw, Call.widgetPaintGL] ∧
        ∀ c ∈ xs ++ ys, c ≠ Call.commitGL ∧ c ≠ Call.renderGL) ∧
    (∀ b, MainWidget.updateEvent eng inp (p.setPaused b)
        = (MainWidget.updateEvent eng inp p).setPaused b) ∧
    (MainWidget.updateEvent eng inp p).m_paused = p.m_paused := by
  refine ⟨?_, ?_, fun b => MainWidget.updateEvent_setPaused eng b inp p, ?_⟩
  · intro hp
    have h : MainWidget.paintGL cameraDirty p = p := by
      unfold MainWidget.paintGL
      rw [hp]
      rfl
    rw [h]
    exact ⟨rfl, by simp [newCalls]⟩
  · intro hp
    unfold MainWidget.paintGL
    rw [hp]
    simp only [Bool.not_false, if_true]
    obtain ⟨-, xs, ys, e, px, py⟩ := MainWidgetPrivate.paintGL_calls
      (fun c => c ≠ Call.commitGL ∧ c ≠ Call.renderGL) isPaintDetail_not_mark cameraDirty p
      (fun _ _ _ => ⟨Call.noConfusion, Call.noConfusion⟩)
    refine ⟨xs, ys, newCalls_of_append _ _ _ e, ?_⟩
    intro c hc
    rcases List.mem_append.mp hc with h | h
    · exact px c h
    · exact py c h
  · have h := MainWidget.updateEvent_setPaused eng p.m_paused inp p
    have hp : MainWidgetPrivate.setPaused p.m_paused p = p := rfl
    rw [hp] at h
    rw [h]
    rfl

theorem pause_gates_paintGL_witness :
    pausedViewer.m_paused = true ∧
    MainWidget.paintGL true pausedViewer = pausedViewer ∧
    (MainWidget.initializeGL openTriangle).m_paused = false ∧
    ∃ xs ys, newCalls (MainWidget.initializeGL openTriangle)
        (MainWidget.paintGL true (MainWidget.initializeGL openTriangle))
        = [Call.beginFrame, Call.commitGL] ++ xs ++ [Call.renderGL] ++ ys ++
            [Call.endFrame, Call.debugDraw, Call.widgetPaintGL] ∧
      ∀ c ∈ xs ++ ys, c ≠ Call.commitGL ∧ c ≠ Call.renderGL :=
  ⟨by decide,
   ((pause_gates_paintGL sampleEngine (keys [] []) true pausedViewer).1 (by decide)).1,
   by decide,
   (pause_gates_paintGL sampleEngine (keys [] []) true
     (MainWidget.initializeGL openTriangle)).2.1 (by decide)⟩

/-! ## Claim C9 -/

/-- C9: the two termination predicates handed to `build` are functions of
`(count, depth)` alone: the depth-bounded one is true exactly when `depth ≥ 7`
whatever the count, the size-bounded one exactly when `count < 500` whatever the
depth; they take no viewer state, so equal arguments give equal results. -/
theorem termination_predicates (count depth : Nat) :
    (depthPred count depth = true ↔ depth ≥ 7) ∧
    (trianglePred count depth = true ↔ count < 500) ∧
    (∀ count2, depthPred count2 depth = depthPred count depth) ∧
    (∀ depth2, trianglePred count depth2 = trianglePred count depth) ∧
    Terminator.depth7.apply count depth = depthPred count depth ∧
    Terminator.triangles500.apply count depth = trianglePred count depth := by
  refine ⟨?_, ?_, fun _ => rfl, fun _ => rfl, rfl, rfl⟩
  · simp [depthPred]
  · simp [trianglePred]

/-! ## Claim C10 -/

/-- C10 evaluated at a reload (start-up on the open triangle, then `loadObj` of
the closed pillow): the previous mesh and the four previous hierarchies are
deleted, but the seven bounding volumes of the previous load, at addresses 4 to
10, are no longer referenced by the viewer and are still allocated after the
reload, next to the seven new ones. -/
theorem reload_keeps_old_volumes :
    (MainWidget.initializeGL openTriangle).volumes = [4, 5, 6, 7, 8, 9, 10] ∧
    reloaded.volumes = [16, 17, 18, 19, 20, 21, 22] ∧
    ((MainWidget.initializeGL openTriangle).volumes.all
      (fun v => reloaded.heap.live v)) = true ∧
    (reloaded.volumes.all (fun v => reloaded.heap.live v)) = true ∧
    reloaded.heap.live (MainWidget.initializeGL openTriangle).m_halfEdgeMesh = false ∧
    ((MainWidget.initializeGL openTriangle).hierarchies.all
      (fun g => !reloaded.heap.live g)) = true ∧
    reloaded.heap.find 4 = some (Obj.volume .aabbMinMax 3) := by
  decide

/-! ## Claim C11 -/

/-- C11: for a hierarchy with `N ≥ 1` registered instances, the bottom-up build
(whatever the termination predicate) produces a tree with exactly `N` leaves,
one per instance, and exactly `N - 1` internal nodes; the box of every internal
node is the exact union of its children's boxes, and the root box is the exact
union of all `N` instance boxes: it encloses each of them, lies within every box
that encloses them all, and equals the union taken in instance order. -/
theorem bottomUp_tree (worldBox : GeometryInstance → Aabb) (g : KStaticGeometry)
    (pred : Nat → Nat → Bool) (hN : 1 ≤ g.instances.length) :
    ∃ root, g.buildBottomUp worldBox pred = .ok root ∧
      root.leafCount = g.instances.length ∧
      root.internalCount = g.instances.length - 1 ∧
      root.ExactBoxes ∧
      List.Perm root.leaves (leafEntries 0 (g.instances.map worldBox)) ∧
      (∀ inst ∈ g.instances, (worldBox inst).within root.box) ∧
      (∀ c : Aabb, (∀ inst ∈ g.instances, (worldBox inst).within c) → root.box.within c) ∧
      (∀ b bs, g.instances.map worldBox = b :: bs → root.box = unionAll b bs) := by
  unfold KStaticGeometry.buildBottomUp bottomUp
  have hlen : (g.instances.map worldBox).length = g.instances.length := List.length_map _ _
  have hmem : ∀ x, x ∈ g.instances.map worldBox ↔ ∃ inst ∈ g.instances, worldBox inst = x :=
    fun x => List.mem_map
  generalize g.instances.map worldBox = boxes at hlen hmem
  cases boxes with
  | nil =>
    simp only [List.length_nil] at hlen
    omega
  | cons b bs =>
    obtain ⟨root, hroot, hre, hperm⟩ := agglomerate_spec bs.length (leafNodes 0 (b :: bs))
      (by rw [leafNodes_length]; rfl) (leafNodes_exact 0 (b :: bs))
    rw [forestLeaves_leafNodes] at hperm
    have hcount : root.leafCount = g.instances.length := by
      rw [HierarchyNode.leafCount_eq_length, hperm.length_eq, leafEntries_length, hlen]
    have key : ∀ c : Aabb, root.box.within c ↔ ∀ x ∈ b :: bs, x.within c := by
      intro c
      rw [exactBoxes_within_iff root hre c]
      constructor
      · intro h x hx
        rw [← leafEntries_map_fst 0 (b :: bs), List.mem_map] at hx
        obtain ⟨l, hl, rfl⟩ := hx
        exact h l (hperm.mem_iff.mpr hl)
      · intro h l hl
        apply h
        rw [← leafEntries_map_fst 0 (b :: bs)]
        exact List.mem_map_of_mem _ (hperm.mem_iff.mp hl)
    refine ⟨root, ?_, hcount, ?_, hre, hperm, ?_, ?_, ?_⟩
    · simp only [hroot]
    · have := HierarchyNode.internalCount_succ root
      omega
    · intro inst hi
      exact (key root.box).mp (Aabb.within_self _) _ ((hmem _).mpr ⟨inst, hi, rfl⟩)
    · intro c hc
      rw [key]
      intro x hx
      obtain ⟨inst, hi, rfl⟩ := (hmem x).mp hx
      exact hc inst hi
    · intro b1 bs1 e
      obtain ⟨rfl, rfl⟩ := List.cons.inj e
      apply Aabb.within_antisymm
      · rw [key]
        intro x hx
        have h := (unionAll_within_iff b bs (unionAll b bs)).mp (Aabb.within_self _)
        rcases List.mem_cons.mp hx with rfl | hx
        · exact h.1
        · exact h.2 x hx
      · rw [unionAll_within_iff]
        have h := (key root.box).mp (Aabb.within_self _)
        exact ⟨h b (List.mem_cons_self _ _), fun l hl => h l (List.mem_cons_of_mem _ hl)⟩

theorem bottomUp_tree_witness :
    1 ≤ sampleBuilt.instances.length ∧
    ∃ root, sampleBuilt.buildBottomUp sampleWorldBox depthPred = .ok root ∧
      root.leafCount = 4 ∧ root.internalCount = 3 ∧
      root.box = ⟨-10, 0, -10, 11, 1, 11⟩ :=
  ⟨by decide,
   (bottomUp_tree sampleWorldBox sampleBuilt depthPred (by decide)).imp
     (fun _ h => ⟨h.1, h.2.1, h.2.2.1, (h.2.2.2.2.2.2.2 _ _ rfl).trans (by decide)⟩)⟩

/-! ## Claim C12 -/

/-- C12: in an `updateEvent` (from a state the viewer reaches) where exactly one
of B / T is triggered, there is exactly one `build` call; it is made on the
hierarchy `q` dedicated to the combination, with `BottomUpMethod` for B and
`TopDownMethod` for T, with the `depth >= 7` predicate when Shift is held and the
`count < 500` predicate otherwise; on return `q` is the active hierarchy, it is
built with that method and predicate, and `m_maxDraw` is its `depth()` cast to
`int` (equal to it when the depth is representable).  The four hierarchy
pointers stay different and the same as on entry to the shortcut block, and no
object other than `q` is changed by the block; when the event loads no file,
the same holds with respect to the state before the event. -/
theorem shortcut_build_mapping (eng : Engine) (p : MainWidgetPrivate V)
    (hr : Reachable eng p) (inp : KInputManager V) (isB : Bool)
    (hB : inp.keyTriggered .B = isB) (hT : inp.keyTriggered .T = !isB)
    (p1 p2 : MainWidgetPrivate V)
    (hp1 : p1 = MainWidget.beforeBuildKeys inp p)
    (hp2 : p2 = MainWidget.updateEvent eng inp p)
    (q : Nat) (hq : q = dedicatedHierarchy (inp.keyPressed .Shift) isB p2) :
    ∃ o : KStaticGeometry,
      o.instances.length = 4 ∧
      (newCalls p p2).filter Call.isBuild
        = [Call.build q (some o) (dedicatedMethod isB)
            (dedicatedPredicate (inp.keyPressed .Shift))] ∧
      q ∈ p2.hierarchies ∧ p2.hierarchies.Nodup ∧
      p2.m_staticGeometry = q ∧
      p2.heap.geometry q
        = some ⟨o.instances,
            some (dedicatedMethod isB, dedicatedPredicate (inp.keyPressed .Shift)),
            eng.depthAfterBuild (dedicatedMethod isB)
              (dedicatedPredicate (inp.keyPressed .Shift)) o.instances⟩ ∧
      p2.activeDepth = eng.depthAfterBuild (dedicatedMethod isB)
              (dedicatedPredicate (inp.keyPressed .Shift)) o.instances ∧
      p2.m_maxDraw = wrapInt p2.activeDepth ∧
      ((p2.activeDepth : Int) < 2 ^ 31 → p2.m_maxDraw = p2.activeDepth) ∧
      p2.hierarchies = p1.hierarchies ∧
      (∀ r, r ≠ q → p2.heap.find r = p1.heap.find r) ∧
      (loadsFile inp = false →
        p2.hierarchies = p.hierarchies ∧ ∀ r, r ≠ q → p2.heap.find r = p.heap.find r) := by
  have hs := Reachable.is_sound eng p hr
  have hn := reachable_hierarchies_nodup eng p hr
  obtain ⟨s1, n1, cs1, ec1, hc1⟩ := MainWidget.beforeBuildKeys_spec inp p hs hn
  have hsame := MainWidget.beforeBuildKeys_sameCore inp p
  have e : MainWidget.updateEvent eng inp p
      = MainWidget.bufferKeys inp (MainWidget.buildKeys eng inp
          (MainWidget.beforeBuildKeys inp p)) := rfl
  rw [e] at hp2
  rw [← hp1] at s1 n1 ec1 hsame hp2
  clear e hp1
  obtain ⟨o, ho, hlen, hb⟩ := MainWidget.buildKeys_one eng inp p1 s1 isB hB hT
  have hsil := MainWidget.bufferKeys_silent inp (MainWidget.buildKeys eng inp p1)
  have hmax := MainWidget.bufferKeys_maxDraw inp (MainWidget.buildKeys eng inp p1)
  rw [← hp2] at hsil hmax
  have hhier5 : (MainWidget.buildKeys eng inp p1).hierarchies = p1.hierarchies :=
    MainWidget.buildKeys_hierarchies eng inp p1
  have hded5 : dedicatedHierarchy (inp.keyPressed .Shift) isB (MainWidget.buildKeys eng inp p1)
      = dedicatedHierarchy (inp.keyPressed .Shift) isB p1 := by
    rw [hb]
    cases inp.keyPressed .Shift <;> cases isB <;> rfl
  have hactive5 : (MainWidget.buildKeys eng inp p1).m_staticGeometry
      = dedicatedHierarchy (inp.keyPressed .Shift) isB p1 := by rw [hb]
  have hheap5 : (MainWidget.buildKeys eng inp p1).heap
      = p1.heap.setGeometry (dedicatedHierarchy (inp.keyPressed .Shift) isB p1)
          ⟨o.instances,
           some (dedicatedMethod isB, dedicatedPredicate (inp.keyPressed .Shift)),
           eng.depthAfterBuild (dedicatedMethod isB)
             (dedicatedPredicate (inp.keyPressed .Shift)) o.instances⟩ := by rw [hb]
  have hmax5 : (MainWidget.buildKeys eng inp p1).m_maxDraw
      = wrapInt (eng.depthAfterBuild (dedicatedMethod isB)
             (dedicatedPredicate (inp.keyPressed .Shift)) o.instances) := by rw [hb]
  have hcalls5 : (MainWidget.buildKeys eng inp p1).calls
      = p1.calls ++
          [Call.build (dedicatedHierarchy (inp.keyPressed .Shift) isB p1) (some o)
             (dedicatedMethod isB) (dedicatedPredicate (inp.keyPressed .Shift)),
           Call.depth (dedicatedHierarchy (inp.keyPressed .Shift) isB p1)
             (some ⟨o.instances,
               some (dedicatedMethod isB, dedicatedPredicate (inp.keyPressed .Shift)),
               eng.depthAfterBuild (dedicatedMethod isB)
                 (dedicatedPredicate (inp.keyPressed .Shift)) o.instances⟩)] := by rw [hb]
  clear hb
  generalize MainWidget.buildKeys eng inp p1 = p5 at *
  have hq1 : q = dedicatedHierarchy (inp.keyPressed .Shift) isB p1 := by
    rw [hq, dedicatedHierarchy_sameCore hsil.1, hded5]
  rw [← hq1] at ho hactive5 hheap5 hcalls5
  have hhier2 : p2.hierarchies = p1.hierarchies := by rw [hsil.1.hierarchies, hhier5]
  have hheap2 : p2.heap = p1.heap.setGeometry q _ := hsil.1.2.2.1.trans hheap5
  have hgeo : p2.heap.geometry q
      = some ⟨o.instances,
          some (dedicatedMethod isB, dedicatedPredicate (inp.keyPressed .Shift)),
          eng.depthAfterBuild (dedicatedMethod isB)
            (dedicatedPredicate (inp.keyPressed .Shift)) o.instances⟩ := by
    rw [hheap2, Heap.geometry_setGeometry, Heap.find_isSome_of_geometry _ _ _ ho]
    simp
  have hact2 : p2.m_staticGeometry = q := hsil.1.2.1.trans hactive5
  have hdepth : p2.activeDepth = eng.depthAfterBuild (dedicatedMethod isB)
            (dedicatedPredicate (inp.keyPressed .Shift)) o.instances := by
    unfold MainWidgetPrivate.activeDepth
    rw [hact2, hgeo]
  have hfind : ∀ r, r ≠ q → p2.heap.find r = p1.heap.find r := by
    intro r hrq
    rw [hheap2, Heap.find_setGeometry, if_neg hrq]
  have hmax2 : p2.m_maxDraw = wrapInt p2.activeDepth := by rw [hmax, hmax5, hdepth]
  refine ⟨o, hlen, ?_, ?_, ?_, hact2, hgeo, hdepth, hmax2, ?_, hhier2, hfind, ?_⟩
  · have hc : p2.calls = p.calls ++ (cs1 ++
        [Call.build q (some o) (dedicatedMethod isB) (dedicatedPredicate (inp.keyPressed .Shift)),
         Call.depth q
           (some ⟨o.instances,
             some (dedicatedMethod isB, dedicatedPredicate (inp.keyPressed .Shift)),
             eng.depthAfterBuild (dedicatedMethod isB)
               (dedicatedPredicate (inp.keyPressed .Shift)) o.instances⟩)]) := by
      rw [hsil.2, hcalls5, ec1, List.append_assoc]
    rw [newCalls_of_append p p2 _ hc, List.filter_append, filter_isBuild_of_none cs1 hc1]
    rfl
  · rw [hhier2, hq1]
    exact dedicatedHierarchy_mem p1 _ _
  · rw [hhier2]
    exact n1
  · intro hD
    rw [hmax2]
    exact wrapInt_of_int _ (by omega) hD
  · intro hno
    have h := hsame hno
    refine ⟨hhier2.trans h.hierarchies, ?_⟩
    intro r hrq
    rw [hfind r hrq, h.2.2.1]

theorem shortcut_build_mapping_witness :
    Reachable sampleEngine (MainWidget.initializeGL openTriangle) ∧
    (MainWidget.updateEvent sampleEngine (keys [.T] [.Shift])
      (MainWidget.initializeGL openTriangle)).m_staticGeometry = 12 ∧
    ∃ o : KStaticGeometry,
      o.instances.length = 4 ∧
      (newCalls (MainWidget.initializeGL openTriangle)
        (MainWidget.updateEvent sampleEngine (keys [.T] [.Shift])
          (MainWidget.initializeGL openTriangle))).filter Call.isBuild
        = [Call.build 12 (some o) .TopDownMethod .depth7] :=
  ⟨Reachable.init openTriangle, by decide,
   (shortcut_build_mapping sampleEngine (MainWidget.initializeGL openTriangle)
     (Reachable.init openTriangle) (keys [.T] [.Shift]) false (by decide) (by decide)
     _ _ rfl rfl 12 (by decide)).imp (fun _ h => ⟨h.1, h.2.1⟩)⟩

/-! ## Claim C13 -/

/-- C13: in every state reached from the initial binding (block 0 at binding
points 1 and 2, indices `(0, 1)`) by any sequence of `swapRenderBlocks` and
`fixRenderBlocks` calls, after `fixRenderBlocks` returns the binding points 1
and 2 hold the same render block, that block is the one `currentRenderBlock()`
returns, and `previousRenderBlock()` returns the same block. -/
theorem fixRenderBlocks_current_is_previous (s : MainWidgetPrivate V)
    (h : BlocksReachable s) :
    (MainWidgetPrivate.fixRenderBlocks s).boundBufferId 1
      = (MainWidgetPrivate.fixRenderBlocks s).boundBufferId 2 ∧
    (MainWidgetPrivate.fixRenderBlocks s).boundBufferId 1
      = some (MainWidgetPrivate.currentRenderBlock (MainWidgetPrivate.fixRenderBlocks s)) ∧
    MainWidgetPrivate.previousRenderBlock (MainWidgetPrivate.fixRenderBlocks s)
      = MainWidgetPrivate.currentRenderBlock (MainWidgetPrivate.fixRenderBlocks s) := by
  have hs := blocksReachable_blockState s h
  have hf := MainWidgetPrivate.blockState_fixRenderBlocks s
  simp only [blockStates, List.mem_cons, List.mem_singleton, List.not_mem_nil, or_false,
    MainWidgetPrivate.blockState, Prod.mk.injEq] at hs hf
  simp only [MainWidgetPrivate.previousRenderBlock, MainWidgetPrivate.currentRenderBlock]
  rcases hs with ⟨h0, h1, h2⟩ | ⟨h0, h1, h2⟩ | ⟨h0, h1, h2⟩ | ⟨h0, h1, h2⟩ <;>
    simp [h0, h1, h2] at hf <;>
    obtain ⟨f0, f1, f2⟩ := hf <;>
    simp [f0, f1, f2]

theorem fixRenderBlocks_current_is_previous_witness :
    BlocksReachable
      (MainWidgetPrivate.swapRenderBlocks (MainWidget.initializeGL openTriangle)) ∧
    (MainWidgetPrivate.fixRenderBlocks
      (MainWidgetPrivate.swapRenderBlocks (MainWidget.initializeGL openTriangle))).boundBufferId 1
      = some 1 ∧
    MainWidgetPrivate.previousRenderBlock (MainWidgetPrivate.fixRenderBlocks
      (MainWidgetPrivate.swapRenderBlocks (MainWidget.initializeGL openTriangle)))
      = MainWidgetPrivate.currentRenderBlock (MainWidgetPrivate.fixRenderBlocks
          (MainWidgetPrivate.swapRenderBlocks (MainWidget.initializeGL openTriangle))) :=
  ⟨BlocksReachable.swap _ (BlocksReachable.init _ ⟨by decide, by decide, by decide⟩),
   by decide,
   (fixRenderBlocks_current_is_previous _
     (BlocksReachable.swap _ (BlocksReachable.init _ ⟨by decide, by decide, by decide⟩))).2.2⟩

/-! ## Claim C14 -/

/-- C14 evaluated on the first frame after a hierarchy is switched and after the
first build.  Switch: T, three times `}`, then B, on an engine whose top-down
tree has depth 3 and whose bottom-up tree has depth 2: the build handling sets
`m_maxDraw` to the new depth 2 and leaves `m_minDraw` at 3, and the next
`paintGL` calls `drawAabbs` with the range `(3, 2)`.  First build: `{` while no
hierarchy is active (the clamp block is skipped), then B: the next `paintGL`
calls `drawAabbs` with the range `(-1, 2)`. -/
theorem drawAabbs_range_after_build :
    (afterSwitch.m_minDraw = 3 ∧ afterSwitch.m_maxDraw = 2 ∧ afterSwitch.activeDepth = 2) ∧
    Call.drawAabbs 14 (some sampleBuilt) 3 2
      ∈ newCalls afterSwitch (step sampleEngine (.paintGL false) afterSwitch) ∧
    (Call.drawAabbs 14 (some sampleBuilt) 3 2).RangeWithinDepth = false ∧
    (afterFirstBuild.m_minDraw = -1 ∧ afterFirstBuild.m_maxDraw = 2 ∧
      afterFirstBuild.activeDepth = 2) ∧
    Call.drawAabbs 14 (some sampleBuilt) (-1) 2
      ∈ newCalls afterFirstBuild (step sampleEngine (.paintGL false) afterFirstBuild) ∧
    (Call.drawAabbs 14 (some sampleBuilt) (-1) 2).RangeWithinDepth = false ∧
    ((newCalls afterSwitch (step sampleEngine (.paintGL false) afterSwitch)).all
      Call.RangeWithinDepth) = false := by
  decide

/-! ## Claim C15 -/

/-- C15 evaluated at two consecutive frames with a moving camera after start-up:
the indices are a permutation of `(0, 1)` throughout; after the first swap the
block of `currentRenderBlock()` (block 1) is bound at point 1 and the other at
point 2; after the second swap `currentRenderBlock()` is block 0 and
`previousRenderBlock()` is block 1, but the swap has bound block 1 at point 1
and block 0 at point 2 again, so the current block sits at the binding point of
the previous one and the previous block at the point of the current one. -/
theorem second_swap_crosses_bindings :
    (afterDirtyFrames 1).m_renderBlockIndex = (1, 0) ∧
    (afterDirtyFrames 1).boundBufferId 1
      = some (MainWidgetPrivate.currentRenderBlock (afterDirtyFrames 1)) ∧
    (afterDirtyFrames 1).boundBufferId 2
      = some (MainWidgetPrivate.previousRenderBlock (afterDirtyFrames 1)) ∧
    (afterDirtyFrames 2).m_renderBlockIndex = (0, 1) ∧
    MainWidgetPrivate.currentRenderBlock (afterDirtyFrames 2) = 0 ∧
    MainWidgetPrivate.previousRenderBlock (afterDirtyFrames 2) = 1 ∧
    (afterDirtyFrames 2).boundBufferId 1 = some 1 ∧
    (afterDirtyFrames 2).boundBufferId 2 = some 0 ∧
    (newCalls (afterDirtyFrames 1) (afterDirtyFrames 2)).take 5
      = [Call.beginFrame, Call.commitGL, Call.bindBase 1 1, Call.bindBase 0 2,
         Call.setViewMatrix 0] ∧
    (MainWidgetPrivate.swapRenderBlocks (MainWidgetPrivate.swapRenderBlocks
      (MainWidget.initializeGL openTriangle))).blockState = ((0, 1), some 1, some 0) := by
  decide

end KarmaView
